import Mathlib

/-!
# testbed-os GUI command runner (`assets/scripts/run_command.js`)

A shallow embedding of the two-phase websocket command pipeline of the
testbed-os web GUI, and theorems about it.

* `request_command` opens the command generation socket, stores the
  generated instructions and, when that socket closes, calls
  `run_orchestration`;
* `run_orchestration` sends the stored instructions one at a time over a
  second socket, counting two replies per instruction (`handle_message`);
* `formatServerSendMessages` / `formatServerResponseMessages` render what is
  sent and received into the pseudo terminal;
* `get_button_command_json` builds the request of a button from the form,
  with `convertCommandToListOfStrings` splitting the command of a tool.

JavaScript values are embedded as `Json` (`Option Json` where a value may be
`undefined`); the browser objects the script talks to (the websocket, the
pseudo terminal element, the console, the clock, the form) are explicit state.  A
handler that throws keeps the mutations it made before the throw, so handlers
return an `Outcome` carrying the state in both cases.
-/

namespace RunCommand

/-! ## JavaScript values -/

/-- A JSON value as produced by `JSON.parse`.  Numbers are modelled on the
integers (the safe integer range of a JavaScript number); an object is the list
of its own properties in insertion order, keys pairwise distinct. -/
inductive Json where
  | null
  | bool (b : Bool)
  | num (n : Int)
  | str (s : String)
  | arr (xs : List Json)
  | obj (kvs : List (String × Json))

/-- The exceptions the script can run into. -/
inductive JSError where
  | TypeError
  | SyntaxError
  | InvalidStateError
  deriving DecidableEq, Repr

/-- Result of running a handler: it returned, or it threw; in both cases the
state it left behind is kept. -/
inductive Outcome (σ : Type) where
  | returned (s : σ)
  | threw (e : JSError) (s : σ)

/-- The state a handler leaves behind. -/
def Outcome.state {σ : Type} : Outcome σ → σ
  | .returned s => s
  | .threw _ s => s

/-- Whether the handler ended by throwing. -/
def Outcome.hasThrown {σ : Type} : Outcome σ → Bool
  | .returned _ => false
  | .threw _ _ => true

/-- Property read `v[key]` for the property names this script uses (none of
them is an array index, `length` or a prototype member): `undefined` and
`null` throw, an object gives its own property, any other value gives
`undefined`. -/
def jsGet (v : Option Json) (key : String) : Except JSError (Option Json) :=
  match v with
  | none => .error .TypeError
  | some .null => .error .TypeError
  | some (.obj kvs) => .ok (kvs.lookup key)
  | some _ => .ok none

/-- Chained property reads `v[k1][k2]...`. -/
def jsPath (v : Option Json) : List String → Except JSError (Option Json)
  | [] => .ok v
  | k :: ks =>
    match jsGet v k with
    | .ok w => jsPath w ks
    | .error e => .error e

/-- The operator `key in v` for the property names this script uses: it throws
unless `v` is an object or an array. -/
def jsIn (key : String) (v : Option Json) : Except JSError Bool :=
  match v with
  | some (.obj kvs) => .ok (kvs.lookup key).isSome
  | some (.arr _) => .ok false
  | _ => .error .TypeError

/-- The call `v.hasOwnProperty(key)` for the property names this script uses. -/
def jsHasOwnProperty (v : Option Json) (key : String) : Except JSError Bool :=
  match v with
  | none => .error .TypeError
  | some .null => .error .TypeError
  | some (.obj kvs) => .ok (kvs.lookup key).isSome
  | some _ => .ok false

/-- The call `Object.keys(v)`. -/
def Object_keys (v : Option Json) : Except JSError (List String) :=
  match v with
  | none => .error .TypeError
  | some .null => .error .TypeError
  | some (.obj kvs) => .ok (kvs.map Prod.fst)
  | some (.arr xs) => .ok ((List.range xs.length).map fun i => toString i)
  | some (.str s) => .ok ((List.range s.length).map fun i => toString i)
  | some _ => .ok []

/-- Truthiness of a value in a condition. -/
def jsTruthy : Option Json → Bool
  | none => false
  | some .null => false
  | some (.bool b) => b
  | some (.num n) => n != 0
  | some (.str s) => s != ""
  | some _ => true

/-- The test `typeof v === "string"`. -/
def jsIsString : Option Json → Bool
  | some (.str _) => true
  | _ => false

/-- The test `v === true` / `v === false`. -/
def jsIsBool (v : Option Json) (b : Bool) : Bool :=
  match v with
  | some (.bool c) => c == b
  | _ => false

/-- The test `v === s` for a string literal `s`. -/
def jsIsStr (v : Option Json) (s : String) : Bool :=
  match v with
  | some (.str t) => t == s
  | _ => false

mutual
/-- String conversion of a value, as done by `+` with a string operand. -/
def Json.toStr : Json → String
  | .null => "null"
  | .bool b => if b then "true" else "false"
  | .num n => toString n
  | .str s => s
  | .arr xs => Json.toStrList xs
  | .obj _ => "[object Object]"
termination_by structural j => j
/-- String conversion of an array: the elements joined by a comma, `null`
giving the empty string. -/
def Json.toStrList : List Json → String
  | [] => ""
  | x :: r =>
    (match x with
      | .null => ""
      | _ => Json.toStr x)
    ++ (match r with
      | [] => ""
      | _ => ",")
    ++ Json.toStrList r
termination_by structural l => l
end

/-- String conversion of a possibly undefined value. -/
def jsToString : Option Json → String
  | none => "undefined"
  | some j => j.toStr

/-- The call `xs.join(sep)`: `undefined` and `null` elements give the empty
string. -/
def Array_join (xs : List (Option Json)) (sep : String) : String :=
  sep.intercalate (xs.map fun x =>
    match x with
    | none => ""
    | some .null => ""
    | some j => j.toStr)

/-- The call `s.includes(pat)` on the characters of the two strings. -/
def includesChars (pat : List Char) : List Char → Bool
  | [] => pat.isEmpty
  | c :: r => pat.isPrefixOf (c :: r) || includesChars pat r

/-- The call `s.includes(pat)`. -/
def includes (s pat : String) : Bool :=
  includesChars pat.data s.data

/-- Element read `xs[i]` with a possibly negative or too large index. -/
def jsIndex (xs : List Json) (i : Int) : Option Json :=
  if i < 0 then none else xs[i.toNat]?

/-! ## `JSON.stringify`, `JSON.parse`, `TextEncoder` -/

/-- A hexadecimal digit, lower case. -/
def hexDigit (n : Nat) : Char :=
  if n < 10 then Char.ofNat (48 + n) else Char.ofNat (87 + n)

/-- The characters `JSON.stringify` writes for one character of a string. -/
def escapeChar (c : Char) : List Char :=
  if c = '"' then ['\\', '"']
  else if c = '\\' then ['\\', '\\']
  else if c = '\n' then ['\\', 'n']
  else if c = '\r' then ['\\', 'r']
  else if c = '\t' then ['\\', 't']
  else if c.toNat = 8 then ['\\', 'b']
  else if c.toNat = 12 then ['\\', 'f']
  else if c.toNat < 32 then
    ['\\', 'u', '0', '0', hexDigit (c.toNat / 16), hexDigit (c.toNat % 16)]
  else [c]

/-- A string literal as `JSON.stringify` writes it. -/
def quoteString (s : String) : String :=
  "\"" ++ String.mk (s.data.flatMap escapeChar) ++ "\""

mutual
/-- The call `JSON.stringify(j)`. -/
def JSON.stringify : Json → String
  | .null => "null"
  | .bool b => if b then "true" else "false"
  | .num n => toString n
  | .str s => quoteString s
  | .arr xs => "[" ++ JSON.stringifyElements xs ++ "]"
  | .obj kvs => "\x7b" ++ JSON.stringifyMembers kvs ++ "\x7d"
termination_by structural j => j
/-- The elements of an array, comma separated. -/
def JSON.stringifyElements : List Json → String
  | [] => ""
  | x :: r =>
    JSON.stringify x
    ++ (match r with
      | [] => ""
      | _ => ",")
    ++ JSON.stringifyElements r
termination_by structural l => l
/-- The members of an object, comma separated. -/
def JSON.stringifyMembers : List (String × Json) → String
  | [] => ""
  | kv :: r =>
    quoteString kv.1 ++ ":" ++ JSON.stringifyMember kv
    ++ (match r with
      | [] => ""
      | _ => ",")
    ++ JSON.stringifyMembers r
termination_by structural l => l
/-- The value of one member. -/
def JSON.stringifyMember : String × Json → String
  | (_, v) => JSON.stringify v
termination_by structural p => p
end

/-- The call `new TextEncoder().encode(s)`: the UTF-8 bytes of `s`. -/
def TextEncoder_encode (s : String) : List UInt8 :=
  s.data.flatMap String.utf8EncodeChar

/-- Skips JSON white space. -/
def skipWs : List Char → List Char
  | [] => []
  | c :: r => if c = ' ' ∨ c = '\t' ∨ c = '\n' ∨ c = '\r' then skipWs r else c :: r

/-- Value of a hexadecimal digit. -/
def hexValue (c : Char) : Option Nat :=
  if '0' ≤ c ∧ c ≤ '9' then some (c.toNat - 48)
  else if 'a' ≤ c ∧ c ≤ 'f' then some (c.toNat - 87)
  else if 'A' ≤ c ∧ c ≤ 'F' then some (c.toNat - 55)
  else none

/-- The character a `\uXXXX` escape stands for (escapes in the surrogate range
are not supported by this reference parser). -/
def unicodeEscape (a b c d : Char) : Option Char :=
  match hexValue a, hexValue b, hexValue c, hexValue d with
  | some x, some y, some z, some w =>
    let n := ((x * 16 + y) * 16 + z) * 16 + w
    if 0xD800 ≤ n ∧ n ≤ 0xDFFF then none else some (Char.ofNat n)
  | _, _, _, _ => none

/-- The simple escapes of a JSON string. -/
def simpleEscape (c : Char) : Option Char :=
  if c = '"' then some '"'
  else if c = '\\' then some '\\'
  else if c = '/' then some '/'
  else if c = 'b' then some (Char.ofNat 8)
  else if c = 'f' then some (Char.ofNat 12)
  else if c = 'n' then some '\n'
  else if c = 'r' then some '\r'
  else if c = 't' then some '\t'
  else none

/-- Reads a JSON string after its opening quote; returns its characters and
the input after the closing quote. -/
def parseStringBody : Nat → List Char → Option (List Char × List Char)
  | 0, _ => none
  | _ + 1, [] => none
  | fuel + 1, c :: r =>
    if c = '"' then some ([], r)
    else if c = '\\' then
      match r with
      | 'u' :: h1 :: h2 :: h3 :: h4 :: r2 =>
        match unicodeEscape h1 h2 h3 h4, parseStringBody fuel r2 with
        | some x, some (cs, rest) => some (x :: cs, rest)
        | _, _ => none
      | e :: r2 =>
        match simpleEscape e, parseStringBody fuel r2 with
        | some x, some (cs, rest) => some (x :: cs, rest)
        | _, _ => none
      | [] => none
    else if c.toNat < 32 then none
    else
      match parseStringBody fuel r with
      | some (cs, rest) => some (c :: cs, rest)
      | none => none

/-- Reads decimal digits; returns their value and the rest of the input. -/
def parseDigits (acc : Nat) : List Char → Nat × List Char
  | [] => (acc, [])
  | c :: r =>
    if '0' ≤ c ∧ c ≤ '9' then parseDigits (acc * 10 + (c.toNat - 48)) r else (acc, c :: r)

/-- Whether the number just read goes on with a fraction or an exponent
(not supported by this reference parser). -/
def continuesNumber : List Char → Bool
  | c :: _ => c = '.' || c = 'e' || c = 'E'
  | [] => false

/-- Reads an unsigned JSON integer. -/
def parseNat : List Char → Option (Nat × List Char)
  | [] => none
  | c :: r =>
    if c = '0' then
      match r with
      | d :: _ => if ('0' ≤ d ∧ d ≤ '9') || continuesNumber r then none else some (0, r)
      | [] => some (0, r)
    else if '1' ≤ c ∧ c ≤ '9' then
      let res := parseDigits (c.toNat - 48) r
      if continuesNumber res.2 then none else some res
    else none

/-- Reads a JSON integer. -/
def parseNumber : List Char → Option (Json × List Char)
  | '-' :: r =>
    match parseNat r with
    | some (n, rest) => some (.num (-(n : Int)), rest)
    | none => none
  | cs =>
    match parseNat cs with
    | some (n, rest) => some (.num (n : Int), rest)
    | none => none

/-- Defines property `k` of an object under construction: a repeated key keeps
its place and takes the later value. -/
def setProp (k : String) (v : Json) : List (String × Json) → List (String × Json)
  | [] => [(k, v)]
  | kv :: r => if kv.1 = k then (k, v) :: r else kv :: setProp k v r

mutual
/-- Reads one JSON value. -/
def parseValue : Nat → List Char → Option (Json × List Char)
  | 0, _ => none
  | fuel + 1, cs =>
    match skipWs cs with
    | 'n' :: 'u' :: 'l' :: 'l' :: r => some (.null, r)
    | 't' :: 'r' :: 'u' :: 'e' :: r => some (.bool true, r)
    | 'f' :: 'a' :: 'l' :: 's' :: 'e' :: r => some (.bool false, r)
    | '"' :: r =>
      match parseStringBody (r.length + 1) r with
      | some (s, rest) => some (.str (String.mk s), rest)
      | none => none
    | '[' :: r =>
      match skipWs r with
      | ']' :: rest => some (.arr [], rest)
      | _ =>
        match parseElements fuel [] r with
        | some (xs, rest) => some (.arr xs, rest)
        | none => none
    | '{' :: r =>
      match skipWs r with
      | '}' :: rest => some (.obj [], rest)
      | _ =>
        match parseMembers fuel [] r with
        | some (kvs, rest) => some (.obj kvs, rest)
        | none => none
    | rest => parseNumber rest
termination_by structural fuel => fuel
/-- Reads the elements of an array up to its closing bracket. -/
def parseElements : Nat → List Json → List Char → Option (List Json × List Char)
  | 0, _, _ => none
  | fuel + 1, acc, cs =>
    match parseValue fuel cs with
    | none => none
    | some (x, rest) =>
      match skipWs rest with
      | ',' :: r => parseElements fuel (acc ++ [x]) r
      | ']' :: r => some (acc ++ [x], r)
      | _ => none
termination_by structural fuel => fuel
/-- Reads the members of an object up to its closing brace. -/
def parseMembers : Nat → List (String × Json) → List Char → Option (List (String × Json) × List Char)
  | 0, _, _ => none
  | fuel + 1, acc, cs =>
    match skipWs cs with
    | '"' :: r =>
      match parseStringBody (r.length + 1) r with
      | none => none
      | some (k, rest) =>
        match skipWs rest with
        | ':' :: r2 =>
          match parseValue fuel r2 with
          | none => none
          | some (v, rest2) =>
            match skipWs rest2 with
            | ',' :: r3 => parseMembers fuel (setProp (String.mk k) v acc) r3
            | '}' :: r3 => some (setProp (String.mk k) v acc, r3)
            | _ => none
        | _ => none
    | _ => none
termination_by structural fuel => fuel
end

/-- A reference `JSON.parse`: the JSON grammar with integer numbers;
`none` stands for the `SyntaxError`. -/
def JSON.parse (text : String) : Option Json :=
  match parseValue (text.length + 1) text.data with
  | some (j, rest) => if (skipWs rest).isEmpty then some j else none
  | none => none

/-- What the script takes from the browser: the JSON parser and the clock.
`toISOString k` is the text of `new Date().toISOString()` at the `k`-th
evaluation of `new Date()` on the page. -/
structure Env where
  JSON_parse : String → Option Json
  toISOString : Nat → String

/-- A sample environment: the reference parser and a clock that ticks once
per reading. -/
def sampleEnv : Env where
  JSON_parse := JSON.parse
  toISOString := fun k => "1970-01-01T00:00:00.00" ++ toString (k % 10) ++ "Z"

/-! ## The page: pseudo terminal, console, clock, badges -/

/-- A line written to the browser console. -/
inductive ConsoleLine where
  | log (s : String)
  | error (s : String)
  deriving DecidableEq, Repr

/-- The badge `#pseudoTerminalConnectionState`: the two classes the script
toggles, and its text. -/
structure ConnectionState where
  text_bg_primary : Bool
  text_bg_secondary : Bool
  html : String
  deriving DecidableEq, Repr

/-- The parts of the page the command runner reads and writes.
`terminal` is the text last given to `html(...)` of `#pseudoTerminal`
(`append_terminal_text` takes the browser to read back the text that was set,
`append_terminal_text_browser` makes the read-back explicit), `dates` counts
the evaluations of `new Date()`, `state_requests` counts the GET requests of
`get_last_command_state`. -/
structure Page where
  terminal : String
  console : List ConsoleLine
  dates : Nat
  connection_state : ConnectionState
  cancel_disabled : Bool
  displayState : String
  modal_shown : Bool
  state_requests : Nat
  deriving DecidableEq, Repr

/-- The call `console.log(s)`. -/
def console_log (p : Page) (s : String) : Page :=
  { p with console := p.console ++ [.log s] }

/-- The call `console.error(s)`. -/
def console_error (p : Page) (s : String) : Page :=
  { p with console := p.console ++ [.error s] }

/-- Pushes text into the pseudo terminal (the scrolling is not modelled), in a
browser that reads back the HTML that was set: the case `html_of = id` of
`append_terminal_text_browser`. -/
def append_terminal_text (p : Page) (msg : String) : Page :=
  { p with terminal := p.terminal ++ msg ++ "<br>" }

/-- The function `append_terminal_text` with the read-back of the browser made
explicit.  `terminal` is the text last given to `terminal_div.html(...)`, and
`html_of s` is what `terminal_div.html()` returns once `terminal_div.html(s)`
was called: the browser parses `s` and serialises the nodes again (after
"1 < 2 & 3" it returns "1 &lt; 2 &amp; 3", an element left open comes back
closed).  The message itself is not read back here: it is handed to the
browser as it is. -/
def append_terminal_text_browser (html_of : String → String) (p : Page) (msg : String) : Page :=
  let terminal_text := html_of p.terminal
  let terminal_text := terminal_text ++ msg ++ "<br>"
  { p with terminal := terminal_text }

/-- Sets the badge to active. -/
def set_connection_state_active (_ : ConnectionState) : ConnectionState :=
  { text_bg_secondary := false, text_bg_primary := true, html := "Command Runner Active" }

/-- Sets the badge to inactive. -/
def set_connection_state_inactive (_ : ConnectionState) : ConnectionState :=
  { text_bg_primary := false, text_bg_secondary := true, html := "Command Runner Inactive" }

/-- Text of a log line: the time stamp read from the clock, the coloured
level, the message.  Returns the text and the page with the clock read. -/
def log_text_with_colour (env : Env) (p : Page) (is_success : Bool) (msg : String) :
    String × Page :=
  let time_stamp := env.toISOString p.dates
  let log_level :=
    if is_success then "<span style=\"color: #21730d\">  INFO: </span>"
    else "<span style=\"color: #b31e0b\"> ERROR: </span>"
  (time_stamp ++ log_level ++ msg, { p with dates := p.dates + 1 })

/-- Queries the deployment state: one GET request (its asynchronous answer
is not modelled). -/
def get_last_command_state (p : Page) : Page :=
  { p with state_requests := p.state_requests + 1 }

/-- The cleanup after a session. -/
def reset_running_state (p : Page) : Page :=
  let p1 := { p with connection_state := set_connection_state_inactive p.connection_state }
  let p2 := { p1 with cancel_disabled := true }
  get_last_command_state p2

/-! ## Rendering of what is sent and received -/

/-- The instruction of a command: the string itself, or the keys of the
instruction object. -/
def getInstructionName (command_json : Option Json) : Except JSError Json :=
  match jsGet command_json "instruction" with
  | .error e => .error e
  | .ok i =>
    if jsIsString i then .ok (i.getD .null)
    else
      match Object_keys i with
      | .error e => .error e
      | .ok ks => .ok (.arr (ks.map .str))

/-- The name to log for one resource; `none` is `undefined`. -/
def extractNameForOneResource (resource_json : Option Json) : Except JSError (Option Json) := do
  if (← jsIn "Guest" resource_json) then
    jsPath resource_json ["Guest", "name"]
  else if (← jsIn "Network" resource_json) then
    let ovn ← jsPath resource_json ["Network", "Ovn"]
    let name := "Ovn "
    if (← jsIn "Switch" ovn) then
      let n ← jsPath ovn ["Switch", "name"]
      pure (some (.str (name ++ "Switch " ++ jsToString n)))
    else if (← jsIn "SwitchPort" ovn) then
      let n ← jsPath ovn ["SwitchPort", "name"]
      pure (some (.str (name ++ "Switch Port " ++ jsToString n)))
    else if (← jsIn "Router" ovn) then
      let n ← jsPath ovn ["Router", "name"]
      pure (some (.str (name ++ "Router " ++ jsToString n)))
    else if (← jsIn "RouterPort" ovn) then
      let n ← jsPath ovn ["RouterPort", "name"]
      pure (some (.str (name ++ "Router Port " ++ jsToString n)))
    else if (← jsIn "Route" ovn) then
      let ip ← jsPath ovn ["Route", "prefix", "Subnet", "ip"]
      let mask ← jsPath ovn ["Route", "prefix", "Subnet", "mask"]
      let hop ← jsPath ovn ["Route", "next_hop", "Ip"]
      let router ← jsPath ovn ["Route", "router_name"]
      let context := "(Subnet: " ++ jsToString ip ++ "/" ++ jsToString mask
        ++ ", Gateway: " ++ jsToString hop ++ ") on LR " ++ jsToString router
      pure (some (.str (name ++ "Static Route " ++ context)))
    else if (← jsIn "Nat" ovn) then
      let nat ← jsGet ovn "Nat"
      let ext ← jsPath nat ["external_ip", "Ip"]
      let ip ← jsPath nat ["logical_ip", "Subnet", "ip"]
      let mask ← jsPath nat ["logical_ip", "Subnet", "mask"]
      let ty ← jsGet nat "nat_type"
      let lr ← jsGet nat "logical_router_name"
      let context := "(Ip: " ++ jsToString ext ++ ", Subnet: " ++ jsToString ip ++ "/"
        ++ jsToString mask ++ ", " ++ jsToString ty ++ ") on LR " ++ jsToString lr
      pure (some (.str (name ++ "Nat Rule " ++ context)))
    else if (← jsIn "DhcpOption" ovn) then
      let dhcp ← jsGet ovn "DhcpOption"
      let ip ← jsPath dhcp ["cidr", "Subnet", "ip"]
      let mask ← jsPath dhcp ["cidr", "Subnet", "mask"]
      let router ← jsGet dhcp "router"
      let context := "(cidr: " ++ jsToString ip ++ "/" ++ jsToString mask
        ++ ", router: " ++ jsToString router ++ ")"
      pure (some (.str (name ++ "DHCP Option rule " ++ context)))
    else if (← jsIn "ExternalGateway" ovn) then
      let ext_gateway ← jsGet ovn "ExternalGateway"
      let port ← jsGet ext_gateway "router_port_name"
      let chassis ← jsGet ext_gateway "chassis_name"
      let context := "(" ++ jsToString port ++ ", " ++ jsToString chassis
        ++ ") on LRP ovn-lr0-public"
      pure (some (.str (name ++ "External Gateway " ++ context)))
    else
      pure (some (.str name))
  else
    pure none

/-- The names of a list of resources, bracketed, or the name of the one
resource. -/
def extractNameForAllResources (resource_json : Option Json) : Except JSError (Option Json) :=
  match resource_json with
  | some (.arr xs) =>
    match xs.mapM (fun instruction => extractNameForOneResource (some instruction)) with
    | .error e => .error e
    | .ok message_list => .ok (some (.str ("[ " ++ Array_join message_list ", " ++ " ]")))
  | _ => extractNameForOneResource resource_json

/-- The context printed after the instruction name: the resources of a
`Deploy` or `Destroy`, nothing for the other instructions. -/
def extractContextFromCommandJson (instruction_json : Option Json) :
    Except JSError (Option Json) := do
  let instruction ← jsGet instruction_json "instruction"
  if (← jsIn "Deploy" instruction) then
    extractNameForAllResources (← jsGet instruction "Deploy")
  else if (← jsIn "Destroy" instruction) then
    extractNameForAllResources (← jsGet instruction "Destroy")
  else
    pure (some (.str ""))

/-- The text of the request line of a command, before the time stamp is put
in front: the instruction name and its context. -/
def requestText (command_json : Option Json) : Except JSError String := do
  let instruction ← getInstructionName command_json
  let context ←
    if !jsIsString (← jsGet command_json "instruction") then
      extractContextFromCommandJson command_json
    else
      pure (some (.str ""))
  pure ("making request: " ++ instruction.toStr ++ " " ++ jsToString context)

/-- Prints the request line of a command into the pseudo terminal.  Every
throw happens while the text is built, before the terminal is touched. -/
def formatServerSendMessages (env : Env) (p : Page) (command_json : Option Json) :
    Except JSError Page :=
  match requestText command_json with
  | .error e => .error e
  | .ok formatted_text =>
    let (formatted_text, p) := log_text_with_colour env p true formatted_text
    .ok (append_terminal_text p formatted_text)

/-- The `forEach` over the entries of a `List` response: the messages of the
entries with a truthy `is_success`, and the messages of the others. -/
def partitionEntries :
    List Json → List (Option Json) → List (Option Json) →
      Except JSError (List (Option Json) × List (Option Json))
  | [], successful, failed => .ok (successful, failed)
  | xx :: rest, successful, failed =>
    match jsGet (some xx) "is_success", jsGet (some xx) "message" with
    | .ok is_success, .ok message =>
      if jsTruthy is_success then partitionEntries rest (successful ++ [message]) failed
      else partitionEntries rest successful (failed ++ [message])
    | .error e, _ => .error e
    | _, .error e => .error e

/-- The two lines of a `List` response. -/
def formatList (env : Env) (p : Page) (instruction : Json)
    (successful failed : List (Option Json)) : Page :=
  let p1 :=
    if successful.length > 0 then
      let list_text :=
        if successful.length = 1 then Array_join successful ", "
        else "[ " ++ Array_join successful ", " ++ " ]"
      let list_text := instruction.toStr ++ " Ok: " ++ list_text
      let (formatted_text, q) := log_text_with_colour env p true list_text
      append_terminal_text q formatted_text
    else p
  if failed.length > 0 then
    let list_text :=
      if successful.length = 1 then Array_join failed ", "
      else "[ " ++ Array_join failed ", " ++ " ]"
    let list_text := "Fail: " ++ list_text
    let (formatted_text, q) := log_text_with_colour env p1 false list_text
    append_terminal_text q formatted_text
  else p1

/-- The `try` block of `formatServerResponseMessages`.  Every throw happens
before the page is touched. -/
def formatServerResponseMessages_try (env : Env) (p : Page) (text : String)
    (instruction : Json) : Except JSError Page :=
  match env.JSON_parse text with
  | none => .error .SyntaxError
  | some json_message => do
    if (← jsIn "Generic" (some json_message)) then
      let is_success ← jsPath (some json_message) ["Generic", "is_success"]
      let message ← jsPath (some json_message) ["Generic", "message"]
      let (formatted_text, q) := log_text_with_colour env p (jsTruthy is_success) (jsToString message)
      pure (append_terminal_text q formatted_text)
    else if (← jsIn "Single" (some json_message)) then
      let is_success ← jsPath (some json_message) ["Single", "is_success"]
      let message ← jsPath (some json_message) ["Single", "message"]
      let (formatted_text, q) := log_text_with_colour env p (jsTruthy is_success) (jsToString message)
      pure (append_terminal_text q formatted_text)
    else if (← jsIn "List" (some json_message)) then
      match (← jsGet (some json_message) "List") with
      | some (.arr entries) =>
        let (successful, failed) ← partitionEntries entries [] []
        pure (formatList env p instruction successful failed)
      | _ => .error .TypeError
    else if (← jsIn "Log" (some json_message)) then
      pure (console_error p "Should not be parsing the 'Log' message here")
    else
      pure (console_error p
        "The json message from the server did not match the three variants in OrchestrationProtocolResponse")

/-- Prints a response of the server into the pseudo terminal.  The name of
the last command is read outside the `try`, so a missing last command throws;
whatever the `try` block throws is caught and the text is printed as it is. -/
def formatServerResponseMessages (env : Env) (p : Page) (text : String)
    (last_command : Option Json) : Except JSError Page :=
  match getInstructionName last_command with
  | .error e => .error e
  | .ok instruction =>
    match formatServerResponseMessages_try env p text instruction with
    | .ok q => .ok q
    | .error _ =>
      .ok (append_terminal_text (console_log p ("@ message was not a JSON = " ++ text)) text)

/-! ## The websocket -/

/-- The `readyState` of a websocket. -/
inductive ReadyState where
  | CONNECTING
  | OPEN
  | CLOSING
  | CLOSED
  deriving DecidableEq, Repr

/-- A frame put on the wire. -/
inductive Frame where
  | text (s : String)
  | binary (bytes : List UInt8)
  deriving DecidableEq, Repr

/-- What arrives as `event.data` of a message event. -/
inductive MessageData where
  | text (s : String)
  | blob (bytes : List UInt8)
  deriving DecidableEq, Repr

/-- A websocket as the script sees it: its state and the frames it has
transmitted. -/
structure WebSocket where
  readyState : ReadyState
  sent : List Frame
  deriving DecidableEq, Repr

/-- The call `new WebSocket(url)`. -/
def WebSocket.new : WebSocket :=
  { readyState := .CONNECTING, sent := [] }

/-- The call `ws.send(frame)`: throws while connecting, transmits when open,
drops the frame once the socket is closing or closed. -/
def WebSocket.send (ws : WebSocket) (frame : Frame) : Except JSError WebSocket :=
  match ws.readyState with
  | .CONNECTING => .error .InvalidStateError
  | .OPEN => .ok { ws with sent := ws.sent ++ [frame] }
  | .CLOSING => .ok ws
  | .CLOSED => .ok ws

/-- The call `ws.close()`: starts the closing handshake unless already
closing or closed. -/
def WebSocket.close (ws : WebSocket) : WebSocket :=
  match ws.readyState with
  | .CLOSING => ws
  | .CLOSED => ws
  | _ => { ws with readyState := .CLOSING }

/-! ## `run_orchestration` -/

/-- The variables of one call of `run_orchestration`, with the page. -/
structure Runner where
  generated_commands : List Json
  messages_received : Nat
  current_command : Nat
  command_runner_websocket : WebSocket
  page : Page

/-- The constant `n_commands`. -/
def Runner.n_commands (r : Runner) : Nat :=
  r.generated_commands.length

/-- The text the server answers to a cancel request. -/
def cancelResponse : String :=
  "\x7b\"Generic\":\x7b\"is_success\":false,\"message\":\"Cancel request\"\x7d\x7d"

/-- The marker of a log message. -/
def logMarker : String :=
  "\x7b\"Log\":\x7b"

/-- The body of `run_orchestration` up to the registration of the handlers. -/
def run_orchestration (generated_commands : List Json) (websocket_url : String) (page : Page) :
    Runner :=
  let page := console_log page "running orchestration"
  let page := console_log page (websocket_url ++ "/api/orchestration/ws")
  { generated_commands := generated_commands
    messages_received := 0
    current_command := 0
    command_runner_websocket := WebSocket.new
    page := page }

/-- Prints and sends command `msg_n`. -/
def send_message (env : Env) (r : Runner) (msg_n : Nat) : Outcome Runner :=
  match formatServerSendMessages env r.page (r.generated_commands[msg_n]?) with
  | .error e => .threw e r
  | .ok page =>
    let r1 := { r with page := page }
    let text :=
      match r.generated_commands[msg_n]? with
      | some c => JSON.stringify c
      | none => ""
    match r1.command_runner_websocket.send (.binary (TextEncoder_encode text)) with
    | .error e => .threw e r1
    | .ok ws => .returned { r1 with command_runner_websocket := ws }

/-- The log branch of `handle_message`: the message count is not touched. -/
def handle_message_log (env : Env) (r : Runner) (message : String) : Outcome Runner :=
  match env.JSON_parse message with
  | none => .threw .SyntaxError r
  | some json_message =>
    match jsPath (some json_message) ["Log", "level"],
        jsPath (some json_message) ["Log", "message"] with
    | .ok log_level, .ok log_message =>
      if jsIsStr log_level "Info" then
        let (text, q) := log_text_with_colour env r.page true (jsToString log_message)
        .returned { r with page := append_terminal_text q text }
      else if jsIsStr log_level "Error" then
        let (text, q) := log_text_with_colour env r.page false (jsToString log_message)
        .returned { r with page := append_terminal_text q text }
      else .returned r
    | .error e, _ => .threw e r
    | _, .error e => .threw e r

/-- The counting branch of `handle_message`: one more reply; at the second
reply either the end of the commands or the next command. -/
def handle_message_count (env : Env) (r : Runner) : Outcome Runner :=
  let r1 := { r with messages_received := r.messages_received + 1 }
  if r1.messages_received = 2 then
    if r1.current_command = r1.n_commands then
      let page := console_log r1.page "we have reached the end of commands, closing"
      let page := append_terminal_text page "End of command running."
      .returned { r1 with page := page, command_runner_websocket := r1.command_runner_websocket.close }
    else
      match send_message env r1 r1.current_command with
      | .threw e r2 => .threw e r2
      | .returned r2 =>
        .returned { r2 with current_command := r2.current_command + 1, messages_received := 0 }
  else .returned r1

/-- The message handler of the command runner socket. -/
def handle_message (env : Env) (r : Runner) (message : MessageData) : Outcome Runner :=
  match message with
  | .blob _ =>
    let page := append_terminal_text r.page
      "Error: received a blob message from server, this is not supported, please raise a GitHub issue"
    let r1 := { r with page := page, command_runner_websocket := r.command_runner_websocket.close }
    -- a Blob has no `includes`: the test for a log message throws
    .threw .TypeError r1
  | .text message =>
    if includes message cancelResponse then
      let page := append_terminal_text r.page "Command has been cancelled, end of command running."
      .returned { r with page := page, command_runner_websocket := r.command_runner_websocket.close }
    else
      let printed : Except JSError Page :=
        if message = "Receiving instruction OK" then .ok r.page
        else
          formatServerResponseMessages env r.page message
            (jsIndex r.generated_commands ((r.current_command : Int) - 1))
      match printed with
      | .error e => .threw e r
      | .ok page =>
        let r1 := { r with page := page }
        if includes message logMarker then handle_message_log env r1 message
        else handle_message_count env r1

/-- The `open` handler: sends the first command. -/
def on_open (env : Env) (r : Runner) : Outcome Runner :=
  match send_message env r r.current_command with
  | .threw e r1 => .threw e r1
  | .returned r1 => .returned { r1 with current_command := r1.current_command + 1 }

/-- The frame of a cancel request. -/
def cancelFrame : Frame :=
  .binary (TextEncoder_encode (JSON.stringify (.obj [("instruction", .str "Cancel")])))

/-- The click handler of the cancel button: sends the cancel request. -/
def on_cancel_click (r : Runner) : Outcome Runner :=
  match r.command_runner_websocket.send cancelFrame with
  | .error e => .threw e r
  | .ok ws => .returned { r with command_runner_websocket := ws }

/-- The `onclose` handler of the command runner socket. -/
def onclose (r : Runner) (reason : String) : Runner :=
  let page := console_log r.page "closing orchestration websocket"
  let page := append_terminal_text page ("<br>" ++ reason)
  { r with page := reset_running_state page }

/-- What can happen to a running session. -/
inductive Event where
  | opened
  | message (data : MessageData)
  | cancel_click
  | closed (reason : String)

/-- The browser delivering an event to the session: `opened` once, when the
connection is established; messages only while the socket is open; every
click on the cancel button that reaches its handler; `closed` once. -/
def dispatch (env : Env) (r : Runner) : Event → Runner
  | .opened =>
    if r.command_runner_websocket.readyState = .CONNECTING then
      (on_open env
        { r with command_runner_websocket :=
            { r.command_runner_websocket with readyState := .OPEN } }).state
    else r
  | .message data =>
    if r.command_runner_websocket.readyState = .OPEN then (handle_message env r data).state
    else r
  | .cancel_click => (on_cancel_click r).state
  | .closed reason =>
    if r.command_runner_websocket.readyState = .CLOSED then r
    else
      onclose
        { r with command_runner_websocket :=
            { r.command_runner_websocket with readyState := .CLOSED } } reason

/-- A session fed a sequence of events. -/
def runEvents (env : Env) (r : Runner) (events : List Event) : Runner :=
  events.foldl (dispatch env) r

/-! ## `request_command` -/

/-- The variables of one call of `request_command`, with the page. -/
structure Generator where
  init_schema : Json
  websocket_url : String
  generated_commands : List Json
  command_generation_failure : Bool
  command_generator_websocket : WebSocket
  page : Page

/-- The body of `request_command` up to the registration of the handlers.
`websocket_url` is `server_url` with its scheme replaced (`server_url` is
defined by the page, outside these scripts). -/
def request_command (init_schema : Json) (websocket_url : String) (page : Page) : Generator :=
  let page :=
    if page.connection_state.text_bg_primary then { page with modal_shown := true } else page
  let page := { page with cancel_disabled := false }
  { init_schema := init_schema
    websocket_url := websocket_url
    generated_commands := []
    command_generation_failure := false
    command_generator_websocket := WebSocket.new
    page := page }

/-- The `onopen` handler of the command generator socket. -/
def command_generator_onopen (g : Generator) : Outcome Generator :=
  let page := { g.page with terminal := "" }
  let g1 := { g with page := page }
  match g1.command_generator_websocket.send (.text (JSON.stringify g1.init_schema)) with
  | .error e => .threw e g1
  | .ok ws =>
    let page := { page with connection_state := set_connection_state_active page.connection_state }
    let page := { page with displayState := "RUNNING" }
    .returned { g1 with command_generator_websocket := ws, page := page }

/-- The text `JSON.parse` is given for a message. -/
def MessageData.asText : MessageData → String
  | .text s => s
  | .blob _ => "[object Blob]"

/-- The `onmessage` handler of the command generator socket. -/
def command_generator_onmessage (env : Env) (g : Generator) (data : MessageData) :
    Outcome Generator :=
  match env.JSON_parse data.asText with
  | none => .threw .SyntaxError g
  | some server_message =>
    match jsHasOwnProperty (some server_message) "init_msg" with
    | .error e => .threw e g
    | .ok true =>
      let init_msg := (jsGet (some server_message) "init_msg").toOption.join
      let was_error := (jsGet (some server_message) "was_error").toOption.join
      let message := (jsGet (some server_message) "message").toOption.join
      if jsIsBool init_msg true then
        if jsIsBool was_error false then
          let text := "Executing the following command: <br>" ++ jsToString message
          .returned { g with page := append_terminal_text g.page text }
        else
          let text := "Command sent to server was not understood: <br>" ++ jsToString message
          .returned { g with
            page := append_terminal_text g.page text
            command_generation_failure := true }
      else
        if jsIsBool was_error false then
          .returned { g with page := append_terminal_text g.page (jsToString message) }
        else
          let text := jsToString message ++ "<br>Please see server logs for more details."
          .returned { g with
            page := append_terminal_text g.page text
            command_generation_failure := true }
    | .ok false =>
      .returned { g with generated_commands := g.generated_commands ++ [server_message] }

/-- What follows the command generation: the orchestration, or nothing. -/
inductive AfterGeneration where
  | orchestration (r : Runner)
  | halted (page : Page)

/-- The two `close` handlers of the command generator socket, in the order
they were registered. -/
def command_generator_onclose (g : Generator) : AfterGeneration :=
  let page := console_log g.page "closed command generator socket"
  if g.command_generation_failure = false then
    .orchestration (run_orchestration g.generated_commands g.websocket_url page)
  else
    let page := append_terminal_text page
      "Due to an error in command generation, will not continue to orchestration."
    .halted (reset_running_state page)

/-- The messages of the command generator socket, delivered in order. -/
def receiveGenerated (env : Env) (g : Generator) (messages : List MessageData) : Generator :=
  messages.foldl (fun g data => (command_generator_onmessage env g data).state) g

/-- A whole command generation: the socket opens, the messages arrive, the
socket closes. -/
def generation (env : Env) (init_schema : Json) (websocket_url : String) (page : Page)
    (messages : List MessageData) : AfterGeneration :=
  let g := request_command init_schema websocket_url page
  let g := (command_generator_onopen
    { g with command_generator_websocket :=
        { g.command_generator_websocket with readyState := .OPEN } }).state
  let g := receiveGenerated env g messages
  command_generator_onclose
    { g with command_generator_websocket :=
        { g.command_generator_websocket with readyState := .CLOSED } }

/-- The events of the command runner socket after a command generation: they
reach a session only if one was started. -/
def AfterGeneration.run (env : Env) (a : AfterGeneration) (events : List Event) :
    AfterGeneration :=
  match a with
  | .orchestration r => .orchestration (runEvents env r events)
  | .halted page => .halted page

/-- The frames transmitted over the command runner socket. -/
def AfterGeneration.sent : AfterGeneration → List Frame
  | .orchestration r => r.command_runner_websocket.sent
  | .halted _ => []

/-- Whether `run_orchestration` was called. -/
def AfterGeneration.isOrchestration : AfterGeneration → Bool
  | .orchestration _ => true
  | .halted _ => false

/-- A session whose socket opens and then receives the given messages. -/
def session (env : Env) (generated_commands : List Json) (websocket_url : String) (page : Page)
    (messages : List MessageData) : Runner :=
  runEvents env (run_orchestration generated_commands websocket_url page)
    (.opened :: messages.map .message)

/-- The frame `send_message` transmits for a command. -/
def instructionFrame (command : Json) : Frame :=
  .binary (TextEncoder_encode (JSON.stringify command))

/-- The test of line 444: the message contains the log marker. -/
def MessageData.isLog : MessageData → Bool
  | .text s => includes s logMarker
  | .blob _ => false

/-- The test of line 423: the message contains the cancel response. -/
def MessageData.isCancelResponse : MessageData → Bool
  | .text s => includes s cancelResponse
  | .blob _ => false

/-- Whether the message is a text frame. -/
def MessageData.isText : MessageData → Bool
  | .text _ => true
  | .blob _ => false

/-- Number of messages that are not log messages. -/
def nonLogCount (messages : List MessageData) : Nat :=
  (messages.filter fun m => !m.isLog).length

/-- The session has printed the end of the commands as its last line and
closed its socket. -/
def Runner.done (r : Runner) : Bool :=
  r.command_runner_websocket.readyState = .CLOSING
    && "End of command running.<br>".data.isSuffixOf r.page.terminal.data

/-! ## The protocol state of a session

The counters and the socket of a session do not depend on what is printed:
`Core` keeps only them, and `Core.dispatch` is `dispatch` on that part
(`dispatch_core`).  The theorems on the frames of a session are proved on
`Core` and carried over. -/

/-- Whether the request line of a command can be built. -/
def sendable (command_json : Option Json) : Bool :=
  match requestText command_json with
  | .ok _ => true
  | .error _ => false

/-- Whether the name of a command can be read. -/
def nameable (command_json : Option Json) : Bool :=
  match getInstructionName command_json with
  | .ok _ => true
  | .error _ => false

/-- The counters and the socket of a session. -/
structure Core where
  messages_received : Nat
  current_command : Nat
  ws : WebSocket
  deriving DecidableEq, Repr

/-- The protocol state of a session. -/
def Runner.core (r : Runner) : Core :=
  { messages_received := r.messages_received
    current_command := r.current_command
    ws := r.command_runner_websocket }

/-- The effect of `send_message` on the protocol state; `none` when it throws. -/
def Core.send_message (gc : List Json) (c : Core) (msg_n : Nat) : Option Core :=
  if sendable gc[msg_n]? then
    let text :=
      match gc[msg_n]? with
      | some x => JSON.stringify x
      | none => ""
    match c.ws.send (.binary (TextEncoder_encode text)) with
    | .ok ws => some { c with ws := ws }
    | .error _ => none
  else none

/-- The effect of the counting branch on the protocol state. -/
def Core.handle_message_count (gc : List Json) (c : Core) : Core :=
  let c1 := { c with messages_received := c.messages_received + 1 }
  if c1.messages_received = 2 then
    if c1.current_command = gc.length then { c1 with ws := c1.ws.close }
    else
      match Core.send_message gc c1 c1.current_command with
      | none => c1
      | some c2 => { c2 with current_command := c2.current_command + 1, messages_received := 0 }
  else c1

/-- The effect of `handle_message` on the protocol state. -/
def Core.handle_message (gc : List Json) (c : Core) : MessageData → Core
  | .blob _ => { c with ws := c.ws.close }
  | .text message =>
    if includes message cancelResponse then { c with ws := c.ws.close }
    else if message ≠ "Receiving instruction OK"
        ∧ nameable (jsIndex gc ((c.current_command : Int) - 1)) = false then c
    else if includes message logMarker then c
    else Core.handle_message_count gc c

/-- The effect of `dispatch` on the protocol state. -/
def Core.dispatch (gc : List Json) (c : Core) : Event → Core
  | .opened =>
    if c.ws.readyState = .CONNECTING then
      let c1 := { c with ws := { c.ws with readyState := .OPEN } }
      match Core.send_message gc c1 c1.current_command with
      | none => c1
      | some c2 => { c2 with current_command := c2.current_command + 1 }
    else c
  | .message data =>
    if c.ws.readyState = .OPEN then Core.handle_message gc c data else c
  | .cancel_click =>
    match c.ws.send cancelFrame with
    | .ok ws => { c with ws := ws }
    | .error _ => c
  | .closed _ =>
    if c.ws.readyState = .CLOSED then c
    else { c with ws := { c.ws with readyState := .CLOSED } }

/-- The protocol state after a sequence of events. -/
def Core.runEvents (gc : List Json) (c : Core) (events : List Event) : Core :=
  events.foldl (Core.dispatch gc) c

/-- The protocol state `run_orchestration` starts from. -/
def Core.init : Core :=
  { messages_received := 0, current_command := 0, ws := WebSocket.new }

/-- The frames of the first `k` commands. -/
def sentPrefix (gc : List Json) (k : Nat) : List Frame :=
  (gc.take k).map instructionFrame

/-- A session between two sends: `k` replies have been counted in all. -/
def Core.Healthy (gc : List Json) (c : Core) (k : Nat) : Prop :=
  c.ws.readyState = .OPEN ∧ c.messages_received < 2 ∧ 1 ≤ c.current_command ∧
  c.current_command ≤ gc.length ∧ c.ws.sent = sentPrefix gc c.current_command ∧
  nameable (jsIndex gc ((c.current_command : Int) - 1)) = true ∧
  2 * (c.current_command - 1) + c.messages_received = k

/-- A session over the empty list of commands, before its end. -/
def Core.Idle (gc : List Json) (c : Core) : Prop :=
  gc = [] ∧ c.current_command = 0 ∧ c.messages_received < 2 ∧
  c.ws.readyState = .OPEN ∧ c.ws.sent = []

/-- A session that has reached the end of the commands. -/
def Core.Finished (gc : List Json) (c : Core) : Prop :=
  c.ws.readyState = .CLOSING ∧ c.messages_received = 2 ∧ c.current_command = gc.length ∧
  c.ws.sent = sentPrefix gc gc.length

/-- A session that will never reach the end of the commands. -/
def Core.Dead (gc : List Json) (c : Core) : Prop :=
  (c.ws.readyState = .CLOSING ∧ ¬ (c.messages_received = 2 ∧ c.current_command = gc.length)) ∨
  (c.ws.readyState = .OPEN ∧ 2 ≤ c.messages_received ∧ c.current_command ≠ gc.length) ∨
  (c.ws.readyState = .OPEN ∧ c.current_command = 0 ∧ gc ≠ [] ∧ sendable gc[0]? = false)

/-- A session on its way: `k` messages that are not log messages have arrived. -/
def Core.Good (gc : List Json) (c : Core) (k : Nat) : Prop :=
  Core.Healthy gc c k ∨ Core.Idle gc c ∨ (Core.Finished gc c ∧ 2 * gc.length ≤ k)

/-- What can keep a session from going on after a message: the message is a
Blob, or it contains the cancel response, or some command cannot be printed. -/
def Core.Stopped (gc : List Json) (m : MessageData) : Prop :=
  m.isText = false ∨ m.isCancelResponse = true ∨ ∃ x ∈ gc, sendable (some x) = false

/-- The protocol state after the socket opened and the messages arrived. -/
def Core.session (gc : List Json) (messages : List MessageData) : Core :=
  Core.runEvents gc Core.init (.opened :: messages.map .message)

/-- The frames transmitted while one event is handled. -/
def framesSentBy (env : Env) (r : Runner) (e : Event) : List Frame :=
  (dispatch env r e).command_runner_websocket.sent.drop r.command_runner_websocket.sent.length

/-- Whether the event is a click on the cancel button. -/
def Event.isCancelClick : Event → Bool
  | .cancel_click => true
  | _ => false

/-- The frames transmitted by the `open` and `message` handlers during a
sequence of events, in the order they were sent. -/
def instructionFrames (env : Env) (r : Runner) : List Event → List Frame
  | [] => []
  | e :: es =>
    (if e.isCancelClick then [] else framesSentBy env r e)
      ++ instructionFrames env (dispatch env r e) es

/-- Number of message events carrying a message that is not a log message. -/
def nonLogMessages : List Event → Nat
  | [] => 0
  | .message m :: es => (if m.isLog then 0 else 1) + nonLogMessages es
  | _ :: es => nonLogMessages es

/-- The frames transmitted while one event is handled, on the protocol state. -/
def Core.framesSentBy (gc : List Json) (c : Core) (e : Event) : List Frame :=
  (Core.dispatch gc c e).ws.sent.drop c.ws.sent.length

/-- The frames transmitted by the `open` and `message` handlers, on the
protocol state. -/
def Core.instructionFrames (gc : List Json) (c : Core) : List Event → List Frame
  | [] => []
  | e :: es =>
    (if e.isCancelClick then [] else Core.framesSentBy gc c e)
      ++ Core.instructionFrames gc (Core.dispatch gc c e) es

/-! ## Sample data, and notions the theorems are stated with -/

/-- A page before any command was run. -/
def samplePage : Page :=
  { terminal := ""
    console := []
    dates := 0
    connection_state :=
      { text_bg_primary := false, text_bg_secondary := true, html := "Command Runner Inactive" }
    cancel_disabled := true
    displayState := ""
    modal_shown := false
    state_requests := 0 }

/-- The command `{"instruction":"Init"}`. -/
def initCommand : Json :=
  .obj [("instruction", .str "Init")]

/-- The command `{"instruction":{"Destroy":[{"Guest":{"name":"nginx"}},{"Guest":{"name":"phone"}}]}}`. -/
def destroyCommand : Json :=
  .obj [("instruction", .obj [("Destroy", .arr [
    .obj [("Guest", .obj [("name", .str "nginx")])],
    .obj [("Guest", .obj [("name", .str "phone")])]])])]

/-- The acknowledgement the server sends for every instruction. -/
def ackMessage : MessageData :=
  .text "Receiving instruction OK"

/-- A result the server sends for an instruction. -/
def resultMessage : MessageData :=
  .text "\x7b\"Single\":\x7b\"is_success\":true,\"message\":\"Testbeds are up\"\x7d\x7d"

/-- The log message `{"Log":{"level":"Info","message":"booting"}}`. -/
def plainLogMessage : MessageData :=
  .text "\x7b\"Log\":\x7b\"level\":\"Info\",\"message\":\"booting\"\x7d\x7d"

/-- The first message of a command generation the server did not understand:
`{"init_msg":true,"was_error":true,"message":"unknown command"}`. -/
def notUnderstoodMessage : MessageData :=
  .text "\x7b\"init_msg\":true,\"was_error\":true,\"message\":\"unknown command\"\x7d"

/-- The generated instruction `{"instruction":"Init"}` as it arrives. -/
def generatedInitMessage : MessageData :=
  .text "\x7b\"instruction\":\"Init\"\x7d"

/-- The text `{"instruction":"Cancel"}`. -/
def cancelRequestText : String :=
  "\x7b\"instruction\":\"Cancel\"\x7d"

/-- The request `{"project_name":"lab1","sub_command":"Down"}`. -/
def downRequest : Json :=
  .obj [("project_name", .str "lab1"), ("sub_command", .str "Down")]

/-! ### Log messages -/

/-- A log message that does not contain the cancel response. -/
def MessageData.isPlainLog (m : MessageData) : Bool :=
  m.isLog && !m.isCancelResponse

/-- The messages left when the log messages that do not contain the cancel
response are taken out. -/
def withoutPlainLogs (messages : List MessageData) : List MessageData :=
  messages.filter fun m => !m.isPlainLog

/-! ### Command generation -/

/-- A message of the command generator socket that the handler marks as a
failure: it parses to a value with an own property `init_msg` and its
`was_error` is not `false`. -/
def flaggedUnsuccessful (env : Env) (data : MessageData) : Bool :=
  match env.JSON_parse data.asText with
  | none => false
  | some server_message =>
    match jsHasOwnProperty (some server_message) "init_msg" with
    | .ok true => !jsIsBool (jsGet (some server_message) "was_error").toOption.join false
    | _ => false

/-- The command `{"instruction":{"Deploy":[{"Network":{"Bridge":{"name":"br0"}}}]}}`:
a network that is not an OVN network. -/
def bridgeCommand : Json :=
  .obj [("instruction", .obj [("Deploy", .arr [
    .obj [("Network", .obj [("Bridge", .obj [("name", .str "br0")])])]])])]

/-! ### `List` responses -/

/-- One entry `{"is_success": b, "message": m}` of a `List` response. -/
def listEntry (e : Bool × String) : Json :=
  .obj [("is_success", .bool e.1), ("message", .str e.2)]

/-- The response `{"List": [...]}` with the given entries. -/
def listResponse (entries : List (Bool × String)) : Json :=
  .obj [("List", .arr (entries.map listEntry))]

/-- The messages of the successful entries, in their order. -/
def successfulMessages (entries : List (Bool × String)) : List String :=
  (entries.filter fun e => e.1).map fun e => e.2

/-- The messages of the failed entries, in their order. -/
def failedMessages (entries : List (Bool × String)) : List String :=
  (entries.filter fun e => !e.1).map fun e => e.2

/-- The text of the response with the entries `[{true,"A"},{false,"B"}]`. -/
def listResponseTextAB : String :=
  "\x7b\"List\":[\x7b\"is_success\":true,\"message\":\"A\"\x7d,\x7b\"is_success\":false,\"message\":\"B\"\x7d]\x7d"

/-- The text of the response with the single entry `[{true,"A"}]`. -/
def listResponseTextA : String :=
  "\x7b\"List\":[\x7b\"is_success\":true,\"message\":\"A\"\x7d]\x7d"

/-! ### Responses of no known variant -/

/-- The text of the response with the single entry `[{false,"B"}]`. -/
def listResponseTextB : String :=
  "\x7b\"List\":[\x7b\"is_success\":false,\"message\":\"B\"\x7d]\x7d"

/-- The text of a response that is a JSON object with none of the keys
`Generic`, `Single`, `List`, `Log`: `{"foo":1}`. -/
def fooResponseText : String :=
  "\x7b\"foo\":1\x7d"

/-- What the `catch` of `formatServerResponseMessages` leaves: the text on the
console, and the text as a line of the pseudo terminal. -/
def printedRaw (p : Page) (text : String) : Page :=
  { p with
    terminal := p.terminal ++ text ++ "<br>"
    console := p.console ++ [.log ("@ message was not a JSON = " ++ text)] }

/-- A JSON value that is neither an object nor an array. -/
def Json.isPrimitive : Json → Bool
  | .obj _ => false
  | .arr _ => false
  | _ => true

/-! ### Generated instructions and initiation messages -/

/-- The generated instruction a message of the command generator socket
carries: the parsed message, when it parses and `hasOwnProperty('init_msg')`
is false (neither an initiation nor a diagnostic message). -/
def generatedInstruction (env : Env) (data : MessageData) : Option Json :=
  match env.JSON_parse data.asText with
  | none => none
  | some server_message =>
    match jsHasOwnProperty (some server_message) "init_msg" with
    | .ok false => some server_message
    | _ => none

/-- Whether a message of the command generator socket parses to a value with
an `init_msg` property: an initiation or a diagnostic message. -/
def carriesInitMsg (env : Env) (data : MessageData) : Bool :=
  match env.JSON_parse data.asText with
  | none => false
  | some server_message =>
    match jsHasOwnProperty (some server_message) "init_msg" with
    | .ok true => true
    | _ => false

/-- An initiation message without `was_error`:
`{"init_msg":true,"message":"Up"}`. -/
def initWithoutWasError : MessageData :=
  .text "\x7b\"init_msg\":true,\"message\":\"Up\"\x7d"

/-- The generated instruction `{"instruction":{"Destroy":[]}}` as it arrives. -/
def generatedDestroyMessage : MessageData :=
  .text "\x7b\"instruction\":\x7b\"Destroy\":[]\x7d\x7d"

/-- The command `{"instruction":{"Destroy":[]}}`. -/
def emptyDestroyCommand : Json :=
  .obj [("instruction", .obj [("Destroy", .arr [])])]

/-- The initiation message of an understood command:
`{"init_msg":true,"was_error":false,"message":"Down"}`. -/
def understoodMessage : MessageData :=
  .text "\x7b\"init_msg\":true,\"was_error\":false,\"message\":\"Down\"\x7d"

/-! ## The command builder: form, `get_button_command_json` -/

/-- The characters the class `\s` of a regular expression matches, which are
also the characters `trim` removes: white space and line terminators. -/
def isWhiteSpace (c : Char) : Bool :=
  let n := c.toNat
  n == 9 || n == 10 || n == 11 || n == 12 || n == 13 || n == 32 || n == 160 || n == 5760
    || (8192 ≤ n && n ≤ 8202) || n == 8232 || n == 8233 || n == 8239 || n == 8287
    || n == 12288 || n == 65279

/-- The call `s.trim()` on the characters of a string. -/
def trimChars (s : List Char) : List Char :=
  ((s.dropWhile isWhiteSpace).reverse.dropWhile isWhiteSpace).reverse

/-- The call `s.replace(/\s+/g, ' ')` on the characters of a string, read
from left to right: the first character of a run of white space gives one
space, the other characters of the run give nothing.  `inRun` tells that the
character before belongs to a run. -/
def replaceWhiteSpaceRuns (inRun : Bool) : List Char → List Char
  | [] => []
  | c :: cs =>
    if isWhiteSpace c then
      if inRun then replaceWhiteSpaceRuns true cs else ' ' :: replaceWhiteSpaceRuns true cs
    else c :: replaceWhiteSpaceRuns false cs

/-- The expression `s.trim().replace(/\s+/g, ' ')` of the `execButton`
branch. -/
def trimAndCollapse (s : String) : String :=
  ⟨replaceWhiteSpaceRuns false (trimChars s.data)⟩

/-- The matches of the global regular expression `/(?:[^\s"]+|"[^"]*")+/g` in a
string, read from left to right.  A match is a longest sequence of pieces, a
piece being a longest run of characters that are neither white space nor a
double quote, or a double quote with everything up to the next double quote.
`inQuote` tells that the character read lies after the opening quote of a
piece, `current` is the match read so far.  A character that starts no piece
(white space, or a double quote with no double quote after it) ends the match
and is skipped. -/
def matchCommandRegex (inQuote : Bool) (current : List Char) : List Char → List String
  | [] => if current.isEmpty then [] else [⟨current⟩]
  | c :: cs =>
    if inQuote then
      matchCommandRegex (c != '"') (current ++ [c]) cs
    else if c = '"' then
      if cs.contains '"' then matchCommandRegex true (current ++ [c]) cs
      else (if current.isEmpty then [] else [⟨current⟩]) ++ matchCommandRegex false [] cs
    else if isWhiteSpace c then
      (if current.isEmpty then [] else [⟨current⟩]) ++ matchCommandRegex false [] cs
    else matchCommandRegex false (current ++ [c]) cs

/-- The call `s.match(/(?:[^\s"]+|"[^"]*")+/g)`: the matches, or `null`
(`none`) when there is none. -/
def String_match (s : String) : Option (List String) :=
  match matchCommandRegex false [] s.data with
  | [] => none
  | ms => some ms

/-- The first match of `/(^"|"$)/g` in `arg.replace(/(^"|"$)/g, '')`: a
double quote at the start is removed. -/
def dropLeadingQuote : List Char → List Char
  | '"' :: rest => rest
  | cs => cs

/-- The call `arg.replace(/(^"|"$)/g, '')`: a double quote at the start is
removed, and a double quote at the end of what is left. -/
def stripQuotes (arg : String) : String :=
  let rest := dropLeadingQuote arg.data
  ⟨if rest.getLast? = some '"' then rest.dropLast else rest⟩

/-- Element read `v[0]`. -/
def jsFirst (v : Option Json) : Except JSError (Option Json) :=
  match v with
  | none => .error .TypeError
  | some .null => .error .TypeError
  | some (.arr xs) => .ok xs.head?
  | some (.str s) => .ok (s.data.head?.map fun c => .str (String.singleton c))
  | some _ => .ok none

/-- The assignment `v[k1][k2]...[kn] = val` on a value whose properties
`k1`, ..., `kn-1` along the path are objects; an own property keeps its place,
a new one goes to the end. -/
def jsAssignPath : Json → List String → Json → Json
  | _, [], val => val
  | .obj kvs, [k], val => .obj (setProp k val kvs)
  | .obj kvs, k :: ks, val =>
    match kvs.lookup k with
    | some child => .obj (setProp k (jsAssignPath child ks val) kvs)
    | none => .obj kvs
  | v, _, _ => v

/-- The function `convertCommandToListOfStrings`: the one string of the
command is replaced by the list of its arguments.  The changed `sub_command`
is returned. -/
def convertCommandToListOfStrings (sub_command : Json) (command_name : String) :
    Except JSError Json := do
  let command ← jsPath (some sub_command)
    ["Exec", "command_type", "tool", "tool", command_name, "command"]
  let command_string ← jsFirst command
  match command_string with
  | some (.str s) =>
    match String_match s with
    | none => .error .TypeError
    | some found =>
      let command_list := found.map fun arg => Json.str (stripQuotes arg)
      .ok (jsAssignPath sub_command
        ["Exec", "command_type", "tool", "tool", command_name, "command"] (.arr command_list))
  | _ => .error .TypeError

/-- An element of the page that the command builder looks up by a selector.
`tag` is the lower-case name of the element; `checked` is the checkedness of
a checkbox or radio button, the selectedness of an option. -/
structure Element where
  tag : String
  id : String
  checked : Bool
  deriving DecidableEq, Repr

/-- An `input` element inside one of the two containers of generated inputs:
its `type` and `id` attributes (`none` when absent), what `.val()` gives, and
its checkedness. -/
structure Input where
  type : Option String
  id : Option String
  value : String
  checked : Bool
  deriving DecidableEq, Repr

/-- The parts of the page `get_button_command_json` reads: the elements it
selects one by one, in document order; the `input` elements below
`#dynamicButtons` and below `#execDynamicButtons`, in document order; and what
`$('#guestName').val()` gives (`none` for `undefined`, when the page has no
such element). -/
structure Dom where
  elements : List Element
  dynamicButtons : List Input
  execDynamicButtons : List Input
  guestName : Option Json

/-- Whether an element matches `:checked`. -/
def Element.matchesChecked (e : Element) : Bool :=
  (e.tag == "input" || e.tag == "option") && e.checked

/-- The call `$('#id').is(':checked')`: the element with this id, if any. -/
def Dom.idIsChecked (dom : Dom) (id : String) : Bool :=
  match dom.elements.find? (fun e => e.id == id) with
  | some e => e.matchesChecked
  | none => false

/-- The call `$('name').is(':checked')` with a type selector: the elements
with this name, compared without regard to case. -/
def Dom.tagIsChecked (dom : Dom) (name : String) : Bool :=
  (dom.elements.filter fun e => e.tag.data == name.data.map Char.toLower).any
    Element.matchesChecked

/-- The function `toolingGetGuestName`. -/
def toolingGetGuestName (dom : Dom) : Option Json :=
  dom.guestName

/-- The property name an `id` attribute gives. -/
def propertyKey (id : Option String) : String :=
  id.getD "undefined"

/-- One step of the `each` over `#dynamicButtons input`. -/
def snapshotDynamicInput (dynamicInputs : List (String × Json)) (input : Input) :
    List (String × Json) :=
  let inputType := input.type
  let inputValue := input.value
  let inputId := propertyKey input.id
  if inputType = some "checkbox" then setProp inputId (.bool input.checked) dynamicInputs
  else if inputType = some "text" then setProp inputId (.str inputValue) dynamicInputs
  else dynamicInputs

/-- One step of the `each` over `#execDynamicButtons input`. -/
def execDynamicInput (dynamicInputs : List (String × Json)) (input : Input) :
    List (String × Json) :=
  let inputType := input.type
  let inputValue := trimAndCollapse input.value
  let inputId := propertyKey input.id
  if inputType = some "checkbox" then setProp inputId (.bool input.checked) dynamicInputs
  else if inputType = some "text" then setProp inputId (.arr [.str inputValue]) dynamicInputs
  else dynamicInputs

/-- The object `{"Exec": {"guest_name": ..., "command_type": ...}}`.  A guest
name that is `undefined` is left out: the request is only ever serialised,
and `JSON.stringify` leaves such a property out. -/
def execSubCommand (guest_name : Option Json) (command_type : Json) : Json :=
  .obj [("Exec", .obj
    ((match guest_name with
      | some name => [("guest_name", name)]
      | none => []) ++ [("command_type", command_type)]))]

/-- The special treatment of one tool command in the `execButton` branch. -/
def convertIfPresent (sub_command : Json) (command_name : String) : Except JSError Json := do
  if (← jsIn command_name (← jsPath (some sub_command) ["Exec", "command_type", "tool", "tool"]))
  then convertCommandToListOfStrings sub_command command_name
  else pure sub_command

/-- The `sub_command` of the `execButton` branch. -/
def execButtonSubCommand (dom : Dom) (selectedOption selectedToolOption : String) :
    Except JSError Json := do
  let dynamicInputs := dom.execDynamicButtons.foldl execDynamicInput []
  if selectedOption = "tool" then
    if (← Object_keys (some (.obj dynamicInputs))).length > 0 then
      let sub_command := execSubCommand (toolingGetGuestName dom)
        (.obj [("tool", .obj [("tool", .obj [(selectedToolOption, .obj dynamicInputs)])])])
      let sub_command ← convertIfPresent sub_command "a_d_b"
      let sub_command ← convertIfPresent sub_command "test_permissions"
      let sub_command ← convertIfPresent sub_command "test_privacy"
      let sub_command ← convertIfPresent sub_command "t_l_s_intercept"
      if (← jsIn "frida_setup"
          (← jsPath (some sub_command) ["Exec", "command_type", "tool", "tool"])) then
        pure (jsAssignPath sub_command ["Exec", "command_type", "tool", "tool"]
          (.str "frida_setup"))
      else pure sub_command
    else
      pure (execSubCommand (toolingGetGuestName dom)
        (.obj [("tool", .obj [("tool", .str selectedToolOption)])]))
  else
    pure (execSubCommand (toolingGetGuestName dom)
      (.obj [(selectedOption, .obj dynamicInputs)]))

/-- The function `get_button_command_json`: the request built for a button,
and the lines it writes to the console.  `project_name` is defined by the
page, outside these scripts. -/
def get_button_command_json (project_name : String) (dom : Dom)
    (button_id selectedOption selectedToolOption selectedSnapshotOption : String) :
    Except JSError (Json × List ConsoleLine) := do
  let command_json := [("project_name", Json.str project_name), ("sub_command", Json.null)]
  let (sub_command, console) ←
    if button_id = "upButton" then
      pure (Json.obj [("Up", .obj
        [ ("provision", .bool (dom.idIsChecked "upProvisionFlag")),
          ("rerun_scripts", .bool (dom.idIsChecked "upReRunScriptsFlag")),
          ("reapply_acl", .bool (dom.tagIsChecked "upReRunACLFlag")) ])], [])
    else if button_id = "downButton" then
      pure (Json.str "Down", [])
    else if button_id = "snapshotButton" then
      let dynamicInputs := dom.dynamicButtons.foldl snapshotDynamicInput []
      pure (Json.obj [("Snapshot", .obj [("sub_command",
        .obj [(selectedSnapshotOption, .obj dynamicInputs)])])], [])
    else if button_id = "generateArtefactsButton" then
      pure (Json.str "GenerateArtefacts", [])
    else if button_id = "clearArtefactsButton" then
      pure (Json.str "ClearArtefacts", [])
    else if button_id = "testbedSnapshotButton" then
      pure (Json.obj [("TestbedSnapshot", .obj
        [("snapshot_guests", .bool (dom.idIsChecked "snapshotGuestsFlag"))])], [])
    else if button_id = "listCloudImagesButton" then
      pure (Json.str "CloudImages", [])
    else if button_id = "analysisToolsButton" then
      pure (Json.null, [ConsoleLine.log "analysis tools"])
    else if button_id = "execButton" then
      match execButtonSubCommand dom selectedOption selectedToolOption with
      | .ok sub_command => pure (sub_command, [])
      | .error e => throw e
    else
      pure (Json.null, [ConsoleLine.log (button_id ++ " not recognised")])
  pure (Json.obj (setProp "sub_command" sub_command command_json), console)

/-! ## Sample forms, and notions the theorems on the command builder are stated with -/

/-- The ids of the buttons for which `get_button_command_json` builds a
`sub_command`. -/
def commandButtons : List String :=
  ["upButton", "downButton", "snapshotButton", "generateArtefactsButton",
    "clearArtefactsButton", "testbedSnapshotButton", "listCloudImagesButton", "execButton"]

/-- A form: the three checkboxes of the `Up` command, of which only "re-run
ACL" is ticked; one text input `command` in the exec container. -/
def sampleDom : Dom :=
  { elements :=
      [ { tag := "input", id := "upProvisionFlag", checked := false },
        { tag := "input", id := "upReRunScriptsFlag", checked := false },
        { tag := "input", id := "upReRunACLFlag", checked := true } ]
    dynamicButtons := []
    execDynamicButtons :=
      [ { type := some "text", id := some "command", value := "  a   \"b c\"\td ",
          checked := false } ]
    guestName := some (.str "phone") }

/-- The words of a sequence of characters: its longest runs of characters
that are not white space, in order.  `current` is the word read so far. -/
def splitWords (current : List Char) : List Char → List (List Char)
  | [] => if current.isEmpty then [] else [current]
  | c :: cs =>
    if isWhiteSpace c then
      (if current.isEmpty then [] else [current]) ++ splitWords [] cs
    else splitWords (current ++ [c]) cs

/-- The words of a string. -/
def wordsOf (s : String) : List String :=
  (splitWords [] s.data).map String.mk

/-- An item of a command text: a word, or a substring in double quotes. -/
inductive Item where
  | word (w : String)
  | quoted (q : String)
  deriving DecidableEq, Repr

/-- The characters of an item as typed. -/
def Item.text : Item → List Char
  | .word w => w.data
  | .quoted q => '"' :: (q.data ++ ['"'])

/-- The argument an item stands for: the word, or what is between the
quotes. -/
def Item.argument : Item → String
  | .word w => w
  | .quoted q => q

/-- A word is not empty and has neither white space nor a double quote; what
is between quotes has no double quote. -/
def Item.wellFormed : Item → Bool
  | .word w => !w.data.isEmpty && w.data.all fun c => !isWhiteSpace c && c != '"'
  | .quoted q => q.data.all fun c => c != '"'

/-- The characters of a command text made of items, each followed by a gap. -/
def commandText : List (Item × String) → List Char
  | [] => []
  | (item, gap) :: rest => item.text ++ gap.data ++ commandText rest

/-- The items are well formed, the gaps are white space, and no gap between
two items is empty. -/
def separated : List (Item × String) → Bool
  | [] => true
  | (item, gap) :: rest =>
    item.wellFormed && gap.data.all isWhiteSpace && (rest.isEmpty || !gap.data.isEmpty)
      && separated rest

/-- The sub-command `{"Exec":{"guest_name":"phone","command_type":{"tool":
{"tool":{"a_d_b":{"command":["a \"b c\" d"]}}}}}}`. -/
def adbSubCommand : Json :=
  execSubCommand (some (.str "phone"))
    (.obj [("tool", .obj [("tool", .obj [("a_d_b",
      .obj [("command", .arr [.str "a \"b c\" d"])])])])])

/-! ## Notions and sample data for the page, the request line and the counters -/

/-- A page on which a command is running: the badge is active. -/
def activePage : Page :=
  { samplePage with
    connection_state := set_connection_state_active samplePage.connection_state
    cancel_disabled := false
    displayState := "RUNNING" }

/-- The characters that stand for one character of a text in HTML: `&`, `<`
and `>` are written as character references. -/
def escapeHtmlChar (c : Char) : List Char :=
  if c = '&' then "&amp;".data
  else if c = '<' then "&lt;".data
  else if c = '>' then "&gt;".data
  else [c]

/-- The characters of a text written as HTML. -/
def escapeHtmlChars : List Char → List Char
  | [] => []
  | c :: cs => escapeHtmlChar c ++ escapeHtmlChars cs

/-- A text written as HTML, as an HTML-safe sink hands it to the browser: the
browser shows every character of the text, none is read as markup. -/
def escapeHtml (s : String) : String :=
  ⟨escapeHtmlChars s.data⟩

/-- Whether the character is one of `&`, `<`, `>`. -/
def isHtmlSpecial (c : Char) : Bool :=
  c == '&' || c == '<' || c == '>'

/-- The resources have these names: `extractNameForOneResource` gives them,
in order (`none` is `undefined`). -/
def resourceNames (resources : List Json) (names : List (Option Json)) : Prop :=
  List.Forall₂ (fun r n => extractNameForOneResource (some r) = .ok n) resources names

/-- The command with the one instruction `{tag: payload}`. -/
def taggedCommand (tag : String) (payload : Json) : Json :=
  .obj [("instruction", .obj [(tag, payload)])]

/-- The command `{"instruction":{"Destroy":{"Volume":{"name":"v"}}}}`: a
resource that is neither a guest nor a network. -/
def volumeCommand : Json :=
  taggedCommand "Destroy" (.obj [("Volume", .obj [("name", .str "v")])])

/-- The text of the response with the entries
`[{true,"A"},{false,"B"},{false,"C"}]`. -/
def listResponseTextABC : String :=
  "\x7b\"List\":[\x7b\"is_success\":true,\"message\":\"A\"\x7d,\x7b\"is_success\":false,\"message\":\"B\"\x7d,\x7b\"is_success\":false,\"message\":\"C\"\x7d]\x7d"

/-- Number of times the end of the commands was written to the console. -/
def Page.completions (p : Page) : Nat :=
  p.console.count (.log "we have reached the end of commands, closing")

/-- The message handler called on each message of a list in turn, whatever
the state of the socket. -/
def handleAll (env : Env) (r : Runner) (messages : List MessageData) : Runner :=
  messages.foldl (fun r m => (handle_message env r m).state) r

/-- A session over the one command `Init` that has reached the end of the
commands: the acknowledgement and the result have arrived. -/
def completedSession : Runner :=
  session sampleEnv [initCommand] "ws://testbed" samplePage [ackMessage, resultMessage]

/-- The counters of a session are within the bounds of the list: the index of
the last command sent exists and names a command that can be printed, and
`messages_received` is below 2, or 2 at the end of the commands. -/
def Core.InBounds (gc : List Json) (c : Core) : Prop :=
  1 ≤ c.current_command ∧ c.current_command ≤ gc.length ∧
  (c.messages_received < 2 ∨ (c.messages_received = 2 ∧ c.current_command = gc.length)) ∧
  nameable (jsIndex gc ((c.current_command : Int) - 1)) = true

/-- The tools whose command is split into a list of arguments. -/
def commandTools : List String :=
  ["a_d_b", "test_permissions", "test_privacy", "t_l_s_intercept"]

/-- The form of a tool command whose `Command` field holds only white space. -/
def blankCommandDom : Dom :=
  { sampleDom with
    execDynamicButtons :=
      [ { type := some "text", id := some "command", value := "  \t ", checked := false } ] }

/-! ## Lemmas

The handlers refine the protocol state; invariants of the protocol state along
a session; auxiliary facts on lists and strings. -/

theorem formatServerSendMessages_ok (env : Env) (p : Page) (c : Option Json) :
    (∃ q, formatServerSendMessages env p c = .ok q) ↔ sendable c = true := by
  unfold formatServerSendMessages sendable
  cases requestText c <;> simp

theorem formatServerSendMessages_error (env : Env) (p : Page) (c : Option Json) (e : JSError) :
    formatServerSendMessages env p c = .error e → sendable c = false := by
  unfold formatServerSendMessages sendable
  cases requestText c <;> simp

theorem formatServerResponseMessages_ok (env : Env) (p : Page) (text : String)
    (c : Option Json) :
    (∃ q, formatServerResponseMessages env p text c = .ok q) ↔ nameable c = true := by
  unfold formatServerResponseMessages nameable
  cases getInstructionName c with
  | error e => simp
  | ok i =>
    dsimp only
    split <;> simp

theorem formatServerResponseMessages_error (env : Env) (p : Page) (text : String)
    (c : Option Json) (e : JSError) :
    formatServerResponseMessages env p text c = .error e → nameable c = false := by
  unfold formatServerResponseMessages nameable
  cases getInstructionName c with
  | error e => simp
  | ok i =>
    dsimp only
    split <;> simp

theorem send_message_core (env : Env) (r : Runner) (n : Nat) :
    (send_message env r n).state.generated_commands = r.generated_commands ∧
    (send_message env r n).state.core
        = (Core.send_message r.generated_commands r.core n).getD r.core ∧
    ((send_message env r n).hasThrown = true
        ↔ Core.send_message r.generated_commands r.core n = none) := by
  unfold send_message Core.send_message
  cases h : formatServerSendMessages env r.page r.generated_commands[n]? with
  | error e =>
    have := formatServerSendMessages_error env r.page _ e h
    simp [this, Outcome.state, Outcome.hasThrown]
  | ok q =>
    have hs : sendable r.generated_commands[n]? = true :=
      (formatServerSendMessages_ok env r.page _).mp ⟨q, h⟩
    simp only [hs, if_true]
    cases hw : r.command_runner_websocket.readyState <;>
      simp [WebSocket.send, hw, Runner.core, Outcome.state, Outcome.hasThrown]

theorem send_message_returned (env : Env) (r r2 : Runner) (n : Nat)
    (h : send_message env r n = .returned r2) :
    r2.generated_commands = r.generated_commands ∧
    Core.send_message r.generated_commands r.core n = some r2.core := by
  have := send_message_core env r n
  rw [h] at this
  obtain ⟨h1, h2, h3⟩ := this
  simp only [Outcome.state, Outcome.hasThrown] at h1 h2 h3
  refine ⟨h1, ?_⟩
  cases hc : Core.send_message r.generated_commands r.core n with
  | none => simp [hc] at h3
  | some c => simp [hc] at h2; simp [h2]

theorem send_message_threw (env : Env) (r r2 : Runner) (n : Nat) (e : JSError)
    (h : send_message env r n = .threw e r2) :
    r2.generated_commands = r.generated_commands ∧ r2.core = r.core ∧
    Core.send_message r.generated_commands r.core n = none := by
  have := send_message_core env r n
  rw [h] at this
  obtain ⟨h1, h2, h3⟩ := this
  simp only [Outcome.state, Outcome.hasThrown] at h1 h2 h3
  have hn := h3.mp trivial
  simp [hn] at h2
  exact ⟨h1, h2, hn⟩

theorem handle_message_count_core (env : Env) (r : Runner) :
    (handle_message_count env r).state.generated_commands = r.generated_commands ∧
    (handle_message_count env r).state.core
      = Core.handle_message_count r.generated_commands r.core := by
  unfold handle_message_count Core.handle_message_count
  by_cases h2 : r.messages_received + 1 = 2
  · have e2 : (r.messages_received + 1 = 2) = True := eq_true h2
    by_cases hn : r.current_command = r.generated_commands.length
    · have en : (r.current_command = r.generated_commands.length) = True := eq_true hn
      simp only [e2, en, if_true, Runner.n_commands, Runner.core, Outcome.state]
      exact ⟨trivial, trivial⟩
    · have en : (r.current_command = r.generated_commands.length) = False := eq_false hn
      simp only [e2, en, if_true, if_false, Runner.n_commands, Runner.core]
      cases hs : send_message env
          { r with messages_received := r.messages_received + 1 } r.current_command with
      | returned r2 =>
        obtain ⟨hg, hc⟩ := send_message_returned env _ r2 _ hs
        simp only [Runner.core] at hc
        simp only [hc, Outcome.state]
        exact ⟨hg, trivial⟩
      | threw e r2 =>
        obtain ⟨hg, hc, hnone⟩ := send_message_threw env _ r2 _ e hs
        simp only [Runner.core] at hc hnone
        simp only [hnone, Outcome.state]
        exact ⟨hg, hc⟩
  · have e2 : (r.messages_received + 1 = 2) = False := eq_false h2
    simp only [e2, if_false, Runner.core, Outcome.state]
    exact ⟨trivial, trivial⟩

theorem handle_message_log_core (env : Env) (r : Runner) (message : String) :
    (handle_message_log env r message).state.generated_commands = r.generated_commands ∧
    (handle_message_log env r message).state.core = r.core := by
  unfold handle_message_log
  cases env.JSON_parse message with
  | none => simp [Outcome.state]
  | some j =>
    dsimp only
    split
    · split
      · simp [Outcome.state, Runner.core]
      · split <;> simp [Outcome.state, Runner.core]
    · simp [Outcome.state]
    · simp [Outcome.state]

theorem handle_message_core (env : Env) (r : Runner) (m : MessageData) :
    (handle_message env r m).state.generated_commands = r.generated_commands ∧
    (handle_message env r m).state.core = Core.handle_message r.generated_commands r.core m := by
  cases m with
  | blob b => simp [handle_message, Core.handle_message, Outcome.state, Runner.core]
  | text message =>
    unfold handle_message Core.handle_message
    by_cases hc : includes message cancelResponse = true
    · simp [hc, Outcome.state, Runner.core]
    · simp only [hc, if_false]
      by_cases hr : message = "Receiving instruction OK"
      · simp only [hr, if_true, ne_eq, not_true_eq_false, false_and, if_false]
        by_cases hl : includes "Receiving instruction OK" logMarker = true
        · simp only [hl, if_true]
          exact handle_message_log_core env _ _
        · simp only [hl, if_false]
          exact handle_message_count_core env _
      · simp only [hr, if_false, ne_eq, not_false_eq_true, true_and]
        cases hf : formatServerResponseMessages env r.page message
            (jsIndex r.generated_commands ((r.current_command : Int) - 1)) with
        | error e =>
          have := formatServerResponseMessages_error env _ _ _ e hf
          simp only [Runner.core] at this ⊢
          simp [this, Outcome.state]
        | ok q =>
          have hn := (formatServerResponseMessages_ok env r.page message _).mp ⟨q, hf⟩
          simp only [Runner.core] at hn ⊢
          simp only [hn, Bool.true_eq_false, if_false]
          by_cases hl : includes message logMarker = true
          · simp only [hl, if_true]
            exact handle_message_log_core env { r with page := q } message
          · simp only [hl, if_false]
            exact handle_message_count_core env { r with page := q }

theorem dispatch_core (env : Env) (r : Runner) (e : Event) :
    (dispatch env r e).generated_commands = r.generated_commands ∧
    (dispatch env r e).core = Core.dispatch r.generated_commands r.core e := by
  cases e with
  | opened =>
    unfold dispatch Core.dispatch
    by_cases hc : r.command_runner_websocket.readyState = .CONNECTING
    · have ec : (r.core.ws.readyState = ReadyState.CONNECTING) = True := eq_true hc
      have ec2 : (r.command_runner_websocket.readyState = ReadyState.CONNECTING) = True :=
        eq_true hc
      simp only [ec, ec2, if_true, on_open]
      cases hs : send_message env
          { r with command_runner_websocket :=
              { r.command_runner_websocket with readyState := .OPEN } } r.current_command with
      | returned r2 =>
        obtain ⟨hg, hcore⟩ := send_message_returned env _ r2 _ hs
        simp only [Runner.core] at hcore ⊢
        simp only [hcore, Outcome.state]
        exact ⟨hg, trivial⟩
      | threw e r2 =>
        obtain ⟨hg, hcore, hnone⟩ := send_message_threw env _ r2 _ e hs
        simp only [Runner.core] at hcore hnone ⊢
        simp only [hnone, Outcome.state]
        exact ⟨hg, hcore⟩
    · have ec : (r.core.ws.readyState = ReadyState.CONNECTING) = False := eq_false hc
      have ec2 : (r.command_runner_websocket.readyState = ReadyState.CONNECTING) = False :=
        eq_false hc
      simp only [ec, ec2, if_false]
      exact ⟨trivial, trivial⟩
  | message data =>
    unfold dispatch Core.dispatch
    by_cases hc : r.command_runner_websocket.readyState = .OPEN
    · have ec : (r.core.ws.readyState = ReadyState.OPEN) = True := eq_true hc
      have ec2 : (r.command_runner_websocket.readyState = ReadyState.OPEN) = True := eq_true hc
      simp only [ec, ec2, if_true]
      exact handle_message_core env r data
    · have ec : (r.core.ws.readyState = ReadyState.OPEN) = False := eq_false hc
      have ec2 : (r.command_runner_websocket.readyState = ReadyState.OPEN) = False := eq_false hc
      simp only [ec, ec2, if_false]
      exact ⟨trivial, trivial⟩
  | cancel_click =>
    unfold dispatch Core.dispatch on_cancel_click
    simp only [Runner.core]
    cases r.command_runner_websocket.send cancelFrame <;> simp [Outcome.state]
  | closed reason =>
    unfold dispatch Core.dispatch onclose
    simp only [Runner.core]
    split <;> simp

theorem runEvents_core (env : Env) (events : List Event) (r : Runner) :
    (runEvents env r events).generated_commands = r.generated_commands ∧
    (runEvents env r events).core = Core.runEvents r.generated_commands r.core events := by
  induction events generalizing r with
  | nil => exact ⟨rfl, rfl⟩
  | cons e es ih =>
    obtain ⟨hg, hc⟩ := dispatch_core env r e
    obtain ⟨hg2, hc2⟩ := ih (dispatch env r e)
    simp only [runEvents, Core.runEvents, List.foldl_cons] at hg2 hc2 ⊢
    rw [hg2, hc2, hg, hc]
    exact ⟨rfl, rfl⟩

theorem run_orchestration_core (gc : List Json) (url : String) (page : Page) :
    (run_orchestration gc url page).generated_commands = gc ∧
    (run_orchestration gc url page).core = Core.init :=
  ⟨rfl, rfl⟩

/-- The protocol state of a session is the protocol run from `Core.init`. -/
theorem session_core (env : Env) (gc : List Json) (url : String) (page : Page)
    (messages : List MessageData) :
    (session env gc url page messages).generated_commands = gc ∧
    (session env gc url page messages).core
      = Core.runEvents gc Core.init (.opened :: messages.map .message) := by
  have := runEvents_core env (.opened :: messages.map .message) (run_orchestration gc url page)
  simpa [session, run_orchestration_core] using this

theorem sendable_none : sendable none = false := rfl

theorem nameable_none : nameable none = false := rfl

theorem nameable_of_sendable (c : Option Json) (h : sendable c = true) : nameable c = true := by
  unfold sendable requestText at h
  unfold nameable
  cases hg : getInstructionName c with
  | ok i => rfl
  | error e => simp [hg, bind, Except.bind] at h

theorem jsIndex_pred_succ (gc : List Json) (n : Nat) :
    jsIndex gc (((n + 1 : Nat) : Int) - 1) = gc[n]? := by
  unfold jsIndex
  have : ¬ (((n + 1 : Nat) : Int) - 1 < 0) := by omega
  simp [this]

theorem jsIndex_pred_zero (gc : List Json) : jsIndex gc (((0 : Nat) : Int) - 1) = none := by
  unfold jsIndex
  simp

theorem sentPrefix_succ (gc : List Json) (k : Nat) (x : Json) (h : gc[k]? = some x) :
    sentPrefix gc (k + 1) = sentPrefix gc k ++ [instructionFrame x] := by
  unfold sentPrefix
  rw [List.take_succ, h]
  simp

theorem sentPrefix_length (gc : List Json) (k : Nat) (h : k ≤ gc.length) :
    (sentPrefix gc k).length = k := by
  simp [sentPrefix, h]

theorem Core.send_message_open (gc : List Json) (c : Core) (n : Nat)
    (h : c.ws.readyState = .OPEN) :
    Core.send_message gc c n =
      match gc[n]? with
      | some x =>
        if sendable (some x) then
          some { c with ws := { c.ws with sent := c.ws.sent ++ [instructionFrame x] } }
        else none
      | none => none := by
  unfold Core.send_message
  cases hx : gc[n]? with
  | none => simp [sendable_none]
  | some x =>
    by_cases hs : sendable (some x) = true
    · simp [hs, WebSocket.send, h, instructionFrame]
    · simp [hs]

theorem Core.dead_step (gc : List Json) (c : Core) (m : MessageData) (h : Core.Dead gc c) :
    Core.Dead gc (Core.dispatch gc c (.message m)) := by
  obtain ⟨mr, cc, ⟨rs, sent⟩⟩ := c
  unfold Core.Dead at h ⊢
  simp only at h
  rcases h with ⟨h1, h2⟩ | ⟨h1, h2, h3⟩ | ⟨h1, h2, h3, h4⟩
  · subst h1
    simp [Core.dispatch, h2]
  · subst h1
    cases m with
    | blob b => simp [Core.dispatch, Core.handle_message, WebSocket.close, h3]
    | text t =>
      simp only [Core.dispatch, Core.handle_message, if_true]
      split
      · simp [WebSocket.close, h3]
      · split
        · simp [h2, h3]
        · split
          · simp [h2, h3]
          · have : mr + 1 ≠ 2 := by omega
            simp [Core.handle_message_count, this, h3]
            omega
  · subst h1 h2
    cases m with
    | blob b =>
      simp [Core.dispatch, Core.handle_message, WebSocket.close]
      intro _ hl
      exact h3 (List.length_eq_zero.mp hl.symm)
    | text t =>
      have hN : (0 = gc.length) = False := by
        apply eq_false
        intro hl
        exact h3 (List.length_eq_zero.mp hl.symm)
      simp only [Core.dispatch, Core.handle_message, if_true]
      split
      · simp [WebSocket.close, hN]
      · split
        · simp [h3, h4]
        · split
          · simp [h3, h4]
          · simp only [Core.handle_message_count]
            split
            · simp only [hN, if_false]
              rw [Core.send_message_open _ _ _ rfl]
              cases hx : gc[0]? with
              | none => simp [h3, hx, hN, sendable_none]
              | some x =>
                rw [hx] at h4
                simp [h4, h3, hx, hN]
            · simp [h3, h4]

theorem Core.good_step (gc : List Json) (c : Core) (k : Nat) (m : MessageData)
    (h : Core.Good gc c k) :
    Core.Good gc (Core.dispatch gc c (.message m)) (k + if m.isLog then 0 else 1) ∨
    (Core.Dead gc (Core.dispatch gc c (.message m)) ∧ Core.Stopped gc m) := by
  obtain ⟨mr, cc, ⟨rs, sent⟩⟩ := c
  rcases h with h | h | h
  · obtain ⟨h1, h2, h3, h4, h5, h6, h7⟩ := h
    simp only at h1 h2 h3 h4 h5 h6 h7
    subst h1
    cases m with
    | blob b =>
      right
      refine ⟨Or.inl ?_, Or.inl rfl⟩
      simp [Core.dispatch, Core.handle_message, WebSocket.close]
      omega
    | text t =>
      simp only [Core.dispatch, Core.handle_message, if_true, MessageData.isLog]
      split
      · rename_i hcan
        right
        refine ⟨Or.inl ?_, Or.inr (Or.inl hcan)⟩
        simp [WebSocket.close]
        omega
      · simp only [h6, Bool.true_eq_false, and_false, if_false]
        split
        · rename_i hlog
          left; left
          exact ⟨rfl, h2, h3, h4, h5, h6, by simpa [hlog] using h7⟩
        · rename_i hlog
          simp only [Core.handle_message_count]
          split
          · rename_i hmr
            split
            · rename_i hcc
              left; right; right
              refine ⟨⟨?_, ?_, ?_, ?_⟩, ?_⟩
              · simp [WebSocket.close]
              · exact hmr
              · exact hcc
              · simp only [WebSocket.close]
                rw [h5, hcc]
              · omega
            · rename_i hcc
              rw [Core.send_message_open _ _ _ rfl]
              have hlt : cc < gc.length := by omega
              have hx : gc[cc]? = some gc[cc] := List.getElem?_eq_getElem hlt
              simp only [hx]
              by_cases hs : sendable (some gc[cc]) = true
              · simp only [hs, if_true]
                left; left
                refine ⟨rfl, by simp, by simp, by simpa using hlt, ?_, ?_, ?_⟩
                · simp only [h5]
                  exact (sentPrefix_succ gc cc _ hx).symm
                · simp only
                  rw [jsIndex_pred_succ, hx]
                  exact nameable_of_sendable _ hs
                · simp only
                  omega
              · simp only [hs, if_false]
                right
                exact ⟨Or.inr (Or.inl ⟨rfl, by simp [hmr], hcc⟩),
                  Or.inr (Or.inr ⟨gc[cc], List.getElem_mem _, by simpa using hs⟩)⟩
          · rename_i hmr
            left; left
            refine ⟨rfl, by simp; omega, h3, h4, h5, h6, ?_⟩
            simp only
            omega
  · obtain ⟨h1, h2, h3, h4, h5⟩ := h
    simp only at h1 h2 h3 h4 h5
    subst h1 h2 h4 h5
    cases m with
    | blob b =>
      right
      refine ⟨Or.inl ?_, Or.inl rfl⟩
      simp [Core.dispatch, Core.handle_message, WebSocket.close]
      omega
    | text t =>
      simp only [Core.dispatch, Core.handle_message, if_true, MessageData.isLog]
      split
      · rename_i hcan
        right
        refine ⟨Or.inl ?_, Or.inr (Or.inl hcan)⟩
        simp [WebSocket.close]
        omega
      · split
        · left; right; left
          exact ⟨rfl, rfl, h3, rfl, rfl⟩
        · split
          · left; right; left
            exact ⟨rfl, rfl, h3, rfl, rfl⟩
          · simp only [Core.handle_message_count, List.length_nil, if_true]
            split
            · rename_i hmr
              left; right; right
              refine ⟨⟨?_, hmr, rfl, ?_⟩, by simp⟩
              · simp [WebSocket.close]
              · simp [WebSocket.close, sentPrefix]
            · rename_i hmr
              left; right; left
              exact ⟨rfl, rfl, by simp; omega, rfl, rfl⟩
  · obtain ⟨⟨h1, h2, h3, h4⟩, h5⟩ := h
    simp only at h1 h2 h3 h4
    subst h1
    left; right; right
    simp only [Core.dispatch, reduceCtorEq, if_false]
    exact ⟨⟨rfl, h2, h3, h4⟩, by omega⟩

theorem Core.opened_class (gc : List Json) :
    Core.Good gc (Core.dispatch gc Core.init .opened) 0 ∨
    (Core.Dead gc (Core.dispatch gc Core.init .opened) ∧
      ∃ x ∈ gc, sendable (some x) = false) := by
  simp only [Core.dispatch, Core.init, WebSocket.new, if_true]
  rw [Core.send_message_open _ _ _ rfl]
  cases hx : gc[0]? with
  | none =>
    left; right; left
    have : gc = [] := by
      cases gc with
      | nil => rfl
      | cons a l => simp at hx
    exact ⟨this, rfl, by simp, rfl, rfl⟩
  | some x =>
    have hne : gc ≠ [] := by
      intro h
      subst h
      simp at hx
    have hlen : 1 ≤ gc.length := by
      cases gc with
      | nil => exact absurd rfl hne
      | cons a l => simp
    simp only
    by_cases hs : sendable (some x) = true
    · simp only [hs, if_true]
      left; left
      refine ⟨rfl, by simp, by simp, by simpa using hlen, ?_, ?_, by simp⟩
      · simp only [List.nil_append]
        exact (sentPrefix_succ gc 0 x hx).symm
      · simp only
        rw [jsIndex_pred_succ, hx]
        exact nameable_of_sendable _ hs
    · simp only [hs, if_false]
      right
      refine ⟨Or.inr (Or.inr ⟨rfl, rfl, hne, ?_⟩),
        ⟨x, List.getElem?_mem hx, by simpa using hs⟩⟩
      rw [hx]
      simpa using hs

theorem nonLogCount_append_singleton (pre : List MessageData) (m : MessageData) :
    nonLogCount (pre ++ [m]) = nonLogCount pre + if m.isLog then 0 else 1 := by
  unfold nonLogCount
  cases h : m.isLog <;> simp [List.filter_append, h]

theorem Core.runEvents_append (gc : List Json) (c : Core) (es fs : List Event) :
    Core.runEvents gc c (es ++ fs) = Core.runEvents gc (Core.runEvents gc c es) fs := by
  simp [Core.runEvents, List.foldl_append]

theorem Core.session_snoc (gc : List Json) (pre : List MessageData)
    (m : MessageData) :
    Core.session gc (pre ++ [m]) = Core.dispatch gc (Core.session gc pre) (.message m) := by
  simp [Core.session, Core.runEvents, List.foldl_append]

theorem Core.session_split (gc : List Json) (pre post : List MessageData) :
    Core.session gc (pre ++ post)
      = Core.runEvents gc (Core.session gc pre) (post.map .message) := by
  simp [Core.session, Core.runEvents, List.foldl_append]

theorem Core.session_class (gc : List Json) (messages : List MessageData) :
    Core.Good gc (Core.session gc messages) (nonLogCount messages) ∨
    Core.Dead gc (Core.session gc messages) := by
  induction messages using List.reverseRecOn with
  | nil => exact (Core.opened_class gc).imp id And.left
  | append_singleton pre m ih =>
    rw [Core.session_snoc, nonLogCount_append_singleton]
    rcases ih with ih | ih
    · exact (Core.good_step gc _ _ m ih).imp id And.left
    · exact Or.inr (Core.dead_step gc _ m ih)

theorem Core.dead_run (gc : List Json) (post : List MessageData) (c : Core)
    (h : Core.Dead gc c) : Core.Dead gc (Core.runEvents gc c (post.map .message)) := by
  induction post generalizing c with
  | nil => exact h
  | cons m ms ih =>
    simp only [List.map_cons, Core.runEvents, List.foldl_cons]
    exact ih _ (Core.dead_step gc c m h)

theorem Core.dead_not_finished (gc : List Json) (c : Core) (h : Core.Dead gc c) :
    ¬ (c.ws.readyState = .CLOSING ∧ c.messages_received = 2 ∧
        c.current_command = gc.length) := by
  rintro ⟨h1, h2, h3⟩
  rcases h with ⟨_, h⟩ | ⟨h, _⟩ | ⟨h, _⟩
  · exact h ⟨h2, h3⟩
  · rw [h1] at h; cases h
  · rw [h1] at h; cases h

theorem Core.good_length (gc : List Json) (c : Core) (k : Nat) (h : Core.Good gc c k) :
    c.ws.sent.length = min gc.length (1 + k / 2) := by
  rcases h with ⟨_, h2, h3, h4, h5, _, h7⟩ | ⟨h1, _, _, _, h5⟩ | ⟨⟨_, _, _, h4⟩, h5⟩
  · rw [h5, sentPrefix_length gc _ h4]
    omega
  · rw [h5, h1]
    simp
  · rw [h4, sentPrefix_length gc _ (Nat.le_refl _)]
    omega

theorem Core.good_closing (gc : List Json) (c : Core) (k : Nat) (h : Core.Good gc c k)
    (hc : c.ws.readyState = .CLOSING) :
    c.ws.sent = gc.map instructionFrame ∧ 2 * gc.length ≤ k := by
  rcases h with ⟨h1, _⟩ | ⟨_, _, _, h1, _⟩ | ⟨⟨_, _, _, h4⟩, h5⟩
  · rw [hc] at h1; cases h1
  · rw [hc] at h1; cases h1
  · refine ⟨?_, h5⟩
    rw [h4]
    simp [sentPrefix]

/-- A session that has reached the end of its commands was on its way after
every part of its messages. -/
theorem Core.finished_prefix_good (gc : List Json) (pre post : List MessageData)
    (h : (Core.session gc (pre ++ post)).ws.readyState = .CLOSING ∧
      (Core.session gc (pre ++ post)).messages_received = 2 ∧
      (Core.session gc (pre ++ post)).current_command = gc.length) :
    Core.Good gc (Core.session gc pre) (nonLogCount pre) := by
  rcases Core.session_class gc pre with hg | hd
  · exact hg
  · exfalso
    have := Core.dead_run gc post _ hd
    rw [← Core.session_split] at this
    exact Core.dead_not_finished gc _ this h

theorem isSuffixOf_append_long (e t a : List Char) (h : e.length ≤ a.length) :
    e.isSuffixOf (t ++ a) = e.isSuffixOf a := by
  rw [Bool.eq_iff_iff]
  simp only [List.isSuffixOf_iff_suffix]
  constructor
  · intro hs
    exact List.suffix_of_suffix_length_le hs (List.suffix_append t a) h
  · intro hs
    exact hs.trans (List.suffix_append t a)

theorem Core.handle_message_closing (gc : List Json) (c : Core) (m : MessageData)
    (ho : c.ws.readyState = .OPEN)
    (hc : (Core.handle_message gc c m).ws.readyState = .CLOSING) :
    m.isText = false ∨ m.isCancelResponse = true ∨
      ((Core.handle_message gc c m).messages_received = 2 ∧
        (Core.handle_message gc c m).current_command = gc.length) := by
  obtain ⟨mr, cc, ⟨rs, sent⟩⟩ := c
  simp only at ho
  subst ho
  cases m with
  | blob b => left; rfl
  | text t =>
    right
    simp only [MessageData.isCancelResponse]
    by_cases hcan : includes t cancelResponse = true
    · left; exact hcan
    · right
      by_cases hthrow : t ≠ "Receiving instruction OK"
          ∧ nameable (jsIndex gc ((cc : Int) - 1)) = false
      · simp [Core.handle_message, hcan, hthrow] at hc
      · by_cases hlog : includes t logMarker = true
        · simp [Core.handle_message, hcan, hthrow, hlog] at hc
        · by_cases hmr : mr + 1 = 2
          · by_cases hcc : cc = gc.length
            · subst hcc
              simp [Core.handle_message, Core.handle_message_count, hcan, hthrow, hlog, hmr]
            · exfalso
              simp only [Core.handle_message, Core.handle_message_count, hcan, hthrow, hlog,
                hmr, hcc, if_false, if_true] at hc
              rw [Core.send_message_open _ _ _ rfl] at hc
              cases hx : gc[cc]? with
              | none => simp [hx] at hc
              | some x =>
                by_cases hs : sendable (some x) = true
                · simp [hx, hs] at hc
                · simp [hx, hs] at hc
          · simp [Core.handle_message, Core.handle_message_count, hcan, hthrow, hlog,
              hmr] at hc

theorem session_append_singleton (env : Env) (gc : List Json) (url : String) (page : Page)
    (pre : List MessageData) (m : MessageData) :
    session env gc url page (pre ++ [m])
      = dispatch env (session env gc url page pre) (.message m) := by
  simp [session, runEvents, List.foldl_append]

theorem session_append (env : Env) (gc : List Json) (url : String) (page : Page)
    (pre post : List MessageData) :
    session env gc url page (pre ++ post)
      = runEvents env (session env gc url page pre) (post.map .message) := by
  simp [session, runEvents, List.foldl_append]

theorem handle_message_blob_not_done (env : Env) (r : Runner) (b : List UInt8) :
    (handle_message env r (.blob b)).state.done = false := by
  simp only [handle_message, Outcome.state, Runner.done, append_terminal_text,
    String.data_append]
  rw [List.append_assoc, isSuffixOf_append_long _ _ _ (by decide)]
  simp only [Bool.and_eq_false_imp]
  intro _
  decide

theorem handle_message_cancel_not_done (env : Env) (r : Runner) (t : String)
    (h : includes t cancelResponse = true) :
    (handle_message env r (.text t)).state.done = false := by
  simp only [handle_message, h, if_true, Outcome.state, Runner.done, append_terminal_text,
    String.data_append]
  rw [List.append_assoc, isSuffixOf_append_long _ _ _ (by decide)]
  simp only [Bool.and_eq_false_imp]
  intro _
  decide

theorem Core.session_nil_open (gc : List Json) :
    (Core.session gc []).ws.readyState = .OPEN := by
  simp only [Core.session, Core.runEvents, List.map_nil, List.foldl_cons, List.foldl_nil,
    Core.dispatch, Core.init, WebSocket.new, if_true]
  rw [Core.send_message_open _ _ _ rfl]
  cases hx : gc[0]? with
  | none => rfl
  | some x =>
    by_cases hs : sendable (some x) = true
    · simp [hs]
    · simp [hs]

/-- A session that shows the end of the commands as its last line and has
closed its socket took the branch at the end of the commands. -/
theorem session_done (env : Env) (gc : List Json) (url : String) (page : Page)
    (messages : List MessageData) (h : (session env gc url page messages).done = true) :
    (Core.session gc messages).ws.readyState = .CLOSING ∧
    (Core.session gc messages).messages_received = 2 ∧
    (Core.session gc messages).current_command = gc.length := by
  induction messages using List.reverseRecOn with
  | nil =>
    exfalso
    have hcore := (session_core env gc url page []).2
    have hcl : (session env gc url page []).core.ws.readyState = .CLOSING := by
      simp only [Runner.done, Bool.and_eq_true, decide_eq_true_eq] at h
      exact h.1
    rw [hcore] at hcl
    have := Core.session_nil_open gc
    rw [Core.session, hcl] at this
    cases this
  | append_singleton pre m ih =>
    have hpre := session_core env gc url page pre
    have hstep := dispatch_core env (session env gc url page pre) (.message m)
    rw [session_append_singleton] at h
    rw [Core.session_snoc]
    rw [hpre.1, hpre.2] at hstep
    change _ ∧ _ = Core.dispatch gc (Core.session gc pre) (.message m) at hstep
    by_cases ho : (session env gc url page pre).command_runner_websocket.readyState = .OPEN
    · have hoc : (Core.session gc pre).ws.readyState = .OPEN := by
        have e : (Core.session gc pre) = (session env gc url page pre).core := hpre.2.symm
        rw [e]
        exact ho
      have hd : dispatch env (session env gc url page pre) (.message m)
          = (handle_message env (session env gc url page pre) m).state := by
        simp [dispatch, ho]
      have hdc : Core.dispatch gc (Core.session gc pre) (.message m)
          = Core.handle_message gc (Core.session gc pre) m := by
        simp [Core.dispatch, hoc]
      have hcl : (Core.dispatch gc (Core.session gc pre) (.message m)).ws.readyState
          = .CLOSING := by
        rw [← hstep.2]
        simp only [Runner.done, Bool.and_eq_true, decide_eq_true_eq] at h
        exact h.1
      rw [hdc] at hcl ⊢
      rcases Core.handle_message_closing gc _ m hoc hcl with hb | hcan | hfin
      · exfalso
        cases m with
        | text t => cases hb
        | blob b =>
          rw [hd, handle_message_blob_not_done] at h
          cases h
      · exfalso
        cases m with
        | blob b => cases hcan
        | text t =>
          rw [hd, handle_message_cancel_not_done env _ t hcan] at h
          cases h
      · exact ⟨hcl, hfin⟩
    · have hoc : ¬ (Core.session gc pre).ws.readyState = .OPEN := by
        have e : (Core.session gc pre) = (session env gc url page pre).core := hpre.2.symm
        rw [e]
        exact ho
      have hd : dispatch env (session env gc url page pre) (.message m)
          = session env gc url page pre := by
        simp [dispatch, ho]
      have hdc : Core.dispatch gc (Core.session gc pre) (.message m)
          = Core.session gc pre := by
        simp [Core.dispatch, hoc]
      rw [hd] at h
      rw [hdc]
      exact ih h

theorem framesSentBy_core (env : Env) (r : Runner) (e : Event) :
    framesSentBy env r e = Core.framesSentBy r.generated_commands r.core e := by
  unfold framesSentBy Core.framesSentBy
  rw [← (dispatch_core env r e).2]
  rfl

theorem take_drop_singleton (gc : List Json) (k : Nat) (x : Json) (h : gc[k]? = some x) :
    (gc.take (k + 1)).drop k = [x] := by
  rw [List.take_succ, h]
  have hk : k ≤ gc.length := by
    have := List.getElem?_eq_some_iff.mp h
    obtain ⟨hlt, _⟩ := this
    omega
  simp [List.drop_append_eq_append_drop, hk]

theorem take_drop_self (gc : List Json) (k : Nat) : (gc.take k).drop k = [] :=
  List.drop_eq_nil_of_le (List.length_take_le k gc)

/-- What an event other than a click does to the frames and the counters. -/
theorem Core.dispatch_frames (gc : List Json) (c : Core) (e : Event)
    (he : e.isCancelClick = false) :
    (Core.dispatch gc c e).ws.sent = c.ws.sent ++ Core.framesSentBy gc c e ∧
    c.current_command ≤ (Core.dispatch gc c e).current_command ∧
    Core.framesSentBy gc c e
      = (((gc.take (Core.dispatch gc c e).current_command).drop c.current_command).map
          instructionFrame) ∧
    (Core.framesSentBy gc c e ≠ [] →
      (Core.dispatch gc c e).ws.readyState = .OPEN ∧
      ((e = .opened ∧ c.ws.readyState = .CONNECTING ∧
          (Core.dispatch gc c e).messages_received = c.messages_received) ∨
       (∃ m, e = .message m ∧ m.isLog = false ∧ c.messages_received = 1 ∧
          (Core.dispatch gc c e).messages_received = 0))) := by
  obtain ⟨mr, cc, ⟨rs, sent⟩⟩ := c
  have same : ∀ c' : Core, c'.ws.sent = sent → c'.current_command = cc →
      c'.ws.sent = sent ++ List.drop sent.length c'.ws.sent ∧
      cc ≤ c'.current_command ∧
      List.drop sent.length c'.ws.sent
        = ((gc.take c'.current_command).drop cc).map instructionFrame ∧
      (List.drop sent.length c'.ws.sent ≠ [] →
        c'.ws.readyState = .OPEN ∧
        ((e = .opened ∧ rs = .CONNECTING ∧ c'.messages_received = mr) ∨
         (∃ m, e = .message m ∧ m.isLog = false ∧ mr = 1 ∧ c'.messages_received = 0))) := by
    intro c' h1 h2
    rw [h1, h2]
    simp [take_drop_self]
  unfold Core.framesSentBy
  cases e with
  | cancel_click => cases he
  | closed reason =>
    apply same
    · simp only [Core.dispatch]; split <;> rfl
    · simp only [Core.dispatch]; split <;> rfl
  | opened =>
    by_cases hc : rs = .CONNECTING
    · subst hc
      simp only [Core.dispatch, if_true]
      rw [Core.send_message_open _ _ _ rfl]
      cases hx : gc[cc]? with
      | none => simp [take_drop_self]
      | some x =>
        by_cases hs : sendable (some x) = true
        · simp only [hs, if_true]
          simp [take_drop_singleton gc cc x hx]
        · simp only [hs, if_false]
          simp [take_drop_self]
    · apply same
      · simp [Core.dispatch, hc]
      · simp [Core.dispatch, hc]
  | message m =>
    by_cases ho : rs = .OPEN
    · subst ho
      simp only [Core.dispatch, if_true]
      cases m with
      | blob b => exact same _ (by simp [Core.handle_message, WebSocket.close]) rfl
      | text t =>
        by_cases hcan : includes t cancelResponse = true
        · apply same
          · simp [Core.handle_message, hcan, WebSocket.close]
          · simp [Core.handle_message, hcan]
        · by_cases hthrow : t ≠ "Receiving instruction OK"
              ∧ nameable (jsIndex gc ((cc : Int) - 1)) = false
          · apply same
            · simp [Core.handle_message, hcan, hthrow]
            · simp [Core.handle_message, hcan, hthrow]
          · by_cases hlog : includes t logMarker = true
            · apply same
              · simp [Core.handle_message, hcan, hthrow, hlog]
              · simp [Core.handle_message, hcan, hthrow, hlog]
            · have hm : Core.handle_message gc
                  { messages_received := mr, current_command := cc,
                    ws := { readyState := .OPEN, sent := sent } } (.text t)
                  = Core.handle_message_count gc
                  { messages_received := mr, current_command := cc,
                    ws := { readyState := .OPEN, sent := sent } } := by
                simp [Core.handle_message, hcan, hthrow, hlog]
              rw [hm]
              by_cases hmr : mr + 1 = 2
              · have e2 : (mr + 1 = 2) = True := eq_true hmr
                by_cases hcc : cc = gc.length
                · apply same
                  · simp [Core.handle_message_count, e2, hcc, WebSocket.close]
                  · simp [Core.handle_message_count, e2, hcc]
                · have ec : (cc = gc.length) = False := eq_false hcc
                  simp only [Core.handle_message_count, e2, ec, if_true, if_false]
                  rw [Core.send_message_open _ _ _ rfl]
                  cases hx : gc[cc]? with
                  | none => simp [take_drop_self]
                  | some x =>
                    by_cases hs : sendable (some x) = true
                    · simp only [hs, if_true]
                      have h1 : mr = 1 := by omega
                      simp [take_drop_singleton gc cc x hx, MessageData.isLog, hlog, h1]
                    · simp only [hs, if_false]
                      simp [take_drop_self]
              · have e2 : (mr + 1 = 2) = False := eq_false hmr
                apply same
                · simp [Core.handle_message_count, e2]
                · simp [Core.handle_message_count, e2]
    · apply same
      · simp [Core.dispatch, ho]
      · simp [Core.dispatch, ho]

theorem instructionFrames_core (env : Env) (events : List Event) (r : Runner) :
    instructionFrames env r events
      = Core.instructionFrames r.generated_commands r.core events := by
  induction events generalizing r with
  | nil => rfl
  | cons e es ih =>
    simp only [instructionFrames, Core.instructionFrames]
    rw [ih, framesSentBy_core, (dispatch_core env r e).1, (dispatch_core env r e).2]

theorem Core.dispatch_click (gc : List Json) (c : Core) :
    (Core.dispatch gc c .cancel_click).current_command = c.current_command ∧
    (Core.dispatch gc c .cancel_click).messages_received = c.messages_received := by
  simp only [Core.dispatch]
  split <;> exact ⟨rfl, rfl⟩

theorem drop_take_append (gc : List Json) (a b d : Nat) (hab : a ≤ b) (hbd : b ≤ d) :
    (gc.take b).drop a ++ (gc.take d).drop b = (gc.take d).drop a := by
  have h1 : gc.take b = (gc.take d).take b := by
    rw [List.take_take, Nat.min_eq_left hbd]
  rw [h1]
  generalize gc.take d = l
  have h2 : l.drop a = (l.take b ++ l.drop b).drop a := by rw [List.take_append_drop]
  rw [h2, List.drop_append_eq_append_drop]
  have h3 : a - (l.take b).length = 0 ∨ l.drop b = [] := by
    by_cases hb : b ≤ l.length
    · left
      rw [List.length_take, Nat.min_eq_left hb]
      omega
    · right
      exact List.drop_eq_nil_of_le (by omega)
  rcases h3 with h3 | h3
  · rw [h3, List.drop_zero]
  · rw [h3]
    simp

theorem Core.instructionFrames_eq (gc : List Json) (events : List Event) (c : Core) :
    c.current_command ≤ (Core.runEvents gc c events).current_command ∧
    Core.instructionFrames gc c events
      = (((gc.take (Core.runEvents gc c events).current_command).drop
          c.current_command).map instructionFrame) := by
  induction events generalizing c with
  | nil => simp [Core.runEvents, Core.instructionFrames, take_drop_self]
  | cons e es ih =>
    obtain ⟨ih1, ih2⟩ := ih (Core.dispatch gc c e)
    simp only [Core.runEvents, List.foldl_cons, Core.instructionFrames] at ih1 ih2 ⊢
    cases hk : e.isCancelClick with
    | true =>
      have he : e = .cancel_click := by
        cases e <;> first | rfl | cases hk
      subst he
      have hcc := (Core.dispatch_click gc c).1
      rw [hcc] at ih1 ih2
      simp only [if_true, List.nil_append]
      exact ⟨ih1, ih2⟩
    | false =>
      obtain ⟨_, h2, h3, _⟩ := Core.dispatch_frames gc c e hk
      simp only [Bool.false_eq_true, if_false]
      refine ⟨Nat.le_trans h2 ih1, ?_⟩
      rw [ih2, h3, ← List.map_append, drop_take_append gc _ _ _ h2 ih1]

theorem Core.send_message_some (gc : List Json) (c c2 : Core) (n : Nat)
    (h : Core.send_message gc c n = some c2) :
    c2.messages_received = c.messages_received ∧ c2.current_command = c.current_command ∧
    c2.ws.readyState = c.ws.readyState := by
  cases hrs : c.ws.readyState <;>
    simp only [Core.send_message, WebSocket.send, hrs] at h <;>
    split at h <;>
    first
      | (cases h; exact ⟨rfl, rfl, rfl⟩)
      | (cases h; exact ⟨rfl, rfl, hrs⟩)
      | cases h

theorem WebSocket.close_readyState (ws : WebSocket) :
    ws.close.readyState = ws.readyState ∨ ws.close.readyState = .CLOSING := by
  unfold WebSocket.close
  split <;> simp

theorem Core.handle_message_readyState (gc : List Json) (c : Core) (m : MessageData) :
    (Core.handle_message gc c m).ws.readyState = c.ws.readyState ∨
    (Core.handle_message gc c m).ws.readyState = .CLOSING := by
  cases m with
  | blob b => exact WebSocket.close_readyState c.ws
  | text t =>
    simp only [Core.handle_message]
    split
    · exact WebSocket.close_readyState c.ws
    · split
      · left; rfl
      · split
        · left; rfl
        · simp only [Core.handle_message_count]
          split
          · split
            · exact WebSocket.close_readyState c.ws
            · split
              · left; rfl
              · rename_i c2 heq
                left
                exact (Core.send_message_some gc _ c2 _ heq).2.2
          · left; rfl

theorem Core.dispatch_messages_received (gc : List Json) (c : Core) (e : Event)
    (h : nonLogMessages [e] = 0) :
    (Core.dispatch gc c e).messages_received = c.messages_received := by
  obtain ⟨mr, cc, ⟨rs, sent⟩⟩ := c
  cases e with
  | cancel_click => exact (Core.dispatch_click gc _).2
  | closed reason => simp only [Core.dispatch]; split <;> rfl
  | opened =>
    simp only [Core.dispatch]
    split
    · split
      · rfl
      · rename_i c2 heq
        exact (Core.send_message_some gc _ c2 _ heq).1
    · rfl
  | message m =>
    cases m with
    | blob b => simp [nonLogMessages, MessageData.isLog] at h
    | text t =>
      have hl : includes t logMarker = true := by
        by_cases hl : includes t logMarker = true
        · exact hl
        · simp [nonLogMessages, MessageData.isLog, hl] at h
      simp only [Core.dispatch, Core.handle_message, hl, if_true]
      split
      · split
        · rfl
        · split <;> rfl
      · rfl

theorem nonLogMessages_cons (e : Event) (es : List Event) :
    nonLogMessages (e :: es) = nonLogMessages [e] + nonLogMessages es := by
  cases e <;> simp [nonLogMessages]

theorem nonLogMessages_append (es fs : List Event) :
    nonLogMessages (es ++ fs) = nonLogMessages es + nonLogMessages fs := by
  induction es with
  | nil => simp [nonLogMessages]
  | cons e es ih =>
    rw [List.cons_append, nonLogMessages_cons, ih, nonLogMessages_cons e es]
    omega

theorem Core.runEvents_messages_received (gc : List Json) (events : List Event) (c : Core)
    (h : nonLogMessages events = 0) :
    (Core.runEvents gc c events).messages_received = c.messages_received := by
  induction events generalizing c with
  | nil => rfl
  | cons e es ih =>
    rw [nonLogMessages_cons] at h
    simp only [Core.runEvents, List.foldl_cons]
    have := ih (Core.dispatch gc c e) (by omega)
    simp only [Core.runEvents] at this
    rw [this]
    exact Core.dispatch_messages_received gc c e (by omega)

theorem Core.dispatch_connecting (gc : List Json) (c : Core) (e : Event)
    (h : (Core.dispatch gc c e).ws.readyState = .CONNECTING) :
    c.ws.readyState = .CONNECTING ∧
    (Core.dispatch gc c e).messages_received = c.messages_received := by
  obtain ⟨mr, cc, ⟨rs, sent⟩⟩ := c
  cases e with
  | cancel_click =>
    simp only [Core.dispatch, WebSocket.send] at h ⊢
    cases rs <;> simp_all
  | closed reason =>
    simp only [Core.dispatch] at h ⊢
    split at h
    · exact ⟨h, by simp_all⟩
    · cases h
  | opened =>
    exfalso
    simp only [Core.dispatch] at h
    split at h
    · rw [Core.send_message_open _ _ _ rfl] at h
      split at h
      · cases h
      · rename_i heq
        split at heq
        · split at heq
          · cases heq
            cases h
          · cases heq
        · cases heq
    · rename_i hne
      exact hne h
  | message m =>
    simp only [Core.dispatch] at h ⊢
    split at h
    · rename_i ho
      exfalso
      rcases Core.handle_message_readyState gc
          { messages_received := mr, current_command := cc,
            ws := { readyState := rs, sent := sent } } m with h1 | h1
      · rw [h] at h1
        simp only at h1
        rw [ho] at h1
        cases h1
      · rw [h] at h1
        cases h1
    · rename_i hne
      simp only [hne, if_false]
      exact ⟨h, trivial⟩

theorem Core.runEvents_connecting (gc : List Json) (events : List Event) (c : Core)
    (h : (Core.runEvents gc c events).ws.readyState = .CONNECTING) :
    c.ws.readyState = .CONNECTING ∧
    (Core.runEvents gc c events).messages_received = c.messages_received := by
  induction events generalizing c with
  | nil => exact ⟨h, rfl⟩
  | cons e es ih =>
    simp only [Core.runEvents, List.foldl_cons] at h ⊢
    obtain ⟨h1, h2⟩ := ih (Core.dispatch gc c e) h
    obtain ⟨h3, h4⟩ := Core.dispatch_connecting gc c e h1
    simp only [Core.runEvents] at h2
    exact ⟨h3, by rw [h2, h4]⟩

/-- Between two events whose handlers send an instruction frame, at least two
messages that are not log messages arrive, the second event included. -/
theorem Core.two_replies_between (gc : List Json) (A M : List Event) (ea eb : Event)
    (hea : ea.isCancelClick = false) (heb : eb.isCancelClick = false)
    (ha : Core.framesSentBy gc (Core.runEvents gc Core.init A) ea ≠ [])
    (hb : Core.framesSentBy gc (Core.runEvents gc Core.init (A ++ ea :: M)) eb ≠ []) :
    2 ≤ nonLogMessages (M ++ [eb]) := by
  have hsplit : Core.runEvents gc Core.init (A ++ ea :: M)
      = Core.runEvents gc (Core.dispatch gc (Core.runEvents gc Core.init A) ea) M := by
    simp [Core.runEvents, List.foldl_append]
  rw [hsplit] at hb
  obtain ⟨ho, hcase⟩ := (Core.dispatch_frames gc _ ea hea).2.2.2 ha
  have hmr : (Core.dispatch gc (Core.runEvents gc Core.init A) ea).messages_received = 0 := by
    rcases hcase with ⟨_, hc, hm⟩ | ⟨m, _, _, _, hm⟩
    · rw [hm]
      exact (Core.runEvents_connecting gc A Core.init hc).2
    · exact hm
  obtain ⟨_, hcase2⟩ := (Core.dispatch_frames gc _ eb heb).2.2.2 hb
  rcases hcase2 with ⟨_, hc, _⟩ | ⟨m, hm, hlog, hone, _⟩
  · exfalso
    have := (Core.runEvents_connecting gc M _ hc).1
    rw [ho] at this
    cases this
  · have hM : nonLogMessages M ≠ 0 := by
      intro h0
      have := Core.runEvents_messages_received gc M
        (Core.dispatch gc (Core.runEvents gc Core.init A) ea) h0
      rw [hone, hmr] at this
      cases this
    rw [nonLogMessages_append, hm]
    simp only [nonLogMessages, hlog, Bool.false_eq_true, if_false]
    omega

theorem WebSocket.close_sent (ws : WebSocket) : ws.close.sent = ws.sent := by
  unfold WebSocket.close
  split <;> rfl

theorem Core.handle_message_isLog (gc : List Json) (c : Core) (m : MessageData)
    (h : m.isLog = true) :
    (Core.handle_message gc c m).current_command = c.current_command ∧
    (Core.handle_message gc c m).messages_received = c.messages_received ∧
    (Core.handle_message gc c m).ws.sent = c.ws.sent := by
  cases m with
  | blob b => cases h
  | text t =>
    simp only [MessageData.isLog] at h
    simp only [Core.handle_message, h, if_true]
    split
    · exact ⟨rfl, rfl, WebSocket.close_sent _⟩
    · split <;> exact ⟨rfl, rfl, rfl⟩

theorem Core.dispatch_plainLog (gc : List Json) (c : Core) (m : MessageData)
    (h : m.isPlainLog = true) : Core.dispatch gc c (.message m) = c := by
  cases m with
  | blob b => simp [MessageData.isPlainLog, MessageData.isLog] at h
  | text t =>
    simp only [MessageData.isPlainLog, MessageData.isLog, MessageData.isCancelResponse,
      Bool.and_eq_true, Bool.not_eq_true', ] at h
    simp only [Core.dispatch, Core.handle_message, h.1, h.2, if_true]
    split
    · simp
    · rfl

theorem Core.runEvents_withoutPlainLogs (gc : List Json) (messages : List MessageData)
    (c : Core) :
    Core.runEvents gc c (messages.map .message)
      = Core.runEvents gc c ((withoutPlainLogs messages).map .message) := by
  induction messages generalizing c with
  | nil => rfl
  | cons m ms ih =>
    cases hm : m.isPlainLog with
    | true =>
      have : withoutPlainLogs (m :: ms) = withoutPlainLogs ms := by
        simp [withoutPlainLogs, hm]
      rw [this, ← ih c]
      simp only [List.map_cons, Core.runEvents, List.foldl_cons]
      rw [Core.dispatch_plainLog gc c m hm]
    | false =>
      have : withoutPlainLogs (m :: ms) = m :: withoutPlainLogs ms := by
        simp [withoutPlainLogs, hm]
      rw [this]
      simp only [List.map_cons, Core.runEvents, List.foldl_cons]
      exact ih _

theorem session_sent (env : Env) (gc : List Json) (url : String) (page : Page)
    (messages : List MessageData) :
    (session env gc url page messages).command_runner_websocket.sent
      = (Core.session gc messages).ws.sent := by
  have hcore := (session_core env gc url page messages).2
  rw [Core.session, ← hcore]
  rfl

theorem command_generator_onmessage_failure (env : Env) (g : Generator) (data : MessageData) :
    (command_generator_onmessage env g data).state.command_generation_failure
      = (g.command_generation_failure || flaggedUnsuccessful env data) := by
  unfold command_generator_onmessage flaggedUnsuccessful
  cases env.JSON_parse data.asText with
  | none => simp [Outcome.state]
  | some j =>
    dsimp only
    cases hp : jsHasOwnProperty (some j) "init_msg" with
    | error e => simp [Outcome.state]
    | ok b =>
      cases b with
      | false => simp [Outcome.state]
      | true =>
        dsimp only
        cases hw : jsIsBool (jsGet (some j) "was_error").toOption.join false <;>
          split <;> simp [Outcome.state]

theorem receiveGenerated_failure (env : Env) (messages : List MessageData) (g : Generator) :
    (receiveGenerated env g messages).command_generation_failure
      = (g.command_generation_failure || messages.any (flaggedUnsuccessful env)) := by
  induction messages generalizing g with
  | nil => simp [receiveGenerated]
  | cons m ms ih =>
    simp only [receiveGenerated, List.foldl_cons, List.any_cons] at ih ⊢
    rw [ih, command_generator_onmessage_failure, Bool.or_assoc]

theorem generation_isOrchestration (env : Env) (init_schema : Json) (url : String)
    (page : Page) (messages : List MessageData) :
    (generation env init_schema url page messages).isOrchestration
      = !messages.any (flaggedUnsuccessful env) := by
  unfold generation command_generator_onclose
  simp only [receiveGenerated_failure]
  have h0 : (command_generator_onopen
      { request_command init_schema url page with
        command_generator_websocket :=
          { (request_command init_schema url page).command_generator_websocket with
            readyState := .OPEN } }).state.command_generation_failure = false := by
    simp [command_generator_onopen, request_command, WebSocket.send, WebSocket.new,
      Outcome.state]
  rw [h0]
  cases messages.any (flaggedUnsuccessful env) <;> simp [AfterGeneration.isOrchestration]

theorem WebSocket.close_not_open (ws : WebSocket) :
    ws.close.readyState = .CLOSING ∨ ws.close.readyState = .CLOSED := by
  unfold WebSocket.close
  cases h : ws.readyState <;> simp [h]

theorem Core.dispatch_closed (gc : List Json) (c : Core) (e : Event)
    (h : c.ws.readyState = .CLOSING ∨ c.ws.readyState = .CLOSED) :
    ((Core.dispatch gc c e).ws.readyState = .CLOSING ∨
      (Core.dispatch gc c e).ws.readyState = .CLOSED) ∧
    (Core.dispatch gc c e).ws.sent = c.ws.sent ∧
    (Core.dispatch gc c e).current_command = c.current_command ∧
    (Core.dispatch gc c e).messages_received = c.messages_received := by
  obtain ⟨mr, cc, ⟨rs, sent⟩⟩ := c
  simp only at h
  cases e with
  | opened => rcases h with h | h <;> subst h <;> simp [Core.dispatch]
  | message m => rcases h with h | h <;> subst h <;> simp [Core.dispatch]
  | cancel_click => rcases h with h | h <;> subst h <;> simp [Core.dispatch, WebSocket.send]
  | closed reason => rcases h with h | h <;> subst h <;> simp [Core.dispatch]

theorem Core.closed_stays (gc : List Json) (events : List Event) (c : Core)
    (h : c.ws.readyState = .CLOSING ∨ c.ws.readyState = .CLOSED) :
    (Core.runEvents gc c events).ws.sent = c.ws.sent ∧
    (Core.runEvents gc c events).current_command = c.current_command ∧
    (Core.runEvents gc c events).messages_received = c.messages_received := by
  induction events generalizing c with
  | nil => exact ⟨rfl, rfl, rfl⟩
  | cons e es ih =>
    obtain ⟨h1, h2, h3, h4⟩ := Core.dispatch_closed gc c e h
    obtain ⟨i1, i2, i3⟩ := ih _ h1
    simp only [Core.runEvents, List.foldl_cons] at i1 i2 i3 ⊢
    exact ⟨i1.trans h2, i2.trans h3, i3.trans h4⟩

/-- Once the script has closed the socket of a session, no event makes the
session send a frame or move its counters. -/
theorem runEvents_closed (env : Env) (r : Runner) (events : List Event)
    (h : r.command_runner_websocket.readyState = .CLOSING ∨
      r.command_runner_websocket.readyState = .CLOSED) :
    (runEvents env r events).command_runner_websocket.sent = r.command_runner_websocket.sent ∧
    (runEvents env r events).current_command = r.current_command ∧
    (runEvents env r events).messages_received = r.messages_received := by
  have hc := (runEvents_core env events r).2
  have := Core.closed_stays r.generated_commands events r.core h
  rw [← hc] at this
  exact this

theorem Core.session_good_of_sendable (gc : List Json) (messages : List MessageData)
    (hs : ∀ x ∈ gc, sendable (some x) = true)
    (ht : ∀ m ∈ messages, m.isText = true ∧ m.isCancelResponse = false) :
    Core.Good gc (Core.session gc messages) (nonLogCount messages) := by
  have hno : ¬ ∃ x ∈ gc, sendable (some x) = false := by
    rintro ⟨x, hx, hf⟩
    rw [hs x hx] at hf
    cases hf
  induction messages using List.reverseRecOn with
  | nil =>
    rcases Core.opened_class gc with h | ⟨_, h⟩
    · exact h
    · exact absurd h hno
  | append_singleton pre m ih =>
    have ihp := ih (fun x hx => ht x (List.mem_append_left _ hx))
    obtain ⟨h1, h2⟩ := ht m (List.mem_append_right _ (List.mem_singleton_self m))
    rw [Core.session_snoc, nonLogCount_append_singleton]
    rcases Core.good_step gc _ _ m ihp with h | ⟨_, h⟩
    · exact h
    · exfalso
      rcases h with h | h | h
      · rw [h1] at h; cases h
      · rw [h2] at h; cases h
      · exact hno h

theorem Core.good_cases (gc : List Json) (c : Core) (k : Nat) (hne : gc ≠ [])
    (h : Core.Good gc c k) :
    (k < 2 * gc.length ∧ c.ws.readyState = .OPEN) ∨
    (2 * gc.length ≤ k ∧ c.ws.readyState = .CLOSING) := by
  rcases h with ⟨h1, h2, h3, h4, _, _, h7⟩ | ⟨h1, _⟩ | ⟨⟨h1, _⟩, h5⟩
  · left
    exact ⟨by omega, h1⟩
  · exact absurd h1 hne
  · right
    exact ⟨h5, h1⟩

theorem session_readyState (env : Env) (gc : List Json) (url : String) (page : Page)
    (messages : List MessageData) :
    (session env gc url page messages).command_runner_websocket.readyState
      = (Core.session gc messages).ws.readyState := by
  have hcore := (session_core env gc url page messages).2
  rw [Core.session, ← hcore]
  rfl

theorem handle_message_closing_done (env : Env) (r : Runner) (t : String)
    (hcan : includes t cancelResponse = false)
    (ho : r.command_runner_websocket.readyState = .OPEN)
    (hc : (handle_message env r (.text t)).state.command_runner_websocket.readyState
      = .CLOSING) :
    (handle_message env r (.text t)).state.done = true := by
  have hsuffix : ∀ x : String,
      "End of command running.<br>".data.isSuffixOf
        (x ++ "End of command running." ++ "<br>").data = true := by
    intro x
    rw [String.data_append, String.data_append, List.append_assoc,
      isSuffixOf_append_long _ _ _ (by decide)]
    decide
  -- the counting branch on any page
  have hcount : ∀ r1 : Runner, r1.command_runner_websocket.readyState = .OPEN →
      (handle_message_count env r1).state.command_runner_websocket.readyState = .CLOSING →
      (handle_message_count env r1).state.done = true := by
    intro r1 ho1 hc1
    unfold handle_message_count at hc1 ⊢
    by_cases h2 : r1.messages_received + 1 = 2
    · have e2 : (r1.messages_received + 1 = 2) = True := eq_true h2
      by_cases hn : r1.current_command = r1.generated_commands.length
      · have en : (r1.current_command = r1.generated_commands.length) = True := eq_true hn
        simp only [e2, en, if_true, Runner.n_commands, Outcome.state, Runner.done,
          append_terminal_text, hsuffix, Bool.and_true, WebSocket.close, ho1]
        decide
      · exfalso
        have en : (r1.current_command = r1.generated_commands.length) = False := eq_false hn
        simp only [e2, en, if_true, if_false, Runner.n_commands] at hc1
        cases hs : send_message env
            { r1 with messages_received := r1.messages_received + 1 } r1.current_command with
        | returned r2 =>
          rw [hs] at hc1
          simp only [Outcome.state] at hc1
          obtain ⟨_, hcore⟩ := send_message_returned env _ r2 _ hs
          have := (Core.send_message_some _ _ _ _ hcore).2.2
          simp only [Runner.core] at this
          rw [hc1, ho1] at this
          cases this
        | threw e r2 =>
          rw [hs] at hc1
          simp only [Outcome.state] at hc1
          obtain ⟨_, hcore, _⟩ := send_message_threw env _ r2 _ e hs
          have := congrArg (fun c => c.ws.readyState) hcore
          simp only [Runner.core] at this
          rw [hc1, ho1] at this
          cases this
    · exfalso
      have e2 : (r1.messages_received + 1 = 2) = False := eq_false h2
      simp only [e2, if_false, Outcome.state] at hc1
      rw [ho1] at hc1
      cases hc1
  unfold handle_message at hc ⊢
  simp only [hcan, Bool.false_eq_true, if_false] at hc ⊢
  by_cases hr : t = "Receiving instruction OK"
  · have hl : includes "Receiving instruction OK" logMarker = false := by decide
    simp only [hr, if_true, hl, Bool.false_eq_true, if_false] at hc ⊢
    exact hcount r ho hc
  · simp only [hr, if_false] at hc ⊢
    cases hf : formatServerResponseMessages env r.page t
        (jsIndex r.generated_commands ((r.current_command : Int) - 1)) with
    | error e =>
      exfalso
      rw [hf] at hc
      simp only [Outcome.state] at hc
      rw [ho] at hc
      cases hc
    | ok q =>
      rw [hf] at hc
      simp only at hc ⊢
      by_cases hl : includes t logMarker = true
      · exfalso
        simp only [hl, if_true] at hc
        have := congrArg (fun c => c.ws.readyState)
          (handle_message_log_core env { r with page := q } t).2
        simp only [Runner.core] at this
        rw [hc, ho] at this
        cases this
      · simp only [hl, if_false] at hc ⊢
        exact hcount { r with page := q } ho hc

theorem session_closing_done (env : Env) (gc : List Json) (url : String) (page : Page)
    (messages : List MessageData)
    (ht : ∀ m ∈ messages, m.isText = true ∧ m.isCancelResponse = false)
    (hc : (session env gc url page messages).command_runner_websocket.readyState = .CLOSING) :
    (session env gc url page messages).done = true := by
  induction messages using List.reverseRecOn with
  | nil =>
    exfalso
    rw [session_readyState, Core.session_nil_open] at hc
    cases hc
  | append_singleton pre m ih =>
    have ihp := ih (fun x hx => ht x (List.mem_append_left _ hx))
    obtain ⟨h1, h2⟩ := ht m (List.mem_append_right _ (List.mem_singleton_self m))
    rw [session_append_singleton] at hc ⊢
    by_cases ho : (session env gc url page pre).command_runner_websocket.readyState = .OPEN
    · have hd : dispatch env (session env gc url page pre) (.message m)
          = (handle_message env (session env gc url page pre) m).state := by
        simp [dispatch, ho]
      rw [hd] at hc ⊢
      cases m with
      | blob b => cases h1
      | text t => exact handle_message_closing_done env _ t h2 ho hc
    · have hd : dispatch env (session env gc url page pre) (.message m)
          = session env gc url page pre := by
        simp [dispatch, ho]
      rw [hd] at hc ⊢
      exact ihp hc

theorem partitionEntries_listEntry (entries : List (Bool × String))
    (successful failed : List (Option Json)) :
    partitionEntries (entries.map listEntry) successful failed
      = .ok (successful ++ (successfulMessages entries).map (fun m => some (.str m)),
          failed ++ (failedMessages entries).map (fun m => some (.str m))) := by
  induction entries generalizing successful failed with
  | nil => simp [partitionEntries, successfulMessages, failedMessages]
  | cons e es ih =>
    obtain ⟨b, m⟩ := e
    have h1 : jsGet (some (listEntry (b, m))) "is_success" = .ok (some (.bool b)) := rfl
    have h2 : jsGet (some (listEntry (b, m))) "message" = .ok (some (.str m)) := rfl
    simp only [List.map_cons, partitionEntries, h1, h2, jsTruthy]
    cases b with
    | true =>
      simp only [if_true]
      rw [ih]
      simp [successfulMessages, failedMessages]
    | false =>
      simp only [Bool.false_eq_true, if_false]
      rw [ih]
      simp [successfulMessages, failedMessages]

theorem Array_join_strings (ms : List String) (sep : String) :
    Array_join (ms.map fun m => some (Json.str m)) sep = sep.intercalate ms := by
  unfold Array_join
  congr 1
  rw [List.map_map]
  conv => rhs; rw [← List.map_id ms]
  apply List.map_congr_left
  intro m _
  simp [Json.toStr]

theorem formatServerResponseMessages_list (env : Env) (p : Page) (text : String)
    (entries : List (Bool × String)) (last_command : Option Json) (instruction : Json)
    (hparse : env.JSON_parse text = some (listResponse entries))
    (hname : getInstructionName last_command = .ok instruction) :
    formatServerResponseMessages env p text last_command
      = .ok (formatList env p instruction
          ((successfulMessages entries).map fun m => some (.str m))
          ((failedMessages entries).map fun m => some (.str m))) := by
  have h1 : jsIn "Generic" (some (listResponse entries)) = .ok false := rfl
  have h2 : jsIn "Single" (some (listResponse entries)) = .ok false := rfl
  have h3 : jsIn "List" (some (listResponse entries)) = .ok true := rfl
  have h4 : jsGet (some (listResponse entries)) "List"
      = .ok (some (.arr (entries.map listEntry))) := rfl
  have htry : formatServerResponseMessages_try env p text instruction
      = .ok (formatList env p instruction
          ((successfulMessages entries).map fun m => some (.str m))
          ((failedMessages entries).map fun m => some (.str m))) := by
    unfold formatServerResponseMessages_try
    rw [hparse]
    simp only [h1, h2, h3, h4, bind, Except.bind, pure, Except.pure,
      partitionEntries_listEntry, List.nil_append, Bool.false_eq_true, if_false, if_true]
  unfold formatServerResponseMessages
  rw [hname]
  simp only [htry]

theorem formatServerResponseMessages_unparseable (env : Env) (p : Page) (text : String)
    (last_command : Option Json) (hparse : env.JSON_parse text = none)
    (hname : nameable last_command = true) :
    formatServerResponseMessages env p text last_command = .ok (printedRaw p text) := by
  unfold nameable at hname
  unfold formatServerResponseMessages
  cases hg : getInstructionName last_command with
  | error e => simp [hg] at hname
  | ok instruction =>
    simp only [formatServerResponseMessages_try, hparse]
    rfl

theorem formatServerResponseMessages_primitive (env : Env) (p : Page) (text : String)
    (last_command : Option Json) (j : Json) (hparse : env.JSON_parse text = some j)
    (hj : j.isPrimitive = true)
    (hname : nameable last_command = true) :
    formatServerResponseMessages env p text last_command = .ok (printedRaw p text) := by
  unfold nameable at hname
  unfold formatServerResponseMessages
  cases hg : getInstructionName last_command with
  | error e => simp [hg] at hname
  | ok instruction =>
    have h1 : jsIn "Generic" (some j) = .error .TypeError := by
      cases j <;> first | rfl | simp [Json.isPrimitive] at hj
    simp only [formatServerResponseMessages_try, hparse, h1, bind, Except.bind]
    rfl

theorem formatServerResponseMessages_other (env : Env) (p : Page) (text : String)
    (last_command : Option Json) (j : Json) (hparse : env.JSON_parse text = some j)
    (hG : jsIn "Generic" (some j) = .ok false) (hS : jsIn "Single" (some j) = .ok false)
    (hL : jsIn "List" (some j) = .ok false) (hLog : jsIn "Log" (some j) = .ok false)
    (hname : nameable last_command = true) :
    formatServerResponseMessages env p text last_command
      = .ok (console_error p
        "The json message from the server did not match the three variants in OrchestrationProtocolResponse") := by
  unfold nameable at hname
  unfold formatServerResponseMessages
  cases hg : getInstructionName last_command with
  | error e => simp [hg] at hname
  | ok instruction =>
    simp only [formatServerResponseMessages_try, hparse, hG, hS, hL, hLog, bind, Except.bind,
      pure, Except.pure, Bool.false_eq_true, if_false]

theorem command_generator_onmessage_generated (env : Env) (g : Generator) (data : MessageData) :
    (command_generator_onmessage env g data).state.generated_commands
      = g.generated_commands ++ (generatedInstruction env data).toList ∧
    (command_generator_onmessage env g data).state.websocket_url = g.websocket_url := by
  unfold command_generator_onmessage generatedInstruction
  cases env.JSON_parse data.asText with
  | none => simp [Outcome.state]
  | some j =>
    dsimp only
    cases hp : jsHasOwnProperty (some j) "init_msg" with
    | error e => simp [Outcome.state]
    | ok b =>
      cases b with
      | false => simp [Outcome.state]
      | true =>
        dsimp only
        split <;> split <;> simp [Outcome.state]

theorem receiveGenerated_generated (env : Env) (messages : List MessageData) (g : Generator) :
    (receiveGenerated env g messages).generated_commands
      = g.generated_commands ++ messages.filterMap (generatedInstruction env) ∧
    (receiveGenerated env g messages).websocket_url = g.websocket_url := by
  induction messages generalizing g with
  | nil => simp [receiveGenerated]
  | cons m ms ih =>
    obtain ⟨h1, h2⟩ := command_generator_onmessage_generated env g m
    obtain ⟨i1, i2⟩ := ih (command_generator_onmessage env g m).state
    simp only [receiveGenerated, List.foldl_cons] at i1 i2 ⊢
    rw [i1, i2, h1, h2, List.filterMap_cons]
    cases generatedInstruction env m <;> simp

theorem generation_orchestration (env : Env) (init_schema : Json) (url : String)
    (page : Page) (messages : List MessageData) (r : Runner)
    (h : generation env init_schema url page messages = .orchestration r) :
    ∃ q : Page, r = run_orchestration (messages.filterMap (generatedInstruction env)) url q := by
  unfold generation command_generator_onclose at h
  dsimp only at h
  split at h
  · injection h with h
    rw [(receiveGenerated_generated env messages _).1,
      (receiveGenerated_generated env messages _).2] at h
    simp only [command_generator_onopen, request_command, WebSocket.send, WebSocket.new,
      Outcome.state, List.nil_append] at h
    exact ⟨_, h.symm⟩
  · cases h

theorem instructionFrames_run_orchestration (env : Env) (gc : List Json) (url : String)
    (page : Page) (events : List Event) :
    (runEvents env (run_orchestration gc url page) events).generated_commands = gc ∧
    instructionFrames env (run_orchestration gc url page) events
      = (gc.take (runEvents env (run_orchestration gc url page) events).current_command).map
          instructionFrame := by
  have hcore := runEvents_core env events (run_orchestration gc url page)
  simp only [run_orchestration_core] at hcore
  refine ⟨hcore.1, ?_⟩
  rw [instructionFrames_core, (run_orchestration_core gc url page).1,
    (run_orchestration_core gc url page).2]
  have := (Core.instructionFrames_eq gc events Core.init).2
  rw [this, ← hcore.2]
  simp [Core.init, Runner.core]

theorem command_generator_onmessage_plain (env : Env) (g : Generator) (data : MessageData)
    (h : carriesInitMsg env data = false) :
    (command_generator_onmessage env g data).state
      = { g with generated_commands :=
            g.generated_commands ++ (generatedInstruction env data).toList } := by
  unfold carriesInitMsg at h
  unfold command_generator_onmessage generatedInstruction
  cases hp : env.JSON_parse data.asText with
  | none => simp [Outcome.state]
  | some j =>
    rw [hp] at h
    dsimp only at h ⊢
    cases ho : jsHasOwnProperty (some j) "init_msg" with
    | error e => simp [Outcome.state]
    | ok b =>
      cases b with
      | false => simp [Outcome.state]
      | true => rw [ho] at h; cases h

theorem receiveGenerated_plain (env : Env) (messages : List MessageData) (g : Generator)
    (h : ∀ m ∈ messages, carriesInitMsg env m = false) :
    receiveGenerated env g messages
      = { g with generated_commands :=
            g.generated_commands ++ messages.filterMap (generatedInstruction env) } := by
  induction messages generalizing g with
  | nil => simp [receiveGenerated]
  | cons m ms ih =>
    have hm := command_generator_onmessage_plain env g m (h m (List.mem_cons_self _ _))
    have := ih (command_generator_onmessage env g m).state
      (fun x hx => h x (List.mem_cons_of_mem _ hx))
    simp only [receiveGenerated, List.foldl_cons] at this ⊢
    rw [this, hm, List.filterMap_cons]
    cases generatedInstruction env m <;> simp

theorem tagIsChecked_upReRunACLFlag (dom : Dom) : dom.tagIsChecked "upReRunACLFlag" = false := by
  unfold Dom.tagIsChecked
  rw [List.any_eq_false]
  intro e he
  rw [List.mem_filter] at he
  have h1 : e.tag.data = "uprerunaclflag".data := by
    have := he.2
    simp only [beq_iff_eq] at this
    rw [this]
    decide
  have h2 : e.tag = "uprerunaclflag" := by
    cases ht : e.tag with
    | mk d => rw [ht] at h1; simp only at h1; rw [h1]
  simp [Element.matchesChecked, h2]

theorem replaceWhiteSpaceRuns_head (t : List Char) (c : Char)
    (h : (replaceWhiteSpaceRuns true t).head? = some c) : isWhiteSpace c = false := by
  induction t with
  | nil => simp [replaceWhiteSpaceRuns] at h
  | cons x xs ih =>
    unfold replaceWhiteSpaceRuns at h
    cases hx : isWhiteSpace x with
    | true => simp only [hx, if_true] at h; exact ih h
    | false =>
      simp only [hx, Bool.false_eq_true, if_false, List.head?_cons, Option.some.injEq] at h
      rw [← h]; exact hx

theorem replaceWhiteSpaceRuns_chain (t : List Char) (b : Bool) :
    List.Chain' (fun x y => ¬ (isWhiteSpace x = true ∧ isWhiteSpace y = true))
      (replaceWhiteSpaceRuns b t) := by
  induction t generalizing b with
  | nil => simp [replaceWhiteSpaceRuns]
  | cons x xs ih =>
    unfold replaceWhiteSpaceRuns
    cases hx : isWhiteSpace x with
    | true =>
      cases b with
      | true => simp only [if_true]; exact ih true
      | false =>
        simp only [if_true, Bool.false_eq_true, if_false]
        rw [List.chain'_cons']
        refine ⟨?_, ih true⟩
        intro y hy
        have := replaceWhiteSpaceRuns_head xs y (by simpa using hy)
        simp [this]
    | false =>
      simp only [Bool.false_eq_true, if_false]
      rw [List.chain'_cons']
      refine ⟨?_, ih false⟩
      intro y _
      simp [hx]

theorem replaceWhiteSpaceRuns_concat (l : List Char) (c : Char) (b : Bool)
    (hc : isWhiteSpace c = false) :
    replaceWhiteSpaceRuns b (l ++ [c]) = replaceWhiteSpaceRuns b l ++ [c] := by
  induction l generalizing b with
  | nil => simp [replaceWhiteSpaceRuns, hc]
  | cons x xs ih =>
    simp only [List.cons_append, replaceWhiteSpaceRuns]
    cases hx : isWhiteSpace x with
    | true =>
      cases b with
      | true => simp only [if_true]; exact ih true
      | false =>
        simp only [if_true, Bool.false_eq_true, if_false, List.cons_append]
        exact congrArg _ (ih true)
    | false =>
      simp only [Bool.false_eq_true, if_false, List.cons_append]
      exact congrArg _ (ih false)

theorem replaceWhiteSpaceRuns_space (t : List Char) (b : Bool) (c : Char)
    (hc : c ∈ replaceWhiteSpaceRuns b t) (hw : isWhiteSpace c = true) : c = ' ' := by
  induction t generalizing b with
  | nil => simp [replaceWhiteSpaceRuns] at hc
  | cons x xs ih =>
    unfold replaceWhiteSpaceRuns at hc
    cases hx : isWhiteSpace x with
    | true =>
      cases b with
      | true => simp only [hx, if_true] at hc; exact ih true hc
      | false =>
        simp only [hx, if_true, Bool.false_eq_true, if_false, List.mem_cons] at hc
        rcases hc with h | h
        · exact h
        · exact ih true h
    | false =>
      simp only [hx, Bool.false_eq_true, if_false, List.mem_cons] at hc
      rcases hc with h | h
      · rw [h, hx] at hw; cases hw
      · exact ih false h

theorem splitWords_replaceWhiteSpaceRuns (t : List Char) (b : Bool) (cur : List Char)
    (h : b = true → cur = []) :
    splitWords cur (replaceWhiteSpaceRuns b t) = splitWords cur t := by
  induction t generalizing b cur with
  | nil => simp [replaceWhiteSpaceRuns]
  | cons x xs ih =>
    unfold replaceWhiteSpaceRuns
    cases hx : isWhiteSpace x with
    | true =>
      cases b with
      | true =>
        have hcur := h rfl
        subst hcur
        simp only [if_true]
        rw [ih true [] (fun _ => rfl)]
        simp [splitWords, hx]
      | false =>
        simp only [if_true, Bool.false_eq_true, if_false]
        have hs : isWhiteSpace ' ' = true := by decide
        simp only [splitWords, hs, hx, if_true]
        rw [ih true [] (fun _ => rfl)]
    | false =>
      simp only [Bool.false_eq_true, if_false, splitWords, hx]
      exact ih false _ (fun hb => by cases hb)

theorem splitWords_leading (lead t : List Char) (h : ∀ c ∈ lead, isWhiteSpace c = true) :
    splitWords [] (lead ++ t) = splitWords [] t := by
  induction lead with
  | nil => rfl
  | cons x xs ih =>
    have hx := h x (List.mem_cons_self _ _)
    simp only [List.cons_append, splitWords, hx, if_true, List.isEmpty_nil, List.nil_append]
    exact ih (fun c hc => h c (List.mem_cons_of_mem _ hc))

theorem splitWords_white (tail : List Char) (h : ∀ c ∈ tail, isWhiteSpace c = true) :
    splitWords [] tail = [] := by
  have := splitWords_leading tail [] h
  simpa [splitWords] using this

theorem splitWords_trailing (t tail cur : List Char) (h : ∀ c ∈ tail, isWhiteSpace c = true) :
    splitWords cur (t ++ tail) = splitWords cur t := by
  induction t generalizing cur with
  | nil =>
    cases tail with
    | nil => rfl
    | cons x xs =>
      have hx := h x (List.mem_cons_self _ _)
      simp only [List.nil_append, splitWords, hx, if_true]
      rw [splitWords_white xs (fun c hc => h c (List.mem_cons_of_mem _ hc))]
      simp
  | cons x xs ih =>
    simp only [List.cons_append, splitWords, List.append_eq, ih]

theorem dropWhile_head {α : Type} (p : α → Bool) (l : List α) (x : α)
    (h : (l.dropWhile p).head? = some x) : p x = false := by
  induction l with
  | nil => simp at h
  | cons y ys ih =>
    rw [List.dropWhile_cons] at h
    cases hy : p y with
    | true => simp only [hy, if_true] at h; exact ih h
    | false =>
      simp only [hy, Bool.false_eq_true, if_false, List.head?_cons, Option.some.injEq] at h
      rw [← h]; exact hy

/-- What `trim` does: the string is a run of white space, the trimmed string,
a run of white space; the trimmed string neither starts nor ends with white
space. -/
theorem trimChars_spec (s : List Char) :
    ∃ lead tail : List Char, s = lead ++ trimChars s ++ tail ∧
      (∀ c ∈ lead, isWhiteSpace c = true) ∧ (∀ c ∈ tail, isWhiteSpace c = true) ∧
      (∀ c, (trimChars s).head? = some c → isWhiteSpace c = false) ∧
      (∀ c, (trimChars s).getLast? = some c → isWhiteSpace c = false) := by
  have hs : s = s.takeWhile isWhiteSpace ++ s.dropWhile isWhiteSpace :=
    (List.takeWhile_append_dropWhile _ _).symm
  have hu : (s.dropWhile isWhiteSpace).reverse
      = (s.dropWhile isWhiteSpace).reverse.takeWhile isWhiteSpace
        ++ (s.dropWhile isWhiteSpace).reverse.dropWhile isWhiteSpace :=
    (List.takeWhile_append_dropWhile _ _).symm
  have hu2 : s.dropWhile isWhiteSpace
      = trimChars s ++ ((s.dropWhile isWhiteSpace).reverse.takeWhile isWhiteSpace).reverse := by
    have := congrArg List.reverse hu
    rw [List.reverse_reverse, List.reverse_append] at this
    exact this
  refine ⟨s.takeWhile isWhiteSpace,
    ((s.dropWhile isWhiteSpace).reverse.takeWhile isWhiteSpace).reverse, ?_, ?_, ?_, ?_, ?_⟩
  · rw [List.append_assoc, ← hu2]
    exact hs
  · intro c hc
    exact List.mem_takeWhile_imp hc
  · intro c hc
    rw [List.mem_reverse] at hc
    exact List.mem_takeWhile_imp hc
  · intro c hc
    apply dropWhile_head isWhiteSpace s c
    rw [hu2]
    cases ht : trimChars s with
    | nil => rw [ht] at hc; simp at hc
    | cons x xs => rw [ht] at hc; simpa using hc
  · intro c hc
    unfold trimChars at hc
    rw [List.getLast?_reverse] at hc
    exact dropWhile_head isWhiteSpace _ c hc

theorem trimAndCollapse_sample : trimAndCollapse "  a \t\n b   c  " = "a b c" := by
  decide

theorem setProp_mem (k : String) (v : Json) (kvs : List (String × Json)) (kv : String × Json)
    (h : kv ∈ setProp k v kvs) : kv = (k, v) ∨ kv ∈ kvs := by
  induction kvs with
  | nil => simpa [setProp] using h
  | cons x xs ih =>
    unfold setProp at h
    split at h
    · rcases List.mem_cons.mp h with h1 | h1
      · exact Or.inl h1
      · exact Or.inr (List.mem_cons_of_mem _ h1)
    · rcases List.mem_cons.mp h with h1 | h1
      · exact Or.inr (h1 ▸ List.mem_cons_self _ _)
      · rcases ih h1 with h2 | h2
        · exact Or.inl h2
        · exact Or.inr (List.mem_cons_of_mem _ h2)

theorem execDynamicInput_foldl_mem (inputs : List Input) (acc : List (String × Json))
    (kv : String × Json) (h : kv ∈ inputs.foldl execDynamicInput acc) :
    kv ∈ acc ∨ (∃ b, kv.2 = .bool b) ∨
      ∃ input ∈ inputs, input.type = some "text" ∧
        kv = (propertyKey input.id, .arr [.str (trimAndCollapse input.value)]) := by
  induction inputs generalizing acc with
  | nil => exact Or.inl h
  | cons x xs ih =>
    rw [List.foldl_cons] at h
    rcases ih _ h with h1 | h1 | ⟨input, hin, ht, he⟩
    · unfold execDynamicInput at h1
      dsimp only at h1
      split at h1
      · rcases setProp_mem _ _ _ _ h1 with h2 | h2
        · exact Or.inr (Or.inl ⟨x.checked, by rw [h2]⟩)
        · exact Or.inl h2
      · split at h1
        · rename_i ht
          rcases setProp_mem _ _ _ _ h1 with h2 | h2
          · exact Or.inr (Or.inr ⟨x, List.mem_cons_self _ _, ht, h2⟩)
          · exact Or.inl h2
        · exact Or.inl h1
    · exact Or.inr (Or.inl h1)
    · exact Or.inr (Or.inr ⟨input, List.mem_cons_of_mem _ hin, ht, he⟩)

theorem matchCommandRegex_word (w cur rest : List Char)
    (h : ∀ c ∈ w, isWhiteSpace c = false ∧ c ≠ '"') :
    matchCommandRegex false cur (w ++ rest) = matchCommandRegex false (cur ++ w) rest := by
  induction w generalizing cur with
  | nil => simp
  | cons x xs ih =>
    obtain ⟨h1, h2⟩ := h x (List.mem_cons_self _ _)
    simp only [List.cons_append, matchCommandRegex, Bool.false_eq_true, if_false, h2, h1,
      List.append_eq]
    rw [ih _ (fun c hc => h c (List.mem_cons_of_mem _ hc))]
    simp

theorem matchCommandRegex_quoted (q cur rest : List Char) (h : ∀ c ∈ q, c ≠ '"') :
    matchCommandRegex true cur (q ++ '"' :: rest)
      = matchCommandRegex false (cur ++ q ++ ['"']) rest := by
  induction q generalizing cur with
  | nil => simp [matchCommandRegex]
  | cons x xs ih =>
    have h2 := h x (List.mem_cons_self _ _)
    simp only [List.cons_append, matchCommandRegex, if_true, List.append_eq]
    have : (x != '"') = true := by simpa using h2
    rw [this, ih _ (fun c hc => h c (List.mem_cons_of_mem _ hc))]
    simp

theorem matchCommandRegex_gap (gap cur rest : List Char)
    (h : ∀ c ∈ gap, isWhiteSpace c = true) (hne : gap ≠ [] ∨ rest = []) :
    matchCommandRegex false cur (gap ++ rest)
      = (if cur.isEmpty then [] else [String.mk cur]) ++ matchCommandRegex false [] rest := by
  induction gap generalizing cur with
  | nil =>
    rcases hne with h1 | h1
    · exact absurd rfl h1
    · subst h1; simp [matchCommandRegex]
  | cons x xs ih =>
    have hx := h x (List.mem_cons_self _ _)
    have hq : x ≠ '"' := by
      intro he
      rw [he] at hx
      revert hx
      decide
    simp only [List.cons_append, matchCommandRegex, Bool.false_eq_true, if_false, hq, hx,
      if_true, List.append_eq]
    congr 1
    cases xs with
    | nil =>
      cases rest with
      | nil => rfl
      | cons r rs => rfl
    | cons y ys =>
      rw [ih [] (fun c hc => h c (List.mem_cons_of_mem _ hc)) (Or.inl (List.cons_ne_nil _ _))]
      simp

theorem matchCommandRegex_item (item : Item) (rest : List Char) (h : item.wellFormed = true) :
    matchCommandRegex false [] (item.text ++ rest) = matchCommandRegex false item.text rest ∧
    item.text ≠ [] := by
  cases item with
  | word w =>
    simp only [Item.wellFormed, Bool.and_eq_true, List.all_eq_true, Bool.not_eq_true',
      bne_iff_ne, ne_eq] at h
    refine ⟨?_, ?_⟩
    · have := matchCommandRegex_word w.data [] rest (fun c hc => h.2 c hc)
      simpa [Item.text] using this
    · simp only [Item.text]
      intro he
      rw [he] at h
      simp at h
  | quoted q =>
    simp only [Item.wellFormed, List.all_eq_true, bne_iff_ne, ne_eq] at h
    refine ⟨?_, by simp [Item.text]⟩
    have hc : (q.data ++ '"' :: rest).contains '"' = true := by simp
    simp only [Item.text, List.cons_append, List.append_assoc, List.singleton_append,
      matchCommandRegex, Bool.false_eq_true, if_false, if_true, List.append_eq, hc,
      List.nil_append]
    rw [matchCommandRegex_quoted q.data _ rest h]
    simp

theorem matchCommandRegex_commandText (items : List (Item × String))
    (h : separated items = true) :
    matchCommandRegex false [] (commandText items)
      = items.map fun p => String.mk p.1.text := by
  induction items with
  | nil => rfl
  | cons p rest ih =>
    obtain ⟨item, gap⟩ := p
    simp only [separated, Bool.and_eq_true, List.all_eq_true, Bool.or_eq_true,
      List.isEmpty_iff, Bool.not_eq_true'] at h
    obtain ⟨⟨⟨hw, hg⟩, hne⟩, hrest⟩ := h
    obtain ⟨h1, h2⟩ := matchCommandRegex_item item (gap.data ++ commandText rest) hw
    simp only [commandText, List.append_assoc, List.map_cons]
    rw [h1, matchCommandRegex_gap gap.data item.text (commandText rest) hg, ih hrest]
    · simp [h2]
    · rcases hne with h3 | h3
      · right; rw [h3]; rfl
      · left
        intro he
        rw [he] at h3
        simp at h3

theorem matchCommandRegex_leading (lead rest : List Char)
    (h : ∀ c ∈ lead, isWhiteSpace c = true) :
    matchCommandRegex false [] (lead ++ rest) = matchCommandRegex false [] rest := by
  cases lead with
  | nil => rfl
  | cons x xs =>
    rw [matchCommandRegex_gap (x :: xs) [] rest h (Or.inl (List.cons_ne_nil _ _))]
    simp

theorem stripQuotes_item (item : Item) (h : item.wellFormed = true) :
    stripQuotes (String.mk item.text) = item.argument := by
  cases item with
  | word w =>
    simp only [Item.wellFormed, Bool.and_eq_true, List.all_eq_true, Bool.not_eq_true',
      bne_iff_ne, ne_eq] at h
    obtain ⟨_, h⟩ := h
    simp only [stripQuotes, Item.text, Item.argument]
    have h1 : dropLeadingQuote w.data = w.data := by
      cases hd : w.data with
      | nil => rfl
      | cons x xs =>
        have hx := (h x (by rw [hd]; exact List.mem_cons_self _ _)).2
        unfold dropLeadingQuote
        split
        · rename_i heq
          injection heq with e1 e2
          exact absurd e1 hx
        · rfl
    rw [h1]
    have h2 : w.data.getLast? ≠ some '"' := by
      intro he
      have := List.mem_of_getLast?_eq_some he
      exact (h _ this).2 rfl
    simp [h2]
  | quoted q =>
    simp [stripQuotes, Item.text, Item.argument, dropLeadingQuote]

theorem lookup_setProp_self (k : String) (v : Json) (kvs : List (String × Json)) :
    (setProp k v kvs).lookup k = some v := by
  induction kvs with
  | nil => simp [setProp, List.lookup]
  | cons kv r ih =>
    unfold setProp
    by_cases h : kv.1 = k
    · simp [h, List.lookup]
    · have hb : (k == kv.1) = false := by
        rw [beq_eq_false_iff_ne]
        exact fun e => h e.symm
      simp only [h, if_false, List.lookup, hb]
      exact ih

theorem jsAssignPath_obj (kvs : List (String × Json)) (k : String) (ks : List String)
    (val child : Json) (h : kvs.lookup k = some child) :
    jsAssignPath (.obj kvs) (k :: ks) val
      = .obj (setProp k (jsAssignPath child ks val) kvs) := by
  cases ks with
  | nil => simp [jsAssignPath]
  | cons k2 ks2 => simp [jsAssignPath, h]

theorem jsPath_cons_some (v : Json) (k : String) (ks : List String) (old : Json)
    (h : jsPath (some v) (k :: ks) = .ok (some old)) :
    ∃ kvs child, v = .obj kvs ∧ kvs.lookup k = some child ∧
      jsPath (some child) ks = .ok (some old) := by
  have hnone : ∀ ks : List String, jsPath none ks ≠ .ok (some old) := by
    intro ks
    cases ks with
    | nil => simp [jsPath]
    | cons a as => simp [jsPath, jsGet]
  cases v with
  | obj kvs =>
    simp only [jsPath, jsGet] at h
    cases hl : kvs.lookup k with
    | none => rw [hl] at h; exact absurd h (hnone ks)
    | some child => rw [hl] at h; exact ⟨kvs, child, rfl, hl, h⟩
  | null => simp [jsPath, jsGet] at h
  | bool b => simp only [jsPath, jsGet] at h; exact absurd h (hnone ks)
  | num n => simp only [jsPath, jsGet] at h; exact absurd h (hnone ks)
  | str t => simp only [jsPath, jsGet] at h; exact absurd h (hnone ks)
  | arr xs => simp only [jsPath, jsGet] at h; exact absurd h (hnone ks)

theorem jsPath_jsAssignPath (path : List String) (v old val : Json)
    (h : jsPath (some v) path = .ok (some old)) :
    jsPath (some (jsAssignPath v path val)) path = .ok (some val) := by
  induction path generalizing v with
  | nil => cases v <;> rfl
  | cons k ks ih =>
    obtain ⟨kvs, child, rfl, hl, hc⟩ := jsPath_cons_some v k ks old h
    rw [jsAssignPath_obj kvs k ks val child hl]
    simp only [jsPath, jsGet, lookup_setProp_self]
    exact ih child hc

theorem String_match_commandText (lead : String) (items : List (Item × String))
    (hitems : items ≠ []) (hlead : lead.data.all isWhiteSpace = true)
    (hsep : separated items = true) :
    String_match ⟨lead.data ++ commandText items⟩
      = some (items.map fun p => String.mk p.1.text) := by
  unfold String_match
  simp only
  rw [matchCommandRegex_leading _ _ (by simpa using hlead), matchCommandRegex_commandText _ hsep]
  cases items with
  | nil => exact absurd rfl hitems
  | cons p rest => rfl

theorem separated_wellFormed (items : List (Item × String)) (h : separated items = true) :
    ∀ p ∈ items, p.1.wellFormed = true := by
  induction items with
  | nil => intro p hp; cases hp
  | cons q rest ih =>
    obtain ⟨item, gap⟩ := q
    simp only [separated, Bool.and_eq_true] at h
    intro p hp
    rcases List.mem_cons.mp hp with h1 | h1
    · rw [h1]; exact h.1.1.1
    · exact ih h.2 p h1

theorem escapeHtmlChar_plain (c : Char) (h : isHtmlSpecial c = false) :
    escapeHtmlChar c = [c] := by
  simp only [isHtmlSpecial, Bool.or_eq_false_iff, beq_eq_false_iff_ne, ne_eq] at h
  simp [escapeHtmlChar, h.1.1, h.1.2, h.2]

theorem escapeHtmlChar_length (c : Char) :
    1 ≤ (escapeHtmlChar c).length ∧
    (isHtmlSpecial c = true → 2 ≤ (escapeHtmlChar c).length) := by
  unfold escapeHtmlChar
  split
  · exact ⟨by decide, fun _ => by decide⟩
  · split
    · exact ⟨by decide, fun _ => by decide⟩
    · split
      · exact ⟨by decide, fun _ => by decide⟩
      · rename_i h1 h2 h3
        refine ⟨by simp, fun h => ?_⟩
        simp [isHtmlSpecial, h1, h2, h3] at h

theorem escapeHtmlChars_length (l : List Char) :
    l.length ≤ (escapeHtmlChars l).length ∧
    ((∃ c ∈ l, isHtmlSpecial c = true) → l.length < (escapeHtmlChars l).length) := by
  induction l with
  | nil => exact ⟨Nat.le_refl _, fun ⟨c, hc, _⟩ => by cases hc⟩
  | cons x xs ih =>
    obtain ⟨i1, i2⟩ := ih
    obtain ⟨c1, c2⟩ := escapeHtmlChar_length x
    simp only [escapeHtmlChars, List.length_append, List.length_cons]
    refine ⟨by omega, ?_⟩
    rintro ⟨c, hc, hs⟩
    rcases List.mem_cons.mp hc with h | h
    · rw [h] at hs
      have := c2 hs
      omega
    · have := i2 ⟨c, h, hs⟩
      omega

theorem escapeHtmlChars_plain (l : List Char) (h : ∀ c ∈ l, isHtmlSpecial c = false) :
    escapeHtmlChars l = l := by
  induction l with
  | nil => rfl
  | cons x xs ih =>
    simp only [escapeHtmlChars, escapeHtmlChar_plain x (h x (List.mem_cons_self _ _))]
    rw [ih (fun c hc => h c (List.mem_cons_of_mem _ hc))]
    rfl

theorem escapeHtml_eq_self_iff (s : String) :
    escapeHtml s = s ↔ ∀ c ∈ s.data, isHtmlSpecial c = false := by
  constructor
  · intro h c hc
    cases hs : isHtmlSpecial c with
    | false => rfl
    | true =>
      have hlt := (escapeHtmlChars_length s.data).2 ⟨c, hc, hs⟩
      have hd : (escapeHtml s).data = s.data := by rw [h]
      simp only [escapeHtml] at hd
      rw [hd] at hlt
      exact absurd hlt (Nat.lt_irrefl _)
  · intro h
    simp only [escapeHtml, escapeHtmlChars_plain s.data h]

theorem append_cancel_both (a m e b : String) (h : a ++ m ++ b = a ++ e ++ b) : m = e := by
  have hd := congrArg String.data h
  simp only [String.data_append, List.append_assoc] at hd
  have h1 := List.append_cancel_left hd
  have h2 := List.append_cancel_right h1
  exact String.ext h2

theorem mapM_ok_of_forall₂ {α β : Type} (f : α → Except JSError β) (xs : List α) (ys : List β)
    (h : List.Forall₂ (fun x y => f x = .ok y) xs ys) : xs.mapM f = .ok ys := by
  induction h with
  | nil => rfl
  | cons hxy _ ih =>
    rw [List.mapM_cons, hxy, ih]
    rfl

theorem mapM_error_of_mem {α β : Type} (f : α → Except JSError β) (xs : List α)
    (h : ∃ x ∈ xs, ∃ e, f x = .error e) : ∃ e, xs.mapM f = .error e := by
  induction xs with
  | nil => obtain ⟨x, hx, _⟩ := h; cases hx
  | cons a l ih =>
    rw [List.mapM_cons]
    cases ha : f a with
    | error e => exact ⟨e, rfl⟩
    | ok b =>
      obtain ⟨x, hx, e, he⟩ := h
      rcases List.mem_cons.mp hx with h1 | h1
      · rw [h1, ha] at he; cases he
      · obtain ⟨e2, h2⟩ := ih ⟨x, h1, e, he⟩
        rw [h2]
        exact ⟨e2, rfl⟩

theorem requestText_string (s : String) (rest : List (String × Json)) :
    requestText (some (.obj (("instruction", .str s) :: rest)))
      = .ok ("making request: " ++ s ++ " " ++ "") := by
  simp [requestText, getInstructionName, jsGet, List.lookup, jsIsString, bind, Except.bind,
    pure, Except.pure, jsToString, Json.toStr]

theorem requestText_tagged (tag : String) (payload : Json) :
    requestText (some (taggedCommand tag payload))
      = (if tag = "Deploy" ∨ tag = "Destroy" then
          match extractNameForAllResources (some payload) with
          | .ok context => .ok ("making request: " ++ tag ++ " " ++ jsToString context)
          | .error e => .error e
        else .ok ("making request: " ++ tag ++ " " ++ "")) := by
  have htag : (Json.arr [Json.str tag]).toStr = tag := by
    simp [Json.toStr, Json.toStrList]
  by_cases h1 : tag = "Deploy"
  · subst h1
    simp only [requestText, taggedCommand, getInstructionName, jsGet, List.lookup, jsIsString,
      bind, Except.bind, pure, Except.pure, Object_keys, List.map, htag, beq_self_eq_true,
      extractContextFromCommandJson, jsIn, Option.isSome, true_or, if_true, Bool.not_false]
    cases extractNameForAllResources (some payload) <;> rfl
  · by_cases h2 : tag = "Destroy"
    · subst h2
      simp only [requestText, taggedCommand, getInstructionName, jsGet, List.lookup, jsIsString,
        bind, Except.bind, pure, Except.pure, Object_keys, List.map, htag, beq_self_eq_true,
        extractContextFromCommandJson, jsIn, Option.isSome, or_true, if_true, Bool.not_false]
      cases extractNameForAllResources (some payload) <;> rfl
    · have e1 : ("Deploy" == tag) = false := by
        rw [beq_eq_false_iff_ne]; exact fun e => h1 e.symm
      have e2 : ("Destroy" == tag) = false := by
        rw [beq_eq_false_iff_ne]; exact fun e => h2 e.symm
      simp [requestText, taggedCommand, getInstructionName, jsGet, List.lookup, jsIsString,
        bind, Except.bind, pure, Except.pure, Object_keys, htag,
        extractContextFromCommandJson, jsIn, e1, e2, h1, h2, jsToString, Json.toStr,
        Json.toStrList]

theorem extractNameForAllResources_arr (resources : List Json) (names : List (Option Json))
    (h : resourceNames resources names) :
    extractNameForAllResources (some (.arr resources))
      = .ok (some (.str ("[ " ++ Array_join names ", " ++ " ]"))) := by
  simp only [extractNameForAllResources]
  rw [mapM_ok_of_forall₂ _ resources names h]

theorem extractNameForAllResources_arr_error (resources : List Json)
    (h : ∃ r ∈ resources, ∃ e, extractNameForOneResource (some r) = .error e) :
    ∃ e, extractNameForAllResources (some (.arr resources)) = .error e := by
  obtain ⟨e, he⟩ := mapM_error_of_mem
    (fun instruction => extractNameForOneResource (some instruction)) resources h
  exact ⟨e, by simp only [extractNameForAllResources, he]⟩

theorem extractNameForOneResource_guest (n : Json) (more rest : List (String × Json)) :
    extractNameForOneResource (some (.obj (("Guest", .obj (("name", n) :: more)) :: rest)))
      = .ok (some n) := by
  simp [extractNameForOneResource, jsIn, jsPath, jsGet, List.lookup, bind, Except.bind]

theorem extractNameForOneResource_unknown (kvs : List (String × Json))
    (hg : kvs.lookup "Guest" = none) (hn : kvs.lookup "Network" = none) :
    extractNameForOneResource (some (.obj kvs)) = .ok none := by
  simp [extractNameForOneResource, jsIn, hg, hn, bind, Except.bind, pure, Except.pure]

theorem extractNameForOneResource_ovn_unknown (kvs ovn net : List (String × Json))
    (hg : kvs.lookup "Guest" = none) (hn : kvs.lookup "Network" = some (.obj net))
    (ho : net.lookup "Ovn" = some (.obj ovn))
    (hk : ∀ kind ∈ ["Switch", "SwitchPort", "Router", "RouterPort", "Route", "Nat",
      "DhcpOption", "ExternalGateway"], ovn.lookup kind = none) :
    extractNameForOneResource (some (.obj kvs)) = .ok (some (.str "Ovn ")) := by
  simp only [List.mem_cons, List.mem_singleton, List.not_mem_nil, or_false, forall_eq_or_imp,
    forall_eq] at hk
  obtain ⟨k1, k2, k3, k4, k5, k6, k7, k8⟩ := hk
  simp [extractNameForOneResource, jsIn, jsPath, jsGet, hg, hn, ho, k1, k2, k3, k4, k5, k6, k7,
    k8, bind, Except.bind, pure, Except.pure]

theorem extractNameForOneResource_no_ovn (kvs net : List (String × Json))
    (hg : kvs.lookup "Guest" = none) (hn : kvs.lookup "Network" = some (.obj net))
    (ho : net.lookup "Ovn" = none) :
    extractNameForOneResource (some (.obj kvs)) = .error .TypeError := by
  simp [extractNameForOneResource, jsIn, jsPath, jsGet, hg, hn, ho, bind, Except.bind, pure,
    Except.pure]

theorem formatServerSendMessages_text (env : Env) (p : Page) (c : Option Json) (text : String)
    (h : requestText c = .ok text) :
    ∃ q : Page, formatServerSendMessages env p c = .ok q ∧
      q.terminal = p.terminal
        ++ (env.toISOString p.dates ++ "<span style=\"color: #21730d\">  INFO: </span>" ++ text)
        ++ "<br>" := by
  refine ⟨_, by simp only [formatServerSendMessages, h]; rfl, ?_⟩
  simp [log_text_with_colour, append_terminal_text]

theorem formatList_console (env : Env) (p : Page) (i : Json) (s f : List (Option Json)) :
    (formatList env p i s f).console = p.console := by
  unfold formatList
  simp only [log_text_with_colour, append_terminal_text]
  split <;> split <;> rfl

theorem formatServerResponseMessages_try_console (env : Env) (p q : Page) (text : String)
    (i : Json) (h : formatServerResponseMessages_try env p text i = .ok q) :
    q.console = p.console ∨ ∃ s, q.console = p.console ++ [.error s] := by
  unfold formatServerResponseMessages_try at h
  cases hp : env.JSON_parse text with
  | none => rw [hp] at h; cases h
  | some j =>
    rw [hp] at h
    simp only [bind, Except.bind, pure, Except.pure] at h
    repeat' split at h
    all_goals first
      | (cases h; done)
      | (cases h
         first
          | (left; rfl)
          | (left; exact formatList_console _ _ _ _ _)
          | (right; exact ⟨_, rfl⟩))

theorem completions_append_error (p q : Page) (s : String)
    (h : q.console = p.console ++ [.error s]) : q.completions = p.completions := by
  simp [Page.completions, h, List.count_append, List.count_singleton]

theorem completions_append_not_json (p q : Page) (text : String)
    (h : q.console = p.console ++ [.log ("@ message was not a JSON = " ++ text)]) :
    q.completions = p.completions := by
  have hne : ("we have reached the end of commands, closing" : String)
      ≠ "@ message was not a JSON = " ++ text := by
    intro he
    have := congrArg (fun s : String => s.data.head?) he
    simp only [String.data_append] at this
    have h2 : ("@ message was not a JSON = ".data ++ text.data).head? = some '@' := rfl
    rw [h2] at this
    revert this
    decide
  have hc : (ConsoleLine.log ("@ message was not a JSON = " ++ text)
      == ConsoleLine.log "we have reached the end of commands, closing") = false := by
    rw [beq_eq_false_iff_ne]
    intro he
    injection he with he
    exact hne he.symm
  simp [Page.completions, h, List.count_append, List.count_singleton, hc]

theorem formatServerResponseMessages_completions (env : Env) (p q : Page) (text : String)
    (c : Option Json) (h : formatServerResponseMessages env p text c = .ok q) :
    q.completions = p.completions := by
  unfold formatServerResponseMessages at h
  cases hg : getInstructionName c with
  | error e => rw [hg] at h; cases h
  | ok i =>
    rw [hg] at h
    dsimp only at h
    cases ht : formatServerResponseMessages_try env p text i with
    | ok q2 =>
      rw [ht] at h
      cases h
      rcases formatServerResponseMessages_try_console env p q text i ht with h1 | ⟨s, h1⟩
      · simp [Page.completions, h1]
      · exact completions_append_error p q s h1
    | error e =>
      rw [ht] at h
      cases h
      exact completions_append_not_json p _ text rfl

theorem handle_message_log_completions (env : Env) (r : Runner) (message : String) :
    (handle_message_log env r message).state.page.completions = r.page.completions := by
  unfold handle_message_log
  cases env.JSON_parse message with
  | none => rfl
  | some j =>
    dsimp only
    split
    · split
      · rfl
      · split <;> rfl
    · rfl
    · rfl

theorem handle_message_count_after (env : Env) (r : Runner) (h : 2 ≤ r.messages_received) :
    handle_message_count env r
      = .returned { r with messages_received := r.messages_received + 1 } := by
  unfold handle_message_count
  have : ¬ (r.messages_received + 1 = 2) := by omega
  simp only [this, if_false]

theorem handle_message_completions (env : Env) (r : Runner) (m : MessageData)
    (h : 2 ≤ r.messages_received) :
    (handle_message env r m).state.page.completions = r.page.completions := by
  cases m with
  | blob b => rfl
  | text t =>
    unfold handle_message
    dsimp only
    split
    · rfl
    · split
      · rfl
      · rename_i page hpage
        have hc : page.completions = r.page.completions := by
          split at hpage
          · cases hpage; rfl
          · exact formatServerResponseMessages_completions env _ _ _ _ hpage
        split
        · rw [handle_message_log_completions]
          exact hc
        · rw [handle_message_count_after env { r with page := page } h]
          exact hc

theorem Core.counting_beyond_two (gc : List Json) (c : Core) (m : MessageData)
    (h : 2 ≤ c.messages_received) :
    (Core.handle_message gc c m).current_command = c.current_command ∧
    c.messages_received ≤ (Core.handle_message gc c m).messages_received ∧
    (Core.handle_message gc c m).messages_received ≤ c.messages_received + 1 ∧
    (Core.handle_message gc c m).ws.sent = c.ws.sent := by
  cases m with
  | blob b => exact ⟨rfl, Nat.le_refl _, Nat.le_succ _, WebSocket.close_sent _⟩
  | text t =>
    simp only [Core.handle_message]
    split
    · exact ⟨rfl, Nat.le_refl _, Nat.le_succ _, WebSocket.close_sent _⟩
    · split
      · exact ⟨rfl, Nat.le_refl _, Nat.le_succ _, rfl⟩
      · split
        · exact ⟨rfl, Nat.le_refl _, Nat.le_succ _, rfl⟩
        · have : ¬ (c.messages_received + 1 = 2) := by omega
          simp only [Core.handle_message_count, this, if_false]
          exact ⟨trivial, Nat.le_succ _, Nat.le_refl _, trivial⟩

theorem handle_message_after (env : Env) (r : Runner) (m : MessageData)
    (h : 2 ≤ r.messages_received) :
    (handle_message env r m).state.generated_commands = r.generated_commands ∧
    (handle_message env r m).state.current_command = r.current_command ∧
    r.messages_received ≤ (handle_message env r m).state.messages_received ∧
    (handle_message env r m).state.messages_received ≤ r.messages_received + 1 ∧
    (handle_message env r m).state.command_runner_websocket.sent
      = r.command_runner_websocket.sent ∧
    (handle_message env r m).state.page.completions = r.page.completions := by
  obtain ⟨hg, hc⟩ := handle_message_core env r m
  obtain ⟨h1, h2, h3, h4⟩ := Core.counting_beyond_two r.generated_commands r.core m h
  rw [← hc] at h1 h2 h3 h4
  exact ⟨hg, h1, h2, h3, h4, handle_message_completions env r m h⟩

theorem Core.good_inBounds (gc : List Json) (c : Core) (k : Nat) (hne : gc ≠ [])
    (hs : ∀ x ∈ gc, sendable (some x) = true) (h : Core.Good gc c k) :
    Core.InBounds gc c ∧ c.ws.readyState ≠ .CONNECTING := by
  rcases h with ⟨h1, h2, h3, h4, _, h6, _⟩ | ⟨h1, _⟩ | ⟨⟨h1, h2, h3, _⟩, _⟩
  · exact ⟨⟨h3, h4, Or.inl h2, h6⟩, by rw [h1]; decide⟩
  · exact absurd h1 hne
  · have hpos : 1 ≤ gc.length := by
      cases gc with
      | nil => exact absurd rfl hne
      | cons a l => simp
    refine ⟨⟨by omega, by omega, Or.inr ⟨h2, h3⟩, ?_⟩, by rw [h1]; decide⟩
    rw [h3]
    obtain ⟨n, hn⟩ : ∃ n, gc.length = n + 1 := ⟨gc.length - 1, by omega⟩
    rw [hn, jsIndex_pred_succ]
    have hlt : n < gc.length := by omega
    rw [List.getElem?_eq_getElem hlt]
    exact nameable_of_sendable _ (hs _ (List.getElem_mem _))

theorem Core.stop_step (gc : List Json) (c : Core) (m : MessageData)
    (hm : m.isText = false ∨ m.isCancelResponse = true)
    (hc : c.ws.readyState ≠ .CONNECTING) :
    ((Core.dispatch gc c (.message m)).ws.readyState = .CLOSING ∨
      (Core.dispatch gc c (.message m)).ws.readyState = .CLOSED) ∧
    (Core.dispatch gc c (.message m)).current_command = c.current_command ∧
    (Core.dispatch gc c (.message m)).messages_received = c.messages_received := by
  obtain ⟨mr, cc, ⟨rs, sent⟩⟩ := c
  simp only at hc
  cases rs with
  | CONNECTING => exact absurd rfl hc
  | CLOSING => simp [Core.dispatch]
  | CLOSED => simp [Core.dispatch]
  | OPEN =>
    cases m with
    | blob b => simp [Core.dispatch, Core.handle_message, WebSocket.close]
    | text t =>
      rcases hm with hm | hm
      · cases hm
      · simp only [MessageData.isCancelResponse] at hm
        simp [Core.dispatch, Core.handle_message, hm, WebSocket.close]

theorem Core.session_inBounds (gc : List Json) (messages : List MessageData) (hne : gc ≠ [])
    (hs : ∀ x ∈ gc, sendable (some x) = true) :
    Core.InBounds gc (Core.session gc messages) := by
  have hno : ¬ ∃ x ∈ gc, sendable (some x) = false := by
    rintro ⟨x, hx, hf⟩
    rw [hs x hx] at hf
    cases hf
  suffices h : (∃ k, Core.Good gc (Core.session gc messages) k) ∨
      (((Core.session gc messages).ws.readyState = .CLOSING ∨
        (Core.session gc messages).ws.readyState = .CLOSED) ∧
        Core.InBounds gc (Core.session gc messages)) by
    rcases h with ⟨k, h⟩ | ⟨_, h⟩
    · exact (Core.good_inBounds gc _ k hne hs h).1
    · exact h
  induction messages using List.reverseRecOn with
  | nil =>
    rcases Core.opened_class gc with h | ⟨_, h⟩
    · exact Or.inl ⟨0, h⟩
    · exact absurd h hno
  | append_singleton pre m ih =>
    rw [Core.session_snoc]
    rcases ih with ⟨k, h⟩ | ⟨hcl, hb⟩
    · rcases Core.good_step gc _ k m h with h2 | ⟨_, hst⟩
      · exact Or.inl ⟨_, h2⟩
      · obtain ⟨hb, hnc⟩ := Core.good_inBounds gc _ k hne hs h
        rcases hst with hst | hst | hst
        · obtain ⟨s1, s2, s3⟩ := Core.stop_step gc _ m (Or.inl hst) hnc
          right
          refine ⟨s1, ?_⟩
          unfold Core.InBounds
          rw [s2, s3]
          exact hb
        · obtain ⟨s1, s2, s3⟩ := Core.stop_step gc _ m (Or.inr hst) hnc
          right
          refine ⟨s1, ?_⟩
          unfold Core.InBounds
          rw [s2, s3]
          exact hb
        · exact absurd hst hno
    · obtain ⟨s1, _, s3, s4⟩ := Core.dispatch_closed gc _ (.message m) hcl
      right
      refine ⟨s1, ?_⟩
      unfold Core.InBounds
      rw [s3, s4]
      exact hb

theorem Core.empty_step (c : Core) (m : MessageData)
    (h : c.current_command = 0 ∧ c.ws.sent = []) :
    (Core.dispatch [] c (.message m)).current_command = 0 ∧
    (Core.dispatch [] c (.message m)).ws.sent = [] ∧
    (m ≠ ackMessage →
      (Core.dispatch [] c (.message m)).messages_received = c.messages_received) := by
  obtain ⟨mr, cc, ⟨rs, sent⟩⟩ := c
  obtain ⟨h1, h2⟩ := h
  simp only at h1 h2
  subst h1 h2
  have hidx : nameable (jsIndex [] (((0 : Nat) : Int) - 1)) = false := by
    rw [jsIndex_pred_zero]; rfl
  simp only [Core.dispatch]
  split
  · cases m with
    | blob b => simp [Core.handle_message, WebSocket.close_sent]
    | text t =>
      simp only [Core.handle_message, hidx, and_true]
      split
      · simp [WebSocket.close_sent]
      · split
        · simp
        · rename_i hack
          have hm : (MessageData.text t ≠ ackMessage) = False := by
            simp only [ackMessage, ne_eq, MessageData.text.injEq, eq_iff_iff, iff_false,
              not_not]
            simpa using hack
          simp only [hm, false_imp_iff, and_true]
          split
          · exact ⟨rfl, rfl⟩
          · simp only [Core.handle_message_count, List.length_nil]
            split
            · simp [WebSocket.close_sent]
            · simp
  · simp

theorem Core.session_empty (messages : List MessageData) :
    (Core.session [] messages).current_command = 0 ∧
    (Core.session [] messages).ws.sent = [] ∧
    ((∀ m ∈ messages, m ≠ ackMessage) → (Core.session [] messages).messages_received = 0) := by
  induction messages using List.reverseRecOn with
  | nil => exact ⟨by decide, by decide, fun _ => by decide⟩
  | append_singleton pre m ih =>
    obtain ⟨i1, i2, i3⟩ := ih
    obtain ⟨s1, s2, s3⟩ := Core.empty_step (Core.session [] pre) m ⟨i1, i2⟩
    rw [Core.session_snoc]
    refine ⟨s1, s2, ?_⟩
    intro hall
    rw [s3 (hall m (by simp))]
    exact i3 (fun x hx => hall x (List.mem_append_left _ hx))

theorem trimAndCollapse_white (v : String) (h : v.data.all isWhiteSpace = true) :
    trimAndCollapse v = "" := by
  have h1 : v.data.dropWhile isWhiteSpace = [] := by
    rw [List.dropWhile_eq_nil_iff]
    simpa using h
  simp only [trimAndCollapse, trimChars, h1]
  rfl

theorem convertCommandToListOfStrings_no_token (sub_command : Json) (command_name s : String)
    (hcmd : jsPath (some sub_command)
        ["Exec", "command_type", "tool", "tool", command_name, "command"]
      = .ok (some (.arr [.str s])))
    (hs : String_match s = none) :
    convertCommandToListOfStrings sub_command command_name = .error .TypeError := by
  unfold convertCommandToListOfStrings
  simp only [hcmd, bind, Except.bind, jsFirst, List.head?_cons, hs]

theorem execButtonSubCommand_blank (dom : Dom) (tool v : String) (checked : Bool)
    (ht : tool ∈ commandTools)
    (hd : dom.execDynamicButtons
      = [{ type := some "text", id := some "command", value := v, checked := checked }])
    (hv : v.data.all isWhiteSpace = true) :
    execButtonSubCommand dom "tool" tool = .error .TypeError := by
  have hm : String_match "" = none := rfl
  simp only [commandTools, List.mem_cons, List.mem_singleton, List.not_mem_nil, or_false] at ht
  unfold execButtonSubCommand
  simp only [hd, List.foldl_cons, List.foldl_nil, execDynamicInput, trimAndCollapse_white v hv,
    propertyKey, Option.getD, setProp, toolingGetGuestName]
  cases dom.guestName <;> rcases ht with rfl | rfl | rfl | rfl <;>
    simp [bind, Except.bind, pure, Except.pure, Object_keys, execSubCommand, convertIfPresent,
      jsIn, jsPath, jsGet, List.lookup, convertCommandToListOfStrings, jsFirst, hm]

/-! ## The claims -/

/-! ### C1: the frames of a session that reaches its end -/

/-- C1, amended.  In every session that reaches the end of its commands
(it prints "End of command running." and closes the socket), exactly the `N`
frames of the `N` generated commands have been sent, in order; and at every
moment of the session the number of frames sent is `1 + k / 2` capped at `N`,
where `k` is the number of messages received so far that are not log
messages: the first frame goes out when the socket opens, before any message,
and each later frame goes out exactly when two more messages that are not log
messages have been handled. -/
theorem frames_of_finished_session (env : Env) (gc : List Json) (url : String) (page : Page)
    (messages : List MessageData)
    (hdone : (session env gc url page messages).done = true) :
    (session env gc url page messages).command_runner_websocket.sent
        = gc.map instructionFrame ∧
    ∀ pre post : List MessageData, messages = pre ++ post →
      (session env gc url page pre).command_runner_websocket.sent.length
        = min gc.length (1 + nonLogCount pre / 2) := by
  have hfin := session_done env gc url page messages hdone
  constructor
  · have hcore := (session_core env gc url page messages).2
    have hs : (session env gc url page messages).command_runner_websocket.sent
        = (Core.session gc messages).ws.sent := by
      rw [Core.session, ← hcore]
      rfl
    rw [hs]
    have hgood := Core.finished_prefix_good gc messages [] (by simpa using hfin)
    exact (Core.good_closing gc _ _ hgood hfin.1).1
  · intro pre post hsplit
    subst hsplit
    have hcore := (session_core env gc url page pre).2
    have hs : (session env gc url page pre).command_runner_websocket.sent
        = (Core.session gc pre).ws.sent := by
      rw [Core.session, ← hcore]
      rfl
    rw [hs]
    exact Core.good_length gc _ _ (Core.finished_prefix_good gc pre post hfin)

/-- Witness of `frames_of_finished_session`: one command, its two replies. -/
theorem frames_of_finished_session_witness :
    (session sampleEnv [initCommand] "ws://testbed" samplePage
      [ackMessage, resultMessage]).done = true ∧
    (session sampleEnv [initCommand] "ws://testbed" samplePage
      [ackMessage, resultMessage]).command_runner_websocket.sent
        = [initCommand].map instructionFrame :=
  ⟨by decide,
    (frames_of_finished_session sampleEnv [initCommand] "ws://testbed" samplePage
      [ackMessage, resultMessage] (by decide)).1⟩

/-- C1, as stated, fails: in the session of one command that receives its two
replies and reaches the end of the commands, the frame of the command has been
sent before any message arrived, so it is not preceded by two messages. -/
theorem first_frame_precedes_all_messages :
    (session sampleEnv [initCommand] "ws://testbed" samplePage
      [ackMessage, resultMessage]).done = true ∧
    ¬ (∀ pre post : List MessageData, [ackMessage, resultMessage] = pre ++ post →
        1 ≤ (session sampleEnv [initCommand] "ws://testbed" samplePage
          pre).command_runner_websocket.sent.length →
        2 ≤ nonLogCount pre) := by
  refine ⟨by decide, ?_⟩
  intro h
  have := h [] [ackMessage, resultMessage] rfl (by decide)
  simp [nonLogCount] at this

/-! ### C2: frames go out in generation order, one at a time -/

/-- C2.  In every run of a session started by `run_orchestration`, whatever
the events (the socket opening, messages, clicks on the cancel button, the
socket closing): the frames sent by the `open` and `message` handlers are, in
order, the frames of the first `current_command` generated commands, each the
UTF-8 bytes of `JSON.stringify` of its command; and when two events both send
such a frame, at least two messages that are not log messages have arrived
after the first one, the second event being the last of them: no frame is sent
between a frame and the second reply that follows it. -/
theorem frames_in_generation_order (env : Env) (gc : List Json) (url : String) (page : Page)
    (events : List Event) :
    instructionFrames env (run_orchestration gc url page) events
      = (gc.take (runEvents env (run_orchestration gc url page) events).current_command).map
          (fun command => Frame.binary (TextEncoder_encode (JSON.stringify command))) ∧
    ∀ (A M B : List Event) (ea eb : Event), events = A ++ ea :: (M ++ eb :: B) →
      ea.isCancelClick = false → eb.isCancelClick = false →
      framesSentBy env (runEvents env (run_orchestration gc url page) A) ea ≠ [] →
      framesSentBy env (runEvents env (run_orchestration gc url page) (A ++ ea :: M)) eb ≠ [] →
      2 ≤ nonLogMessages (M ++ [eb]) := by
  have hcore : ∀ es, (runEvents env (run_orchestration gc url page) es).generated_commands = gc ∧
      (runEvents env (run_orchestration gc url page) es).core = Core.runEvents gc Core.init es := by
    intro es
    have := runEvents_core env es (run_orchestration gc url page)
    simpa [run_orchestration_core] using this
  refine ⟨?_, ?_⟩
  · rw [instructionFrames_core, (run_orchestration_core gc url page).1,
      (run_orchestration_core gc url page).2]
    have := (Core.instructionFrames_eq gc events Core.init).2
    rw [this, ← (hcore events).2]
    simp [Core.init, Runner.core]
    rfl
  · intro A M B ea eb _ hea heb ha hb
    rw [framesSentBy_core, (hcore A).1, (hcore A).2] at ha
    rw [framesSentBy_core, (hcore _).1, (hcore _).2] at hb
    exact Core.two_replies_between gc A M ea eb hea heb ha hb

/-- Witness of `frames_in_generation_order`: the `open` handler and the
handler of the second reply both send a frame; two replies lie between. -/
theorem frames_in_generation_order_witness :
    framesSentBy sampleEnv
      (runEvents sampleEnv
        (run_orchestration [initCommand, destroyCommand] "ws://testbed" samplePage) [])
      .opened ≠ [] ∧
    framesSentBy sampleEnv
      (runEvents sampleEnv
        (run_orchestration [initCommand, destroyCommand] "ws://testbed" samplePage)
        ([] ++ .opened :: [.message ackMessage]))
      (.message resultMessage) ≠ [] ∧
    2 ≤ nonLogMessages ([.message ackMessage] ++ [.message resultMessage]) :=
  ⟨by decide, by decide,
    (frames_in_generation_order sampleEnv [initCommand, destroyCommand] "ws://testbed"
      samplePage
      ([] ++ .opened :: ([.message ackMessage] ++ .message resultMessage :: []))).2
      [] [.message ackMessage] [] .opened (.message resultMessage) rfl rfl rfl
      (by decide) (by decide)⟩

/-! ### C3: log messages -/

/-- C3.  `handle_message` classifies a message as a log message at the test of
line 444, which a text reaches when it does not contain the cancel response (a
text with the cancel response returns in the cancel branch before): such a
text with the log marker is printed and handed to the log branch.  A message
that contains the log marker leaves `current_command` and `messages_received`
as they are and sends no frame, whatever the state of the session.  And the
frames a session sends depend only on the messages that are left when the log
messages are taken out: putting any number of log messages anywhere into the
messages of a session does not change the frames sent. -/
theorem log_messages_do_not_count (env : Env) :
    (∀ (r : Runner) (m : MessageData), m.isLog = true →
      (handle_message env r m).state.current_command = r.current_command ∧
      (handle_message env r m).state.messages_received = r.messages_received ∧
      (handle_message env r m).state.command_runner_websocket.sent
        = r.command_runner_websocket.sent) ∧
    (∀ (gc : List Json) (url : String) (page : Page) (messages inserted : List MessageData),
      withoutPlainLogs inserted = withoutPlainLogs messages →
      (session env gc url page inserted).command_runner_websocket.sent
        = (session env gc url page messages).command_runner_websocket.sent) ∧
    (∀ (r : Runner) (t : String), (MessageData.text t).isPlainLog = true →
      handle_message env r (.text t)
        = match formatServerResponseMessages env r.page t
            (jsIndex r.generated_commands ((r.current_command : Int) - 1)) with
          | .error e => .threw e r
          | .ok page => handle_message_log env { r with page := page } t) := by
  refine ⟨?_, ?_, ?_⟩
  · intro r m h
    have hc := (handle_message_core env r m).2
    have := Core.handle_message_isLog r.generated_commands r.core m h
    rw [← hc] at this
    exact this
  · intro gc url page messages inserted h
    rw [session_sent, session_sent]
    have e1 : Core.session gc inserted = Core.session gc (withoutPlainLogs inserted) := by
      simp only [Core.session, Core.runEvents, List.foldl_cons]
      exact Core.runEvents_withoutPlainLogs gc inserted _
    have e2 : Core.session gc messages = Core.session gc (withoutPlainLogs messages) := by
      simp only [Core.session, Core.runEvents, List.foldl_cons]
      exact Core.runEvents_withoutPlainLogs gc messages _
    rw [e1, e2, h]
  · intro r t h
    simp only [MessageData.isPlainLog, MessageData.isLog, MessageData.isCancelResponse,
      Bool.and_eq_true, Bool.not_eq_true'] at h
    obtain ⟨hlog, hcan⟩ := h
    have hack : t ≠ "Receiving instruction OK" := by
      intro he
      rw [he] at hlog
      revert hlog
      decide
    simp only [handle_message, hcan, Bool.false_eq_true, if_false, hack, hlog, if_true]

/-- Witness of `log_messages_do_not_count`: a log message, and the replies of
a command with a log message put in between. -/
theorem log_messages_do_not_count_witness :
    plainLogMessage.isLog = true ∧
    (handle_message sampleEnv
      (session sampleEnv [initCommand] "ws://testbed" samplePage [ackMessage])
      plainLogMessage).state.messages_received
        = (session sampleEnv [initCommand] "ws://testbed" samplePage
            [ackMessage]).messages_received ∧
    withoutPlainLogs
        [ackMessage, plainLogMessage, resultMessage]
      = withoutPlainLogs [ackMessage, resultMessage] ∧
    (session sampleEnv [initCommand, destroyCommand] "ws://testbed" samplePage
        [ackMessage, plainLogMessage,
          resultMessage]).command_runner_websocket.sent
      = (session sampleEnv [initCommand, destroyCommand] "ws://testbed" samplePage
        [ackMessage, resultMessage]).command_runner_websocket.sent :=
  ⟨by decide,
    ((log_messages_do_not_count sampleEnv).1 _ _ (by decide)).2.1,
    by decide,
    (log_messages_do_not_count sampleEnv).2.1 _ _ _ [ackMessage, resultMessage] _ (by decide)⟩

/-! ### C4: a failed command generation -/

/-- C4.  If any message of the command generation is flagged unsuccessful
(it has an `init_msg` property and its `was_error` is not `false`), then at the
close of the command generator socket `run_orchestration` is not called,
whatever the other messages before or after it, and whatever events follow no
frame is ever sent over a command runner socket.  `run_orchestration` is
called from the close handler exactly when no message was flagged. -/
theorem failed_generation_runs_nothing (env : Env) (init_schema : Json) (url : String)
    (page : Page) (messages : List MessageData) :
    ((∃ m ∈ messages, flaggedUnsuccessful env m = true) →
      (generation env init_schema url page messages).isOrchestration = false ∧
      ∀ events : List Event,
        ((generation env init_schema url page messages).run env events).sent = []) ∧
    ((generation env init_schema url page messages).isOrchestration = true ↔
      ∀ m ∈ messages, flaggedUnsuccessful env m = false) := by
  have hiso := generation_isOrchestration env init_schema url page messages
  constructor
  · intro hex
    have hany : messages.any (flaggedUnsuccessful env) = true := by
      rw [List.any_eq_true]
      exact hex
    rw [hany] at hiso
    refine ⟨by simpa using hiso, ?_⟩
    intro events
    cases hg : generation env init_schema url page messages with
    | orchestration r => rw [hg] at hiso; simp [AfterGeneration.isOrchestration] at hiso
    | halted p => rfl
  · rw [hiso]
    simp

/-- Witness of `failed_generation_runs_nothing`: the server did not
understand the command, yet went on to send an instruction. -/
theorem failed_generation_runs_nothing_witness :
    (∃ m ∈ [notUnderstoodMessage, generatedInitMessage],
      flaggedUnsuccessful sampleEnv m = true) ∧
    (generation sampleEnv downRequest "ws://testbed" samplePage
      [notUnderstoodMessage, generatedInitMessage]).isOrchestration = false :=
  ⟨⟨_, List.mem_cons_self _ _, by decide⟩,
    ((failed_generation_runs_nothing sampleEnv downRequest "ws://testbed" samplePage
      [notUnderstoodMessage, generatedInitMessage]).1
      ⟨_, List.mem_cons_self _ _, by decide⟩).1⟩

/-! ### C5: the cancel response -/

/-- C5.  Whatever `current_command` and `messages_received` are, a message
that contains the cancel response `{"Generic":{"is_success":false,"message":
"Cancel request"}}` makes `handle_message` print the cancellation notice,
close the socket and return, the two counters untouched; and whatever events
follow, the session sends no further frame. -/
theorem cancel_response_ends_session (env : Env) (r : Runner) (t : String)
    (h : includes t cancelResponse = true) :
    handle_message env r (.text t)
      = .returned
          { r with
            page := append_terminal_text r.page
              "Command has been cancelled, end of command running."
            command_runner_websocket := r.command_runner_websocket.close } ∧
    (handle_message env r (.text t)).state.current_command = r.current_command ∧
    (handle_message env r (.text t)).state.messages_received = r.messages_received ∧
    (handle_message env r (.text t)).state.command_runner_websocket.readyState ≠ .OPEN ∧
    ∀ events : List Event,
      (runEvents env (handle_message env r (.text t)).state events).command_runner_websocket.sent
        = r.command_runner_websocket.sent := by
  have e : handle_message env r (.text t)
      = .returned
          { r with
            page := append_terminal_text r.page
              "Command has been cancelled, end of command running."
            command_runner_websocket := r.command_runner_websocket.close } := by
    simp [handle_message, h]
  rw [e]
  refine ⟨rfl, rfl, rfl, ?_, ?_⟩
  · simp only [Outcome.state]
    rcases WebSocket.close_not_open r.command_runner_websocket with hc | hc <;> rw [hc] <;>
      decide
  · intro events
    simp only [Outcome.state]
    rw [(runEvents_closed env _ events
      (WebSocket.close_not_open r.command_runner_websocket)).1]
    exact WebSocket.close_sent _

/-- Witness of `cancel_response_ends_session`: the cancel response itself,
received after the first reply of a command. -/
theorem cancel_response_ends_session_witness :
    includes cancelResponse cancelResponse = true ∧
    (handle_message sampleEnv
      (session sampleEnv [initCommand, destroyCommand] "ws://testbed" samplePage [ackMessage])
      (.text cancelResponse)).state.messages_received = 1 :=
  ⟨by decide,
    (cancel_response_ends_session sampleEnv
      (session sampleEnv [initCommand, destroyCommand] "ws://testbed" samplePage [ackMessage])
      cancelResponse (by decide)).2.2.1.trans (by decide)⟩

/-! ### C6: the end of the commands -/

/-- C6, amended.  For a non-empty list of `N` commands whose request lines
can all be built (`sendable`), and text messages none of which contains the
cancel response: the session has printed "End of command running." as its
last line and closed its socket exactly when at least `2 N` messages that are
not log messages have arrived, so it does so while handling the `2 N`-th of
them and not earlier (before that the socket is open); and the close event that
follows runs the cleanup with exactly one request for the state of the
deployment. -/
theorem session_ends_at_last_reply (env : Env) (gc : List Json) (url : String) (page : Page)
    (messages : List MessageData) (hne : gc ≠ [])
    (hs : ∀ c ∈ gc, sendable (some c) = true)
    (ht : ∀ m ∈ messages, m.isText = true ∧ m.isCancelResponse = false) :
    ((session env gc url page messages).done = true
      ↔ 2 * gc.length ≤ nonLogCount messages) ∧
    (nonLogCount messages < 2 * gc.length →
      (session env gc url page messages).command_runner_websocket.readyState = .OPEN) ∧
    ((session env gc url page messages).done = true → ∀ reason : String,
      (dispatch env (session env gc url page messages) (.closed reason)).page.state_requests
        = (session env gc url page messages).page.state_requests + 1 ∧
      (dispatch env (session env gc url page messages) (.closed reason)).page.cancel_disabled
        = true ∧
      (dispatch env (session env gc url page messages)
        (.closed reason)).page.connection_state.text_bg_primary = false) := by
  have hgood := Core.session_good_of_sendable gc messages hs ht
  have hcases := Core.good_cases gc _ _ hne hgood
  refine ⟨⟨?_, ?_⟩, ?_, ?_⟩
  · intro hdone
    have hfin := session_done env gc url page messages hdone
    exact (Core.good_closing gc _ _ hgood hfin.1).2
  · intro hk
    rcases hcases with ⟨h1, _⟩ | ⟨_, h2⟩
    · omega
    · apply session_closing_done env gc url page messages ht
      rw [session_readyState]
      exact h2
  · intro hk
    rcases hcases with ⟨_, h2⟩ | ⟨h1, _⟩
    · rw [session_readyState]
      exact h2
    · omega
  · intro hdone reason
    have hcl : (session env gc url page messages).command_runner_websocket.readyState
        = .CLOSING := by
      simp only [Runner.done, Bool.and_eq_true, decide_eq_true_eq] at hdone
      exact hdone.1
    simp [dispatch, hcl, onclose, reset_running_state, get_last_command_state,
      set_connection_state_inactive, append_terminal_text, console_log]

/-- Witness of `session_ends_at_last_reply`: two commands; the session is at
its end after the fourth reply and not after the third. -/
theorem session_ends_at_last_reply_witness :
    ([initCommand, destroyCommand] ≠ [] ∧
      (∀ c ∈ [initCommand, destroyCommand], sendable (some c) = true) ∧
      (∀ m ∈ [ackMessage, resultMessage, ackMessage, resultMessage],
        m.isText = true ∧ m.isCancelResponse = false)) ∧
    ((session sampleEnv [initCommand, destroyCommand] "ws://testbed" samplePage
        [ackMessage, resultMessage, ackMessage, resultMessage]).done = true
      ↔ 2 * [initCommand, destroyCommand].length
          ≤ nonLogCount [ackMessage, resultMessage, ackMessage, resultMessage]) ∧
    (session sampleEnv [initCommand, destroyCommand] "ws://testbed" samplePage
        [ackMessage, resultMessage, ackMessage]).command_runner_websocket.readyState = .OPEN :=
  ⟨⟨List.cons_ne_nil _ _, by decide, by decide⟩,
    (session_ends_at_last_reply sampleEnv [initCommand, destroyCommand] "ws://testbed"
      samplePage [ackMessage, resultMessage, ackMessage, resultMessage]
      (List.cons_ne_nil _ _) (by decide) (by decide)).1,
    (session_ends_at_last_reply sampleEnv [initCommand, destroyCommand] "ws://testbed"
      samplePage [ackMessage, resultMessage, ackMessage]
      (List.cons_ne_nil _ _) (by decide) (by decide)).2.1 (by decide)⟩

/-- C6, as stated, fails: the request line of a command that deploys a
network other than an OVN network cannot be built, so the command is never
sent, and the session of this one command is not at its end after two replies
(nor after four): the socket stays open. -/
theorem session_of_unprintable_command_never_ends :
    [bridgeCommand] ≠ [] ∧
    nonLogCount [ackMessage, ackMessage] = 2 * [bridgeCommand].length ∧
    (∀ m ∈ [ackMessage, ackMessage], m.isText = true ∧ m.isCancelResponse = false) ∧
    (session sampleEnv [bridgeCommand] "ws://testbed" samplePage
      [ackMessage, ackMessage]).done = false ∧
    (session sampleEnv [bridgeCommand] "ws://testbed" samplePage
      [ackMessage, ackMessage]).command_runner_websocket.readyState = .OPEN ∧
    (session sampleEnv [bridgeCommand] "ws://testbed" samplePage
      [ackMessage, ackMessage, ackMessage, ackMessage]).done = false :=
  ⟨List.cons_ne_nil _ _, by decide, by decide, by decide, by decide, by decide⟩

/-! ### C7: the acknowledgement -/

/-- C7.  Whatever the state of the session, the message
`Receiving instruction OK` is not printed: `handle_message` goes straight to
the counting branch with the page as it is.  There it counts as one reply like
any other reply that is not a log message (for which the counting branch runs
on the page with the reply printed): unless it is the second reply the count
goes up by one and nothing else changes; as the second reply after the last
command it ends the session; as the second reply before the last command it
has the next command sent. -/
theorem acknowledgement_is_counted_not_printed (env : Env) (r : Runner) :
    handle_message env r (.text "Receiving instruction OK") = handle_message_count env r ∧
    (∀ (t : String) (q : Page), includes t cancelResponse = false →
      includes t logMarker = false → t ≠ "Receiving instruction OK" →
      formatServerResponseMessages env r.page t
        (jsIndex r.generated_commands ((r.current_command : Int) - 1)) = .ok q →
      handle_message env r (.text t) = handle_message_count env { r with page := q }) ∧
    (r.messages_received + 1 ≠ 2 →
      handle_message env r (.text "Receiving instruction OK")
        = .returned { r with messages_received := r.messages_received + 1 }) ∧
    (r.messages_received + 1 = 2 → r.current_command = r.generated_commands.length →
      handle_message env r (.text "Receiving instruction OK")
        = .returned
            { r with
              messages_received := r.messages_received + 1
              page := append_terminal_text
                (console_log r.page "we have reached the end of commands, closing")
                "End of command running."
              command_runner_websocket := r.command_runner_websocket.close }) ∧
    (r.messages_received + 1 = 2 → r.current_command ≠ r.generated_commands.length →
      ∀ r2 : Runner,
        send_message env { r with messages_received := r.messages_received + 1 }
          r.current_command = .returned r2 →
        handle_message env r (.text "Receiving instruction OK")
          = .returned
              { r2 with current_command := r2.current_command + 1, messages_received := 0 }) := by
  have hc : includes "Receiving instruction OK" cancelResponse = false := by decide
  have hl : includes "Receiving instruction OK" logMarker = false := by decide
  have e : handle_message env r (.text "Receiving instruction OK")
      = handle_message_count env r := by
    simp [handle_message, hc, hl]
  refine ⟨e, ?_, ?_, ?_, ?_⟩
  · intro t q h1 h2 h3 h4
    simp [handle_message, h1, h2, h3, h4]
  · intro h
    rw [e]
    simp [handle_message_count, h]
  · intro h hn
    rw [e]
    simp [handle_message_count, h, hn, Runner.n_commands]
  · intro h hn r2 hs
    rw [e]
    have e2 : (r.messages_received + 1 = 2) = True := eq_true h
    have en : (r.current_command = r.generated_commands.length) = False := eq_false hn
    simp only [handle_message_count, e2, en, if_true, if_false, Runner.n_commands, hs]

/-- Witness of `acknowledgement_is_counted_not_printed`: the acknowledgement
as first reply, as second reply with a command left to send, and as second
reply after the last command. -/
theorem acknowledgement_is_counted_not_printed_witness :
    ((session sampleEnv [initCommand, destroyCommand] "ws://testbed" samplePage
        []).messages_received + 1 ≠ 2 ∧
      (handle_message sampleEnv
        (session sampleEnv [initCommand, destroyCommand] "ws://testbed" samplePage [])
        (.text "Receiving instruction OK")).state.page
        = (session sampleEnv [initCommand, destroyCommand] "ws://testbed" samplePage
            []).page) ∧
    (handle_message sampleEnv
        (session sampleEnv [initCommand, destroyCommand] "ws://testbed" samplePage
          [resultMessage])
        (.text "Receiving instruction OK")).state.current_command = 2 ∧
    (handle_message sampleEnv
        (session sampleEnv [initCommand] "ws://testbed" samplePage [resultMessage])
        (.text "Receiving instruction OK")).state.command_runner_websocket.readyState
      = .CLOSING :=
  ⟨⟨by decide,
      congrArg (fun o => o.state.page)
        ((acknowledgement_is_counted_not_printed sampleEnv
          (session sampleEnv [initCommand, destroyCommand] "ws://testbed" samplePage
            [])).2.2.1 (by decide))⟩,
    (congrArg (fun o => o.state.current_command)
      ((acknowledgement_is_counted_not_printed sampleEnv
        (session sampleEnv [initCommand, destroyCommand] "ws://testbed" samplePage
          [resultMessage])).2.2.2.2 (by decide) (by decide) _ rfl)).trans (by decide),
    (congrArg (fun o => o.state.command_runner_websocket.readyState)
      ((acknowledgement_is_counted_not_printed sampleEnv
        (session sampleEnv [initCommand] "ws://testbed" samplePage
          [resultMessage])).2.2.2.1 (by decide) (by decide))).trans (by decide)⟩

/-! ### C8: a Blob message -/

/-- C8.  Whatever the state of the session, a Blob message makes
`handle_message` print an error line and close the socket; the handler then
fails on the Blob (it has no `includes`), so the message is not counted, no
frame is sent, `current_command` stays, and whatever events follow, the session
sends no further frame. -/
theorem blob_message_ends_session (env : Env) (r : Runner) (bytes : List UInt8) :
    handle_message env r (.blob bytes)
      = .threw .TypeError
          { r with
            page := append_terminal_text r.page
              ("Error: received a blob message from server, this is not supported, "
                ++ "please raise a GitHub issue")
            command_runner_websocket := r.command_runner_websocket.close } ∧
    (handle_message env r (.blob bytes)).state.current_command = r.current_command ∧
    (handle_message env r (.blob bytes)).state.messages_received = r.messages_received ∧
    (handle_message env r (.blob bytes)).state.command_runner_websocket.sent
      = r.command_runner_websocket.sent ∧
    (handle_message env r (.blob bytes)).state.command_runner_websocket.readyState ≠ .OPEN ∧
    ∀ events : List Event,
      (runEvents env (handle_message env r (.blob bytes)).state
        events).command_runner_websocket.sent = r.command_runner_websocket.sent := by
  refine ⟨rfl, rfl, rfl, WebSocket.close_sent _, ?_, ?_⟩
  · simp only [handle_message, Outcome.state]
    rcases WebSocket.close_not_open r.command_runner_websocket with hc | hc <;> rw [hc] <;>
      decide
  · intro events
    simp only [handle_message, Outcome.state]
    rw [(runEvents_closed env _ events
      (WebSocket.close_not_open r.command_runner_websocket)).1]
    exact WebSocket.close_sent _

/-! ### C9: the cancel button -/

/-- C9, amended.  Whatever `current_command` and `messages_received` are, while the
socket of the session is open a click on the cancel button sends exactly one
frame, the binary frame of the UTF-8 bytes of `{"instruction":"Cancel"}`, and
changes nothing else: the socket stays open, nothing is printed, the counters
stay.  The session is ended only by the answer of the server: the cancel
response received after the click prints the notice and closes the socket. -/
theorem cancel_click_sends_cancel_frame (env : Env) (r : Runner)
    (h : r.command_runner_websocket.readyState = .OPEN) :
    on_cancel_click r
      = .returned
          { r with
            command_runner_websocket :=
              { r.command_runner_websocket with
                sent := r.command_runner_websocket.sent
                  ++ [.binary (TextEncoder_encode cancelRequestText)] } } ∧
    (on_cancel_click r).state.command_runner_websocket.readyState = .OPEN ∧
    (on_cancel_click r).state.page = r.page ∧
    (on_cancel_click r).state.current_command = r.current_command ∧
    (on_cancel_click r).state.messages_received = r.messages_received ∧
    (handle_message env (on_cancel_click r).state
        (.text cancelResponse)).state.command_runner_websocket.readyState = .CLOSING ∧
    (handle_message env (on_cancel_click r).state (.text cancelResponse)).state.page
      = append_terminal_text r.page "Command has been cancelled, end of command running." := by
  have hf : cancelFrame = .binary (TextEncoder_encode cancelRequestText) := by
    decide
  have e : on_cancel_click r
      = .returned
          { r with
            command_runner_websocket :=
              { r.command_runner_websocket with
                sent := r.command_runner_websocket.sent
                  ++ [.binary (TextEncoder_encode cancelRequestText)] } } := by
    simp [on_cancel_click, WebSocket.send, h, hf]
  have hc : includes cancelResponse cancelResponse = true := by decide
  rw [e]
  refine ⟨rfl, h, rfl, rfl, rfl, ?_, ?_⟩
  · simp [handle_message, hc, Outcome.state, WebSocket.close, h]
  · simp [handle_message, hc, Outcome.state]

/-- Witness of `cancel_click_sends_cancel_frame`: a click after the first
reply of a command. -/
theorem cancel_click_sends_cancel_frame_witness :
    (session sampleEnv [initCommand, destroyCommand] "ws://testbed" samplePage
      [ackMessage]).command_runner_websocket.readyState = .OPEN ∧
    (on_cancel_click
      (session sampleEnv [initCommand, destroyCommand] "ws://testbed" samplePage
        [ackMessage])).state.messages_received = 1 :=
  ⟨by decide,
    (cancel_click_sends_cancel_frame sampleEnv
      (session sampleEnv [initCommand, destroyCommand] "ws://testbed" samplePage [ackMessage])
      (by decide)).2.2.2.2.1.trans (by decide)⟩

/-- C9, as stated, fails: in a session whose socket is still connecting, with
the cancel button enabled, the click handler throws an `InvalidStateError` and
no frame is sent; in a session that has reached the end of the commands and
closed its socket, with the cancel button still enabled, the click adds no
frame to the one sent. -/
theorem cancel_click_needs_an_open_socket :
    (run_orchestration [initCommand] "ws://testbed"
      activePage).command_runner_websocket.readyState = .CONNECTING ∧
    (run_orchestration [initCommand] "ws://testbed" activePage).page.cancel_disabled = false ∧
    on_cancel_click (run_orchestration [initCommand] "ws://testbed" activePage)
      = .threw .InvalidStateError (run_orchestration [initCommand] "ws://testbed" activePage) ∧
    (dispatch sampleEnv (run_orchestration [initCommand] "ws://testbed" activePage)
      .cancel_click).command_runner_websocket.sent = [] ∧
    (session sampleEnv [initCommand] "ws://testbed" activePage
      [ackMessage, resultMessage]).command_runner_websocket.readyState = .CLOSING ∧
    (session sampleEnv [initCommand] "ws://testbed" activePage
      [ackMessage, resultMessage]).page.cancel_disabled = false ∧
    (on_cancel_click (session sampleEnv [initCommand] "ws://testbed" activePage
      [ackMessage, resultMessage])).state.command_runner_websocket.sent
      = [instructionFrame initCommand] ∧
    (session sampleEnv [initCommand] "ws://testbed" activePage
      [ackMessage, resultMessage]).command_runner_websocket.sent
      = [instructionFrame initCommand] :=
  ⟨by decide, by decide, rfl, by decide, by decide, by decide, by decide, by decide⟩

/-! ### C10: `List` responses -/

/-- C10.  For a `List` response `{"List": [...]}` and a last command whose
name can be read, `formatServerResponseMessages` prints, after what the
terminal holds: if there are successful entries, one line made of the time
stamp, the INFO level, the instruction name, " Ok: " and the messages of the
successful entries in their order joined by ", " (in "[ ... ]" unless there is
exactly one); then, if there are failed entries, a separate line made of the
time stamp, the ERROR level, "Fail: " and the messages of the failed entries
in their order joined by ", " (bare or in "[ ... ]"). -/
theorem list_response_rendering (env : Env) (p : Page) (text : String)
    (entries : List (Bool × String)) (last_command : Option Json) (instruction : Json)
    (hparse : env.JSON_parse text = some (listResponse entries))
    (hname : getInstructionName last_command = .ok instruction) :
    ∃ q : Page, formatServerResponseMessages env p text last_command = .ok q ∧
      q.terminal = p.terminal
        ++ (if successfulMessages entries = [] then ""
            else env.toISOString p.dates
              ++ "<span style=\"color: #21730d\">  INFO: </span>"
              ++ (instruction.toStr ++ " Ok: "
                ++ (if (successfulMessages entries).length = 1
                    then ", ".intercalate (successfulMessages entries)
                    else "[ " ++ ", ".intercalate (successfulMessages entries) ++ " ]"))
              ++ "<br>")
        ++ (if failedMessages entries = [] then ""
            else env.toISOString
                (p.dates + if successfulMessages entries = [] then 0 else 1)
              ++ "<span style=\"color: #b31e0b\"> ERROR: </span>"
              ++ ("Fail: "
                ++ (if (successfulMessages entries).length = 1
                    then ", ".intercalate (failedMessages entries)
                    else "[ " ++ ", ".intercalate (failedMessages entries) ++ " ]"))
              ++ "<br>") := by
  refine ⟨_, formatServerResponseMessages_list env p text entries last_command instruction
    hparse hname, ?_⟩
  unfold formatList
  simp only [List.length_map, Array_join_strings]
  cases hs : successfulMessages entries with
  | nil =>
    cases hf : failedMessages entries with
    | nil => simp
    | cons b bs =>
      simp [log_text_with_colour, append_terminal_text, String.append_assoc]
  | cons a as =>
    cases hf : failedMessages entries with
    | nil =>
      simp [log_text_with_colour, append_terminal_text, String.append_assoc]
    | cons b bs =>
      simp [log_text_with_colour, append_terminal_text, String.append_assoc]

/-- Witness of `list_response_rendering`: the entries `[{true,"A"},{false,"B"}]`
give the two lines "... Destroy Ok: A" and "... Fail: B"; the single entry
`[{true,"A"}]` gives the one line "... Destroy Ok: A", without brackets. -/
theorem list_response_rendering_witness :
    (sampleEnv.JSON_parse listResponseTextAB
        = some (listResponse [(true, "A"), (false, "B")]) ∧
      getInstructionName (some destroyCommand) = .ok (.arr [.str "Destroy"])) ∧
    (∃ q : Page,
      formatServerResponseMessages sampleEnv samplePage listResponseTextAB
        (some destroyCommand) = .ok q ∧
      q.terminal
        = "1970-01-01T00:00:00.000Z<span style=\"color: #21730d\">  INFO: </span>"
          ++ "Destroy Ok: A<br>"
          ++ "1970-01-01T00:00:00.001Z<span style=\"color: #b31e0b\"> ERROR: </span>"
          ++ "Fail: B<br>") ∧
    (∃ q : Page,
      formatServerResponseMessages sampleEnv samplePage listResponseTextA
        (some destroyCommand) = .ok q ∧
      q.terminal
        = "1970-01-01T00:00:00.000Z<span style=\"color: #21730d\">  INFO: </span>"
          ++ "Destroy Ok: A<br>") :=
  ⟨⟨rfl, rfl⟩,
    (list_response_rendering sampleEnv samplePage listResponseTextAB
      [(true, "A"), (false, "B")] (some destroyCommand) (.arr [.str "Destroy"]) rfl rfl).imp
      (fun _ h => ⟨h.1, h.2.trans rfl⟩),
    (list_response_rendering sampleEnv samplePage listResponseTextA [(true, "A")]
      (some destroyCommand) (.arr [.str "Destroy"]) rfl rfl).imp
      (fun _ h => ⟨h.1, h.2.trans rfl⟩)⟩

/-! ### C11: a `List` response with one entry -/

/-- C11.  A `List` response with exactly one entry, after a last command whose
name can be read: a successful entry is printed on one line without brackets,
"<name> Ok: <message>"; a failed entry is printed on one line as
"Fail: [ <message> ]", inside the brackets, because the test for the brackets
of the failed line reads the number of successful entries.  At
`{"List":[{"is_success":false,"message":"B"}]}` after a `Destroy` command the
terminal gets the line "... ERROR: Fail: [ B ]". -/
theorem single_failed_entry_is_bracketed :
    (∀ (env : Env) (p : Page) (text : String) (ok : Bool) (m : String)
        (last_command : Option Json) (instruction : Json),
      env.JSON_parse text = some (listResponse [(ok, m)]) →
      getInstructionName last_command = .ok instruction →
      ∃ q : Page, formatServerResponseMessages env p text last_command = .ok q ∧
        q.terminal = p.terminal ++
          (if ok then
            env.toISOString p.dates ++ "<span style=\"color: #21730d\">  INFO: </span>"
              ++ (instruction.toStr ++ " Ok: " ++ m) ++ "<br>"
          else
            env.toISOString p.dates ++ "<span style=\"color: #b31e0b\"> ERROR: </span>"
              ++ ("Fail: " ++ ("[ " ++ m ++ " ]")) ++ "<br>")) ∧
    sampleEnv.JSON_parse listResponseTextB = some (listResponse [(false, "B")]) ∧
    (∃ q : Page,
      formatServerResponseMessages sampleEnv samplePage listResponseTextB
        (some destroyCommand) = .ok q ∧
      q.terminal = "1970-01-01T00:00:00.000Z<span style=\"color: #b31e0b\"> ERROR: </span>Fail: [ B ]<br>") := by
  refine ⟨?_, rfl, ?_⟩
  · intro env p text ok m last_command instruction hparse hname
    refine ⟨_, formatServerResponseMessages_list env p text _ last_command instruction
      hparse hname, ?_⟩
    have hj : Array_join [some (Json.str m)] ", " = m := by
      have := Array_join_strings [m] ", "
      simpa using this
    cases ok <;>
      simp [formatList, successfulMessages, failedMessages, hj,
        log_text_with_colour, append_terminal_text, String.append_assoc]
  · exact ⟨_, rfl, rfl⟩

/-! ### C12: a payload that is not JSON -/

/-- C12, amended.  For a payload that the JSON parser rejects and a last
command whose name can be read, `formatServerResponseMessages` raises no error
and appends exactly one line to the pseudo terminal, the payload as it is;
besides that it only writes the payload to the console. -/
theorem unparseable_payload_is_printed_raw (env : Env) (p : Page) (text : String)
    (last_command : Option Json) (hparse : env.JSON_parse text = none)
    (hname : nameable last_command = true) :
    formatServerResponseMessages env p text last_command
      = .ok { p with
          terminal := p.terminal ++ text ++ "<br>"
          console := p.console ++ [.log ("@ message was not a JSON = " ++ text)] } :=
  formatServerResponseMessages_unparseable env p text last_command hparse hname

/-- Witness of `unparseable_payload_is_printed_raw`: the payload "not json"
after a `Destroy` command. -/
theorem unparseable_payload_is_printed_raw_witness :
    (sampleEnv.JSON_parse "not json" = none ∧ nameable (some destroyCommand) = true) ∧
    formatServerResponseMessages sampleEnv samplePage "not json" (some destroyCommand)
      = .ok { samplePage with
          terminal := samplePage.terminal ++ "not json" ++ "<br>"
          console := samplePage.console ++ [.log ("@ message was not a JSON = " ++ "not json")] } :=
  ⟨⟨rfl, by decide⟩,
    unparseable_payload_is_printed_raw sampleEnv samplePage "not json" (some destroyCommand)
      rfl (by decide)⟩

/-- C12, as stated, fails: the name of the last command is read before the
`try`, so with no last command (the list of commands was empty and the first
send threw) the payload "not json" raises a `TypeError` and nothing is
printed: the message handler of such a session throws and leaves the terminal
as it was. -/
theorem unparseable_payload_without_last_command_throws :
    sampleEnv.JSON_parse "not json" = none ∧
    formatServerResponseMessages sampleEnv samplePage "not json" none = .error .TypeError ∧
    (on_open sampleEnv (run_orchestration [] "ws://host" samplePage)).state.current_command = 0 ∧
    handle_message sampleEnv
        (on_open sampleEnv (run_orchestration [] "ws://host" samplePage)).state
        (.text "not json")
      = .threw .TypeError (on_open sampleEnv (run_orchestration [] "ws://host" samplePage)).state := by
  exact ⟨rfl, rfl, rfl, rfl⟩

/-! ### C13: a payload of no known variant -/

/-- C13, amended.  After a last command whose name can be read: a payload that
the JSON parser rejects, or that is a JSON value other than an object or an
array (the test for the key `Generic` throws on it), is appended to the pseudo
terminal as one line, as it is; a payload that is a JSON object or array with
none of the keys `Generic`, `Single`, `List`, `Log` is not displayed: the
terminal stays as it was and one error line goes to the console. -/
theorem unmatched_payload_display (env : Env) (p : Page) (text : String)
    (last_command : Option Json) (hname : nameable last_command = true) :
    ((env.JSON_parse text = none ∨
        ∃ j, env.JSON_parse text = some j ∧ j.isPrimitive = true) →
      formatServerResponseMessages env p text last_command
        = .ok (append_terminal_text
            (console_log p ("@ message was not a JSON = " ++ text)) text)) ∧
    (∀ j, env.JSON_parse text = some j →
      jsIn "Generic" (some j) = .ok false → jsIn "Single" (some j) = .ok false →
      jsIn "List" (some j) = .ok false → jsIn "Log" (some j) = .ok false →
      formatServerResponseMessages env p text last_command
        = .ok { p with console := p.console ++ [.error
            "The json message from the server did not match the three variants in OrchestrationProtocolResponse"] }) := by
  constructor
  · rintro (h | ⟨j, h, hj⟩)
    · exact formatServerResponseMessages_unparseable env p text last_command h hname
    · exact formatServerResponseMessages_primitive env p text last_command j h hj hname
  · intro j h hG hS hL hLog
    exact formatServerResponseMessages_other env p text last_command j h hG hS hL hLog hname

/-- Witness of `unmatched_payload_display`: after a `Destroy` command the
payload `5` is printed as the line "5", the payload `{"foo":1}` only reaches
the console. -/
theorem unmatched_payload_display_witness :
    nameable (some destroyCommand) = true ∧
    formatServerResponseMessages sampleEnv samplePage "5" (some destroyCommand)
      = .ok (append_terminal_text
          (console_log samplePage ("@ message was not a JSON = " ++ "5")) "5") ∧
    formatServerResponseMessages sampleEnv samplePage fooResponseText (some destroyCommand)
      = .ok { samplePage with console := samplePage.console ++ [.error
          "The json message from the server did not match the three variants in OrchestrationProtocolResponse"] } :=
  ⟨by decide,
    (unmatched_payload_display sampleEnv samplePage "5" (some destroyCommand) (by decide)).1
      (Or.inr ⟨.num 5, rfl, rfl⟩),
    (unmatched_payload_display sampleEnv samplePage fooResponseText (some destroyCommand)
      (by decide)).2 (.obj [("foo", .num 1)]) rfl rfl rfl rfl rfl⟩

/-- C13, as stated, fails: the payload `{"foo":1}`, a JSON object with none
of the four keys, is not appended to the pseudo terminal; the terminal stays
empty and the console gets an error line. -/
theorem object_without_known_key_is_not_displayed :
    sampleEnv.JSON_parse fooResponseText = some (.obj [("foo", .num 1)]) ∧
    ∃ q : Page,
      formatServerResponseMessages sampleEnv samplePage fooResponseText (some destroyCommand)
        = .ok q ∧
      q.terminal = samplePage.terminal ∧
      q.console = [.error
        "The json message from the server did not match the three variants in OrchestrationProtocolResponse"] :=
  ⟨rfl, _, rfl, rfl, rfl⟩

/-! ### C14: the list handed to `run_orchestration` -/

/-- C14.  When the close of the command generator socket starts the
orchestration, the list handed to `run_orchestration` is the list of the
parsed generated instructions among the received messages (those that parse
and have no `init_msg` property), in arrival order, each once; the session
keeps this list unchanged, and whatever events follow, the instruction frames
it has sent are those of the first `current_command` entries of the list, in
the order of the list. -/
theorem orchestration_gets_generated_instructions (env : Env) (init_schema : Json)
    (url : String) (page : Page) (messages : List MessageData) (r : Runner)
    (h : generation env init_schema url page messages = .orchestration r) :
    r.generated_commands = messages.filterMap (generatedInstruction env) ∧
    r.current_command = 0 ∧
    ∀ events : List Event,
      (runEvents env r events).generated_commands
        = messages.filterMap (generatedInstruction env) ∧
      instructionFrames env r events
        = ((messages.filterMap (generatedInstruction env)).take
            (runEvents env r events).current_command).map
          (fun command => Frame.binary (TextEncoder_encode (JSON.stringify command))) := by
  obtain ⟨q, rfl⟩ := generation_orchestration env init_schema url page messages r h
  refine ⟨rfl, rfl, ?_⟩
  intro events
  exact instructionFrames_run_orchestration env _ url q events

/-- Witness of `orchestration_gets_generated_instructions`: of the messages
initiation, `Init`, a text that is not JSON, `Destroy`, the list holds the two
instructions, in that order. -/
theorem orchestration_gets_generated_instructions_witness :
    ∃ r : Runner,
      generation sampleEnv downRequest "ws://testbed" samplePage
        [understoodMessage, generatedInitMessage, .text "not json", generatedDestroyMessage]
        = .orchestration r ∧
      r.generated_commands = [initCommand, emptyDestroyCommand] :=
  ⟨_, rfl,
    (orchestration_gets_generated_instructions sampleEnv downRequest "ws://testbed" samplePage
      [understoodMessage, generatedInitMessage, .text "not json", generatedDestroyMessage]
      _ rfl).1⟩

/-! ### C15: a close before any initiation message -/

/-- C15, amended.  If the command generator socket closes and none of the
messages received before had an `init_msg` property (no initiation message,
and no diagnostic message either), the generation is not treated as failed:
`run_orchestration` is called with the generated instructions received so
far, and nothing is reported in the pseudo terminal, which is as the `open`
handler cleared it. -/
theorem close_before_initiation_starts_orchestration (env : Env) (init_schema : Json)
    (url : String) (page : Page) (messages : List MessageData)
    (h : ∀ m ∈ messages, carriesInitMsg env m = false) :
    ∃ r : Runner, generation env init_schema url page messages = .orchestration r ∧
      r.generated_commands = messages.filterMap (generatedInstruction env) ∧
      r.page.terminal = "" := by
  simp only [generation]
  rw [receiveGenerated_plain env messages _ h]
  simp [command_generator_onclose, command_generator_onopen, request_command, WebSocket.send,
    WebSocket.new, Outcome.state, run_orchestration, console_log]

/-- Witness of `close_before_initiation_starts_orchestration`: the socket
closes after the one instruction `Init`, without any initiation message. -/
theorem close_before_initiation_starts_orchestration_witness :
    (∀ m ∈ [generatedInitMessage], carriesInitMsg sampleEnv m = false) ∧
    ∃ r : Runner,
      generation sampleEnv downRequest "ws://testbed" samplePage [generatedInitMessage]
        = .orchestration r ∧
      r.generated_commands = [generatedInitMessage].filterMap (generatedInstruction sampleEnv) ∧
      r.page.terminal = "" :=
  ⟨by decide,
    close_before_initiation_starts_orchestration sampleEnv downRequest "ws://testbed" samplePage
      [generatedInitMessage] (by decide)⟩

/-- C15, as stated, fails: when the socket closes before any message at all,
`run_orchestration` is called (with the empty list) and no failure is
reported; when it closes after the one instruction `Init`, without an
initiation message, `run_orchestration` is called with that instruction. -/
theorem close_without_initiation_is_not_a_failure :
    (∃ r : Runner,
      generation sampleEnv downRequest "ws://testbed" samplePage [] = .orchestration r ∧
      r.generated_commands = [] ∧ r.page.terminal = "") ∧
    (∃ r : Runner,
      generation sampleEnv downRequest "ws://testbed" samplePage [generatedInitMessage]
        = .orchestration r ∧
      r.generated_commands = [initCommand]) :=
  ⟨⟨_, rfl, rfl, rfl⟩, ⟨_, rfl, rfl⟩⟩

/-! ### C16: a malformed initiation message -/

/-- C16, amended.  A message that parses to a value whose `init_msg` is `true`
and whose `was_error` is missing or anything but `false` makes the handler of
the command generator socket set the failure flag and push the text "Command
sent to server was not understood: <br>" followed by the message; whatever
arrives before or after it, `run_orchestration` is not called at the close.
A message that the JSON parser rejects makes the handler throw a
`SyntaxError` with nothing marked and nothing displayed; a generation that
receives only this message calls `run_orchestration` at the close. -/
theorem malformed_initiation_message (env : Env) (g : Generator) (data : MessageData) :
    (∀ j : Json, env.JSON_parse data.asText = some j →
      jsIsBool (jsGet (some j) "init_msg").toOption.join true = true →
      jsIsBool (jsGet (some j) "was_error").toOption.join false = false →
      command_generator_onmessage env g data
        = .returned { g with
            page := append_terminal_text g.page
              ("Command sent to server was not understood: <br>"
                ++ jsToString (jsGet (some j) "message").toOption.join)
            command_generation_failure := true } ∧
      ∀ (init_schema : Json) (url : String) (page : Page) (before after : List MessageData),
        (generation env init_schema url page (before ++ data :: after)).isOrchestration
          = false) ∧
    (env.JSON_parse data.asText = none →
      command_generator_onmessage env g data = .threw .SyntaxError g ∧
      ∀ (init_schema : Json) (url : String) (page : Page),
        (generation env init_schema url page [data]).isOrchestration = true) := by
  constructor
  · intro j hparse hinit hwas
    have hown : jsHasOwnProperty (some j) "init_msg" = .ok true := by
      cases j with
      | obj kvs =>
        simp only [jsGet, jsHasOwnProperty] at hinit ⊢
        cases hl : kvs.lookup "init_msg" with
        | none => simp [hl, Except.toOption, jsIsBool] at hinit
        | some v => rfl
      | _ => simp [jsGet, Except.toOption, jsIsBool] at hinit
    constructor
    · unfold command_generator_onmessage
      simp only [hparse, hown, hinit, hwas, if_true, Bool.false_eq_true, if_false]
    · intro init_schema url page before after
      rw [generation_isOrchestration]
      have : flaggedUnsuccessful env data = true := by
        unfold flaggedUnsuccessful
        simp only [hparse, hown, hwas, Bool.not_false]
      simp [this]
  · intro hparse
    constructor
    · unfold command_generator_onmessage
      simp only [hparse]
    · intro init_schema url page
      rw [generation_isOrchestration]
      simp [flaggedUnsuccessful, hparse]

/-- Witness of `malformed_initiation_message`: the initiation message
`{"init_msg":true,"message":"Up"}`, without `was_error`, halts the generation;
the text "not json" alone does not. -/
theorem malformed_initiation_message_witness :
    (generation sampleEnv downRequest "ws://testbed" samplePage
      ([] ++ initWithoutWasError :: [generatedInitMessage])).isOrchestration = false ∧
    (generation sampleEnv downRequest "ws://testbed" samplePage
      [.text "not json"]).isOrchestration = true :=
  ⟨((malformed_initiation_message sampleEnv
      (request_command downRequest "ws://testbed" samplePage) initWithoutWasError).1
      (.obj [("init_msg", .bool true), ("message", .str "Up")]) rfl rfl rfl).2
      downRequest "ws://testbed" samplePage [] [generatedInitMessage],
   ((malformed_initiation_message sampleEnv
      (request_command downRequest "ws://testbed" samplePage) (.text "not json")).2 rfl).2
      downRequest "ws://testbed" samplePage⟩

/-- C16, as stated, fails: on the text "not json" the handler throws and
leaves the generator as it was, the failure flag unset and the terminal
untouched, and the close that follows calls `run_orchestration`. -/
theorem unparseable_generation_message_marks_nothing :
    sampleEnv.JSON_parse "not json" = none ∧
    command_generator_onmessage sampleEnv
        (request_command downRequest "ws://testbed" samplePage) (.text "not json")
      = .threw .SyntaxError (request_command downRequest "ws://testbed" samplePage) ∧
    (request_command downRequest "ws://testbed" samplePage).command_generation_failure = false ∧
    (generation sampleEnv downRequest "ws://testbed" samplePage
      [.text "not json"]).isOrchestration = true :=
  ⟨rfl, rfl, rfl, rfl⟩

/-! ### C17: a button that is not recognised -/

/-- C17.  For a button id that is none of the eight for which a command is
built, `get_button_command_json` returns, without throwing, the request with
the project name and a `null` `sub_command`, and writes one line to the
console: "analysis tools" for `analysisToolsButton`, the id followed by
" not recognised" for any other id. -/
theorem unrecognised_button_gives_null_sub_command (project_name : String) (dom : Dom)
    (button_id selectedOption selectedToolOption selectedSnapshotOption : String)
    (h : button_id ∉ commandButtons) :
    get_button_command_json project_name dom button_id selectedOption selectedToolOption
        selectedSnapshotOption
      = .ok (.obj [("project_name", .str project_name), ("sub_command", .null)],
          [.log (if button_id = "analysisToolsButton" then "analysis tools"
                 else button_id ++ " not recognised")]) := by
  simp only [commandButtons, List.mem_cons, List.mem_singleton, List.not_mem_nil, or_false,
    not_or] at h
  obtain ⟨h1, h2, h3, h4, h5, h6, h7, h8⟩ := h
  unfold get_button_command_json
  by_cases ha : button_id = "analysisToolsButton"
  · subst ha
    rfl
  · simp only [h1, h2, h3, h4, h5, h6, h7, h8, ha, if_false]
    rfl

/-- Witness of `unrecognised_button_gives_null_sub_command`: the id
`fooButton`. -/
theorem unrecognised_button_gives_null_sub_command_witness :
    "fooButton" ∉ commandButtons ∧
    get_button_command_json "lab1" sampleDom "fooButton" "tool" "a_d_b" ""
      = .ok (.obj [("project_name", .str "lab1"), ("sub_command", .null)],
          [.log (if "fooButton" = "analysisToolsButton" then "analysis tools"
                 else "fooButton" ++ " not recognised")]) :=
  ⟨by decide,
    unrecognised_button_gives_null_sub_command "lab1" sampleDom "fooButton" "tool" "a_d_b" ""
      (by decide)⟩

/-! ### C18: the `Up` command -/

/-- C18.  For `upButton` the request is `{"Up": {"provision", "rerun_scripts",
"reapply_acl"}}` under the project name; `provision` and `rerun_scripts` are
the checked states of `#upProvisionFlag` and `#upReRunScriptsFlag`, and
`reapply_acl` is `false` whatever the page: its selector `upReRunACLFlag`
lacks the `#`, selects by element name and never finds a checked checkbox.
On the form where only the checkbox `upReRunACLFlag` is ticked, the request
has `reapply_acl` `false`. -/
theorem up_request_never_reapplies_acl :
    (∀ (project_name : String) (dom : Dom)
        (selectedOption selectedToolOption selectedSnapshotOption : String),
      get_button_command_json project_name dom "upButton" selectedOption selectedToolOption
          selectedSnapshotOption
        = .ok (.obj [("project_name", .str project_name), ("sub_command",
            .obj [("Up", .obj
              [ ("provision", .bool (dom.idIsChecked "upProvisionFlag")),
                ("rerun_scripts", .bool (dom.idIsChecked "upReRunScriptsFlag")),
                ("reapply_acl", .bool false) ])])], [])) ∧
    sampleDom.idIsChecked "upReRunACLFlag" = true ∧
    get_button_command_json "lab1" sampleDom "upButton" "" "" ""
      = .ok (.obj [("project_name", .str "lab1"), ("sub_command",
          .obj [("Up", .obj
            [ ("provision", .bool false), ("rerun_scripts", .bool false),
              ("reapply_acl", .bool false) ])])], []) := by
  refine ⟨?_, by decide, rfl⟩
  intro project_name dom selectedOption selectedToolOption selectedSnapshotOption
  unfold get_button_command_json
  simp only [if_true, tagIsChecked_upReRunACLFlag]
  rfl

/-! ### C19: the text fields of the `Exec` command -/

/-- C19.  The value the `execButton` branch computes for a text field,
`value.trim().replace(/\s+/g, ' ')`, does not start and does not end with a
white space character, has no two adjacent white space characters, has no
white space character but the space, and has the words of the field value, in
the same order.  For every `input` of type `text` the branch stores the
one-element list holding this value under the id of the input; every value of
the object it collects is a boolean or such a list; and for a command type
other than `tool` this object goes into the request as it is. -/
theorem exec_text_values_are_normalised :
    (∀ s : String,
      (∀ c, (trimAndCollapse s).data.head? = some c → isWhiteSpace c = false) ∧
      (∀ c, (trimAndCollapse s).data.getLast? = some c → isWhiteSpace c = false) ∧
      (∀ a b, [a, b] <:+: (trimAndCollapse s).data →
        ¬ (isWhiteSpace a = true ∧ isWhiteSpace b = true)) ∧
      (∀ c ∈ (trimAndCollapse s).data, isWhiteSpace c = true → c = ' ') ∧
      wordsOf (trimAndCollapse s) = wordsOf s) ∧
    (∀ (dynamicInputs : List (String × Json)) (input : Input), input.type = some "text" →
      execDynamicInput dynamicInputs input
        = setProp (propertyKey input.id) (.arr [.str (trimAndCollapse input.value)])
            dynamicInputs) ∧
    (∀ (dom : Dom) (kv : String × Json),
      kv ∈ dom.execDynamicButtons.foldl execDynamicInput [] →
      (∃ b, kv.2 = .bool b) ∨
        ∃ input ∈ dom.execDynamicButtons, input.type = some "text" ∧
          kv = (propertyKey input.id, .arr [.str (trimAndCollapse input.value)])) ∧
    (∀ (project_name : String) (dom : Dom)
        (selectedOption selectedToolOption selectedSnapshotOption : String),
      selectedOption ≠ "tool" →
      get_button_command_json project_name dom "execButton" selectedOption selectedToolOption
          selectedSnapshotOption
        = .ok (.obj [("project_name", .str project_name), ("sub_command",
            execSubCommand (toolingGetGuestName dom)
              (.obj [(selectedOption,
                .obj (dom.execDynamicButtons.foldl execDynamicInput []))]))], [])) := by
  refine ⟨?_, ?_, ?_, ?_⟩
  · intro s
    obtain ⟨lead, tail, hdec, hlead, htail, hhead, hlast⟩ := trimChars_spec s.data
    refine ⟨?_, ?_, ?_, ?_, ?_⟩
    · intro c hc
      simp only [trimAndCollapse] at hc
      cases ht : trimChars s.data with
      | nil => rw [ht] at hc; simp [replaceWhiteSpaceRuns] at hc
      | cons x xs =>
        have hx := hhead x (by rw [ht]; rfl)
        rw [ht] at hc
        simp only [replaceWhiteSpaceRuns, hx, Bool.false_eq_true, if_false, List.head?_cons,
          Option.some.injEq] at hc
        rw [← hc]; exact hx
    · intro c hc
      simp only [trimAndCollapse] at hc
      rcases List.eq_nil_or_concat (trimChars s.data) with ht | ⟨l, x, ht⟩
      · rw [ht] at hc; simp [replaceWhiteSpaceRuns] at hc
      · rw [List.concat_eq_append] at ht
        have hx := hlast x (by rw [ht]; simp)
        rw [ht, replaceWhiteSpaceRuns_concat l x false hx] at hc
        simp only [List.getLast?_append, List.getLast?_singleton, Option.or_some,
          Option.some.injEq] at hc
        rw [← hc]; exact hx
    · intro a b hab
      obtain ⟨pre, post, hpp⟩ := hab
      have hch := replaceWhiteSpaceRuns_chain (trimChars s.data) false
      simp only [trimAndCollapse] at hpp
      rw [← hpp] at hch
      exact List.chain'_pair.mp hch.left_of_append.right_of_append
    · intro c hc hw
      exact replaceWhiteSpaceRuns_space _ false c hc hw
    · simp only [wordsOf, trimAndCollapse]
      rw [splitWords_replaceWhiteSpaceRuns _ false [] (fun hb => by cases hb)]
      conv => rhs; rw [hdec]
      rw [List.append_assoc, splitWords_leading _ _ hlead, splitWords_trailing _ _ _ htail]
  · intro dynamicInputs input ht
    simp [execDynamicInput, ht]
  · intro dom kv hkv
    rcases execDynamicInput_foldl_mem _ _ kv hkv with h | h | h
    · cases h
    · exact Or.inl h
    · exact Or.inr h
  · intro project_name dom selectedOption selectedToolOption selectedSnapshotOption hne
    simp [get_button_command_json, execButtonSubCommand, hne, setProp, bind, Except.bind,
      pure, Except.pure]

/-! ### C20: the arguments of a tool command -/

/-- C20.  When the command of the tool `command_name` is the one-element list
holding a text made of items separated by white space (white space may also
come first and last), each item a non-empty word without white space and
double quote or a substring in double quotes without a double quote inside,
and there is at least one item, `convertCommandToListOfStrings` returns the
sub-command in which the command is the list of the arguments of the items,
one per item, in order: the word itself, or what is between the quotes.  This
holds for each of the tools `a_d_b`, `test_permissions`, `test_privacy` and
`t_l_s_intercept` the function is called for. -/
theorem command_is_split_into_arguments (sub_command : Json) (command_name : String)
    (lead : String) (items : List (Item × String))
    (hitems : items ≠ []) (hlead : lead.data.all isWhiteSpace = true)
    (hsep : separated items = true)
    (hcmd : jsPath (some sub_command)
        ["Exec", "command_type", "tool", "tool", command_name, "command"]
      = .ok (some (.arr [.str ⟨lead.data ++ commandText items⟩]))) :
    convertCommandToListOfStrings sub_command command_name
      = .ok (jsAssignPath sub_command
          ["Exec", "command_type", "tool", "tool", command_name, "command"]
          (.arr (items.map fun p => .str p.1.argument))) ∧
    jsPath (some (jsAssignPath sub_command
          ["Exec", "command_type", "tool", "tool", command_name, "command"]
          (.arr (items.map fun p => .str p.1.argument))))
        ["Exec", "command_type", "tool", "tool", command_name, "command"]
      = .ok (some (.arr (items.map fun p => .str p.1.argument))) := by
  refine ⟨?_, jsPath_jsAssignPath _ _ _ _ hcmd⟩
  unfold convertCommandToListOfStrings
  simp only [hcmd, bind, Except.bind, jsFirst, List.head?_cons,
    String_match_commandText lead items hitems hlead hsep, List.map_map]
  congr 3
  apply List.map_congr_left
  intro p hp
  simp only [Function.comp]
  rw [stripQuotes_item p.1 (separated_wellFormed items hsep p hp)]

/-- Witness of `command_is_split_into_arguments`: the command `a "b c" d` of
the tool `a_d_b` becomes the list `a`, `b c`, `d`; this is also what
`get_button_command_json` puts into the request for a form whose command
field holds this text with more white space around the items. -/
theorem command_is_split_into_arguments_witness :
    convertCommandToListOfStrings adbSubCommand "a_d_b"
      = .ok (execSubCommand (some (.str "phone"))
          (.obj [("tool", .obj [("tool", .obj [("a_d_b",
            .obj [("command", .arr [.str "a", .str "b c", .str "d"])])])])])) ∧
    get_button_command_json "lab1" sampleDom "execButton" "tool" "a_d_b" ""
      = .ok (.obj [("project_name", .str "lab1"), ("sub_command",
          execSubCommand (some (.str "phone"))
            (.obj [("tool", .obj [("tool", .obj [("a_d_b",
              .obj [("command", .arr [.str "a", .str "b c", .str "d"])])])])]))], []) :=
  ⟨(command_is_split_into_arguments adbSubCommand "a_d_b" ""
      [(.word "a", " "), (.quoted "b c", " "), (.word "d", "")]
      (List.cons_ne_nil _ _) (by decide) (by decide) rfl).1,
    rfl⟩

/-! ### C21: a request while a session is active -/

/-- C21.  When `request_command` is called while the badge is active, the
"command already running" dialog is shown and the function goes on all the
same: it creates a new command generator socket, and when that socket opens,
the `open` handler sends the request over it.  The comment above the test
("if a command is already running, stop") says otherwise.  On the page with
the active badge, the request `Down` is transmitted. -/
theorem request_while_active_is_sent :
    (∀ (init_schema : Json) (url : String) (page : Page),
      page.connection_state.text_bg_primary = true →
      (request_command init_schema url page).page.modal_shown = true ∧
      (request_command init_schema url page).command_generator_websocket = WebSocket.new ∧
      (command_generator_onopen
        { request_command init_schema url page with
          command_generator_websocket :=
            { (request_command init_schema url page).command_generator_websocket with
              readyState := .OPEN } }).state.command_generator_websocket.sent
        = [.text (JSON.stringify init_schema)]) ∧
    activePage.connection_state.text_bg_primary = true ∧
    (command_generator_onopen
      { request_command downRequest "ws://testbed" activePage with
        command_generator_websocket :=
          { (request_command downRequest "ws://testbed" activePage).command_generator_websocket
            with readyState := .OPEN } }).state.command_generator_websocket.sent
      = [.text "\x7b\"project_name\":\"lab1\",\"sub_command\":\"Down\"\x7d"] := by
  refine ⟨?_, rfl, by decide⟩
  intro init_schema url page h
  simp [request_command, h, command_generator_onopen, WebSocket.send, WebSocket.new,
    Outcome.state]

/-! ### C22: the cleanup at the end of a session -/

/-- C22.  The close of the command generator socket with the failure flag
set, and the `close` handler of the command runner socket whatever the state
of the session and the reason, both end with `reset_running_state`: the badge
is inactive, the cancel button is disabled, and one more request for the
deployment state has been issued than before.  The `close` event of a
session, after whatever events, is delivered to that handler. -/
theorem every_end_runs_the_cleanup :
    (∀ g : Generator, g.command_generation_failure = true →
      ∃ q : Page, command_generator_onclose g = .halted (reset_running_state q) ∧
        (reset_running_state q).connection_state
          = { text_bg_primary := false, text_bg_secondary := true,
              html := "Command Runner Inactive" } ∧
        (reset_running_state q).cancel_disabled = true ∧
        (reset_running_state q).state_requests = g.page.state_requests + 1) ∧
    (∀ (r : Runner) (reason : String),
      ∃ q : Page, (onclose r reason).page = reset_running_state q ∧
        (onclose r reason).page.connection_state
          = { text_bg_primary := false, text_bg_secondary := true,
              html := "Command Runner Inactive" } ∧
        (onclose r reason).page.cancel_disabled = true ∧
        (onclose r reason).page.state_requests = r.page.state_requests + 1) ∧
    (∀ (env : Env) (gc : List Json) (url : String) (page : Page) (events : List Event)
        (reason : String),
      (runEvents env (run_orchestration gc url page) events).command_runner_websocket.readyState
        ≠ .CLOSED →
      dispatch env (runEvents env (run_orchestration gc url page) events) (.closed reason)
        = onclose
            { runEvents env (run_orchestration gc url page) events with
              command_runner_websocket :=
                { (runEvents env (run_orchestration gc url page)
                    events).command_runner_websocket with readyState := .CLOSED } } reason) := by
  refine ⟨?_, ?_, ?_⟩
  · intro g hg
    refine ⟨append_terminal_text (console_log g.page "closed command generator socket")
      "Due to an error in command generation, will not continue to orchestration.",
      ?_, rfl, rfl, rfl⟩
    simp only [command_generator_onclose, hg, Bool.true_eq_false, if_false]
  · intro r reason
    exact ⟨append_terminal_text (console_log r.page "closing orchestration websocket")
      ("<br>" ++ reason), rfl, rfl, rfl, rfl⟩
  · intro env gc url page events reason h
    simp only [dispatch, h, if_false]

/-! ### C23: the pseudo terminal takes HTML -/

/-- C23, amended.  `append_terminal_text` reads the HTML of the pseudo terminal
back from the browser and sets it to what it read, the message as it is, and a
line break; nothing else on the page changes.  The message is handed to the
browser unescaped: what is set is what an HTML-safe sink would set, the
message written with `&amp;`, `&lt;`, `&gt;`, exactly when the message has
none of the characters `&`, `<`, `>`.  (`append_terminal_text` of this file is
the case of a browser that reads back the text that was set.) -/
theorem terminal_takes_messages_unescaped (html_of : String → String) (p : Page)
    (msg : String) :
    append_terminal_text_browser html_of p msg
      = { p with terminal := html_of p.terminal ++ msg ++ "<br>" } ∧
    ((append_terminal_text_browser html_of p msg).terminal
        = html_of p.terminal ++ escapeHtml msg ++ "<br>"
      ↔ ∀ c ∈ msg.data, c ≠ '&' ∧ c ≠ '<' ∧ c ≠ '>') ∧
    append_terminal_text p msg = append_terminal_text_browser id p msg := by
  refine ⟨rfl, ?_, rfl⟩
  have hiff : (∀ c ∈ msg.data, isHtmlSpecial c = false)
      ↔ ∀ c ∈ msg.data, c ≠ '&' ∧ c ≠ '<' ∧ c ≠ '>' := by
    constructor
    · intro h c hc
      have := h c hc
      simp only [isHtmlSpecial, Bool.or_eq_false_iff, beq_eq_false_iff_ne, ne_eq] at this
      exact ⟨this.1.1, this.1.2, this.2⟩
    · intro h c hc
      obtain ⟨h1, h2, h3⟩ := h c hc
      simp [isHtmlSpecial, h1, h2, h3]
  rw [← hiff, ← escapeHtml_eq_self_iff]
  simp only [append_terminal_text_browser]
  constructor
  · intro h
    exact (append_cancel_both _ _ _ _ h).symm
  · intro h
    rw [h]

/-- C23, as stated, fails: the message "a<br>b" is handed to the browser with
its characters `<` and `>` as they are, not as the text "a&lt;br&gt;b"; and in
a browser that reads "" and "a<br>" back as they were set, it leaves the
pseudo terminal exactly as the two messages "a" and "b" do: its "<br>" is a
line break, and the message is not one line. -/
theorem message_markup_is_interpreted :
    escapeHtml "a<br>b" = "a&lt;br&gt;b" ∧
    (∀ (html_of : String → String) (p : Page),
      (append_terminal_text_browser html_of p "a<br>b").terminal
        = html_of p.terminal ++ "a<br>b" ++ "<br>" ∧
      (append_terminal_text_browser html_of p "a<br>b").terminal
        ≠ html_of p.terminal ++ escapeHtml "a<br>b" ++ "<br>") ∧
    (∀ html_of : String → String, html_of "" = "" → html_of "a<br>" = "a<br>" →
      append_terminal_text_browser html_of
          (append_terminal_text_browser html_of samplePage "a") "b"
        = append_terminal_text_browser html_of samplePage "a<br>b") := by
  refine ⟨by decide, ?_, ?_⟩
  · intro html_of p
    refine ⟨rfl, ?_⟩
    intro h
    have := append_cancel_both _ _ _ _ h
    revert this
    decide
  · intro html_of h0 h1
    have e2 : ("" : String) ++ "a" ++ "<br>" = "a<br>" := by decide
    have e3 : ("a<br>" : String) ++ "b" ++ "<br>" = "" ++ "a<br>b" ++ "<br>" := by decide
    simp only [append_terminal_text_browser, samplePage, h0, e2, h1, e3]

/-! ### C24: resources of an unrecognised shape -/

/-- C24, amended.  For a `Deploy` or `Destroy` instruction: a payload that is
one object with neither `Guest` nor `Network` gives the context `undefined`,
and the request text "making request: <tag> undefined"; a payload that is a
list gives "[ ... ]" around the names joined by ", ", where a resource with
neither `Guest` nor `Network` has no name and stands as the empty string; a
`Network` whose `Ovn` object has none of the eight known kinds has the name
"Ovn "; in these cases the line is printed.  A `Network` without `Ovn` makes
the extraction throw a `TypeError`, alone or inside a list, and no line is
printed. -/
theorem unrecognised_resource_context (tag : String) (h : tag = "Deploy" ∨ tag = "Destroy") :
    (∀ kvs : List (String × Json), kvs.lookup "Guest" = none → kvs.lookup "Network" = none →
      extractNameForOneResource (some (.obj kvs)) = .ok none ∧
      requestText (some (taggedCommand tag (.obj kvs)))
        = .ok ("making request: " ++ tag ++ " " ++ "undefined")) ∧
    (∀ (resources : List Json) (names : List (Option Json)), resourceNames resources names →
      requestText (some (taggedCommand tag (.arr resources)))
        = .ok ("making request: " ++ tag ++ " " ++ ("[ " ++ Array_join names ", " ++ " ]"))) ∧
    (∀ kvs ovn net : List (String × Json), kvs.lookup "Guest" = none →
      kvs.lookup "Network" = some (.obj net) → net.lookup "Ovn" = some (.obj ovn) →
      (∀ kind ∈ ["Switch", "SwitchPort", "Router", "RouterPort", "Route", "Nat",
        "DhcpOption", "ExternalGateway"], ovn.lookup kind = none) →
      requestText (some (taggedCommand tag (.obj kvs)))
        = .ok ("making request: " ++ tag ++ " " ++ "Ovn ")) ∧
    (∀ kvs net : List (String × Json), kvs.lookup "Guest" = none →
      kvs.lookup "Network" = some (.obj net) → net.lookup "Ovn" = none →
      requestText (some (taggedCommand tag (.obj kvs))) = .error .TypeError ∧
      ∀ (env : Env) (p : Page) (before after : List Json),
        ∃ e, formatServerSendMessages env p
          (some (taggedCommand tag (.arr (before ++ .obj kvs :: after)))) = .error e) ∧
    (∀ (env : Env) (p : Page) (c : Option Json) (text : String), requestText c = .ok text →
      ∃ q : Page, formatServerSendMessages env p c = .ok q ∧
        q.terminal = p.terminal
          ++ (env.toISOString p.dates ++ "<span style=\"color: #21730d\">  INFO: </span>"
            ++ text)
          ++ "<br>") := by
  have hif : (tag = "Deploy" ∨ tag = "Destroy") = True := eq_true h
  refine ⟨?_, ?_, ?_, ?_, ?_⟩
  · intro kvs hg hn
    have hx := extractNameForOneResource_unknown kvs hg hn
    refine ⟨hx, ?_⟩
    rw [requestText_tagged]
    simp only [hif, if_true, extractNameForAllResources, hx]
    rfl
  · intro resources names hr
    rw [requestText_tagged]
    simp only [hif, if_true, extractNameForAllResources_arr resources names hr]
    rfl
  · intro kvs ovn net hg hn ho hk
    rw [requestText_tagged]
    simp only [hif, if_true, extractNameForAllResources,
      extractNameForOneResource_ovn_unknown kvs ovn net hg hn ho hk]
    rfl
  · intro kvs net hg hn ho
    have hx := extractNameForOneResource_no_ovn kvs net hg hn ho
    constructor
    · rw [requestText_tagged]
      simp only [hif, if_true, extractNameForAllResources, hx]
    · intro env p before after
      obtain ⟨e, he⟩ := extractNameForAllResources_arr_error (before ++ .obj kvs :: after)
        ⟨.obj kvs, by simp, .TypeError, hx⟩
      refine ⟨e, ?_⟩
      simp only [formatServerSendMessages, requestText_tagged, hif, if_true, he]
  · intro env p c text ht
    exact formatServerSendMessages_text env p c text ht

/-- Witness of `unrecognised_resource_context`: the `Destroy` of the one
resource `{"Volume":{"name":"v"}}` gives "making request: Destroy undefined". -/
theorem unrecognised_resource_context_witness :
    ("Destroy" = "Deploy" ∨ "Destroy" = "Destroy") ∧
    requestText (some volumeCommand) = .ok ("making request: " ++ "Destroy" ++ " " ++ "undefined") :=
  ⟨Or.inr rfl,
    ((unrecognised_resource_context "Destroy" (Or.inr rfl)).1
      [("Volume", .obj [("name", .str "v")])] rfl rfl).2⟩

/-- C24, as stated, fails: the `Deploy` of a network that is not an OVN network
makes `formatServerSendMessages` throw a `TypeError`, and the `Destroy` of a
resource that is neither a guest nor a network gives the context `undefined`,
not the empty string. -/
theorem non_ovn_network_fails_the_request_line :
    formatServerSendMessages sampleEnv samplePage (some bridgeCommand) = .error .TypeError ∧
    requestText (some volumeCommand) = .ok "making request: Destroy undefined" ∧
    (∃ q : Page, formatServerSendMessages sampleEnv samplePage (some volumeCommand) = .ok q ∧
      q.terminal = "1970-01-01T00:00:00.000Z<span style=\"color: #21730d\">  INFO: </span>making request: Destroy undefined<br>") :=
  ⟨rfl, rfl, _, rfl, rfl⟩

/-! ### C25: the request line -/

/-- C25.  The line `formatServerSendMessages` prints is the time stamp, the
INFO level and the request text, which is "making request: " followed by the
name, a space and the context: for an instruction that is a string, the
string and the empty context; for an instruction `{tag: payload}` with a tag
other than `Deploy` and `Destroy`, the tag and the empty context; for `Deploy`
or `Destroy` of a single `Guest`, the tag and the name of the guest; for
`Deploy` or `Destroy` of a list of resources, the tag and "[ " followed by the
names of the resources joined by ", " and " ]".  The `Destroy` of the guests
`nginx` and `phone` gives "making request: Destroy [ nginx, phone ]". -/
theorem request_line_text :
    (∀ (env : Env) (p : Page) (c : Option Json) (text : String), requestText c = .ok text →
      ∃ q : Page, formatServerSendMessages env p c = .ok q ∧
        q.terminal = p.terminal
          ++ (env.toISOString p.dates ++ "<span style=\"color: #21730d\">  INFO: </span>"
            ++ text)
          ++ "<br>") ∧
    (∀ (s : String) (rest : List (String × Json)),
      requestText (some (.obj (("instruction", .str s) :: rest)))
        = .ok ("making request: " ++ s ++ " " ++ "")) ∧
    (∀ (tag : String) (payload : Json), tag ≠ "Deploy" → tag ≠ "Destroy" →
      requestText (some (taggedCommand tag payload))
        = .ok ("making request: " ++ tag ++ " " ++ "")) ∧
    (∀ (tag name : String) (more rest : List (String × Json)),
      tag = "Deploy" ∨ tag = "Destroy" →
      requestText (some (taggedCommand tag
          (.obj (("Guest", .obj (("name", .str name) :: more)) :: rest))))
        = .ok ("making request: " ++ tag ++ " " ++ name)) ∧
    (∀ (tag : String) (resources : List Json) (names : List String),
      tag = "Deploy" ∨ tag = "Destroy" →
      List.Forall₂ (fun r n => extractNameForOneResource (some r) = .ok (some (.str n)))
        resources names →
      requestText (some (taggedCommand tag (.arr resources)))
        = .ok ("making request: " ++ tag ++ " " ++ ("[ " ++ ", ".intercalate names ++ " ]"))) ∧
    (∀ (name : String) (more rest : List (String × Json)),
      extractNameForOneResource (some (.obj (("Guest", .obj (("name", .str name) :: more)) :: rest)))
        = .ok (some (.str name))) ∧
    requestText (some destroyCommand) = .ok "making request: Destroy [ nginx, phone ]" := by
  refine ⟨formatServerSendMessages_text, requestText_string, ?_, ?_, ?_, ?_, rfl⟩
  · intro tag payload h1 h2
    rw [requestText_tagged]
    simp [h1, h2]
  · intro tag name more rest h
    rw [requestText_tagged]
    simp only [eq_true h, if_true, extractNameForAllResources,
      extractNameForOneResource_guest]
    rfl
  · intro tag resources names h hr
    have hn : resourceNames resources (names.map fun n => some (.str n)) := by
      unfold resourceNames
      rw [List.forall₂_map_right_iff]
      exact hr
    rw [requestText_tagged]
    simp only [eq_true h, if_true, extractNameForAllResources_arr resources _ hn,
      Array_join_strings]
    rfl
  · intro name more rest
    exact extractNameForOneResource_guest _ more rest

/-! ### C26: the brackets of the failed line -/

/-- C26.  For a `List` response with failed entries, the "Fail:" line shows
the failed messages joined by ", ", bare exactly when there is one successful
entry and in "[ ... ]" otherwise: the test reads the number of successful
entries, not of failed ones.  With the entries A (successful), B and C
(failed) the line is "Fail: B, C", two failed messages without brackets. -/
theorem fail_line_brackets_follow_successes :
    (∀ (env : Env) (p : Page) (text : String) (entries : List (Bool × String))
        (last_command : Option Json) (instruction : Json),
      env.JSON_parse text = some (listResponse entries) →
      getInstructionName last_command = .ok instruction →
      failedMessages entries ≠ [] →
      ∃ (q : Page) (before : String),
        formatServerResponseMessages env p text last_command = .ok q ∧
        q.terminal = before ++ "<span style=\"color: #b31e0b\"> ERROR: </span>"
          ++ ("Fail: "
            ++ (if (successfulMessages entries).length = 1
                then ", ".intercalate (failedMessages entries)
                else "[ " ++ ", ".intercalate (failedMessages entries) ++ " ]"))
          ++ "<br>") ∧
    sampleEnv.JSON_parse listResponseTextABC
      = some (listResponse [(true, "A"), (false, "B"), (false, "C")]) ∧
    (∃ q : Page,
      formatServerResponseMessages sampleEnv samplePage listResponseTextABC
        (some destroyCommand) = .ok q ∧
      q.terminal = "1970-01-01T00:00:00.000Z<span style=\"color: #21730d\">  INFO: </span>Destroy Ok: A<br>1970-01-01T00:00:00.001Z<span style=\"color: #b31e0b\"> ERROR: </span>Fail: B, C<br>") := by
  refine ⟨?_, rfl, _, rfl, rfl⟩
  intro env p text entries last_command instruction hparse hname hf
  refine ⟨_, ?_, formatServerResponseMessages_list env p text entries last_command instruction
    hparse hname, ?_⟩
  · exact (formatList env p instruction
      ((successfulMessages entries).map fun m => some (.str m)) []).terminal
      ++ env.toISOString (formatList env p instruction
        ((successfulMessages entries).map fun m => some (.str m)) []).dates
  · unfold formatList
    simp only [List.length_map, Array_join_strings]
    cases hs : successfulMessages entries with
    | nil =>
      cases hfm : failedMessages entries with
      | nil => exact absurd hfm hf
      | cons b bs =>
        simp [log_text_with_colour, append_terminal_text, String.append_assoc]
    | cons a as =>
      cases hfm : failedMessages entries with
      | nil => exact absurd hfm hf
      | cons b bs =>
        simp [log_text_with_colour, append_terminal_text, String.append_assoc]

/-! ### C27: the counters stay within the list -/

/-- C27, amended.  For a list of commands that is not empty and whose commands
can all be printed as a request line, and every sequence of messages after
the socket opened, the session has `1 ≤ current_command ≤ N`, and
`messages_received` is 0 or 1, or it is 2 with `current_command = N` once the
end of the commands is reached; so the index `current_command - 1` that labels
the responses is the index of a command whose name can be read, and as long as
`current_command` is not `N` the index of the next `send_message` is the index
of a command of the list. -/
theorem counters_stay_in_bounds (env : Env) (gc : List Json) (url : String) (page : Page)
    (messages : List MessageData) (hne : gc ≠ [])
    (hs : ∀ x ∈ gc, sendable (some x) = true) :
    1 ≤ (session env gc url page messages).current_command ∧
    (session env gc url page messages).current_command ≤ gc.length ∧
    ((session env gc url page messages).messages_received < 2 ∨
      ((session env gc url page messages).messages_received = 2 ∧
        (session env gc url page messages).current_command = gc.length)) ∧
    (∃ x, jsIndex gc (((session env gc url page messages).current_command : Int) - 1) = some x ∧
      nameable (some x) = true) ∧
    ((session env gc url page messages).current_command ≠ gc.length →
      ∃ x, gc[(session env gc url page messages).current_command]? = some x) := by
  have hcore := (session_core env gc url page messages).2
  obtain ⟨h1, h2, h3, h4⟩ := Core.session_inBounds gc messages hne hs
  rw [Core.session, ← hcore] at h1 h2 h3 h4
  simp only [Runner.core] at h1 h2 h3 h4
  refine ⟨h1, h2, h3, ?_, ?_⟩
  · cases hx : jsIndex gc (((session env gc url page messages).current_command : Int) - 1) with
    | none => rw [hx, nameable_none] at h4; cases h4
    | some x => rw [hx] at h4; exact ⟨x, rfl, h4⟩
  · intro hn
    have hlt : (session env gc url page messages).current_command < gc.length := by omega
    exact ⟨_, List.getElem?_eq_getElem hlt⟩

/-- Witness of `counters_stay_in_bounds`: the commands `Init` and `Destroy`,
after the acknowledgement and the result of the first and the
acknowledgement of the second. -/
theorem counters_stay_in_bounds_witness :
    [initCommand, destroyCommand] ≠ [] ∧
    (∀ x ∈ [initCommand, destroyCommand], sendable (some x) = true) ∧
    1 ≤ (session sampleEnv [initCommand, destroyCommand] "ws://testbed" samplePage
      [ackMessage, resultMessage, ackMessage]).current_command ∧
    (session sampleEnv [initCommand, destroyCommand] "ws://testbed" samplePage
      [ackMessage, resultMessage, ackMessage]).current_command
      ≤ [initCommand, destroyCommand].length :=
  ⟨List.cons_ne_nil _ _, by decide,
    (counters_stay_in_bounds sampleEnv [initCommand, destroyCommand] "ws://testbed" samplePage
      [ackMessage, resultMessage, ackMessage] (List.cons_ne_nil _ _) (by decide)).1,
    (counters_stay_in_bounds sampleEnv [initCommand, destroyCommand] "ws://testbed" samplePage
      [ackMessage, resultMessage, ackMessage] (List.cons_ne_nil _ _) (by decide)).2.1⟩

/-- C27, as stated, fails: with the list of the one command that deploys a
network that is not an OVN network, the `open` handler throws and
`current_command` stays 0, so the index `current_command - 1` names no
command; with the list `Init`, that command, the second reply of `Init` leaves
`messages_received` at 2 and `current_command` at 1 with the socket open,
before any end of the commands. -/
theorem unprintable_command_breaks_the_bounds :
    (session sampleEnv [bridgeCommand] "ws://testbed" samplePage []).current_command = 0 ∧
    jsIndex [bridgeCommand]
      (((session sampleEnv [bridgeCommand] "ws://testbed" samplePage []).current_command : Int)
        - 1) = none ∧
    (session sampleEnv [initCommand, bridgeCommand] "ws://testbed" samplePage
      [ackMessage, resultMessage]).messages_received = 2 ∧
    (session sampleEnv [initCommand, bridgeCommand] "ws://testbed" samplePage
      [ackMessage, resultMessage]).current_command = 1 ∧
    (session sampleEnv [initCommand, bridgeCommand] "ws://testbed" samplePage
      [ackMessage, resultMessage]).command_runner_websocket.readyState = .OPEN :=
  ⟨by decide, rfl, by decide, by decide, by decide⟩

/-! ### C28: after the end of the commands -/

/-- C28.  Once `messages_received` has reached 2, as it has when the end of
the commands was reached, the message handler called on any further messages,
of any kind, never changes `current_command`, never sends a frame and never
writes the end of the commands to the console again; `messages_received` does
not decrease, and grows by at most one per message: the counting branch only
adds one to it. -/
theorem completed_driver_stays_put (env : Env) (r : Runner) (messages : List MessageData)
    (h : 2 ≤ r.messages_received) :
    (handleAll env r messages).generated_commands = r.generated_commands ∧
    (handleAll env r messages).current_command = r.current_command ∧
    r.messages_received ≤ (handleAll env r messages).messages_received ∧
    (handleAll env r messages).messages_received ≤ r.messages_received + messages.length ∧
    (handleAll env r messages).command_runner_websocket.sent
      = r.command_runner_websocket.sent ∧
    (handleAll env r messages).page.completions = r.page.completions ∧
    handle_message_count env r
      = .returned { r with messages_received := r.messages_received + 1 } := by
  refine ⟨?_, ?_, ?_, ?_, ?_, ?_, handle_message_count_after env r h⟩
  all_goals
    induction messages generalizing r with
    | nil => simp [handleAll]
    | cons m ms ih =>
      obtain ⟨h0, h1, h2, h3, h4, h5⟩ := handle_message_after env r m h
      have := ih (handle_message env r m).state (Nat.le_trans h h2)
      simp only [handleAll, List.foldl_cons, List.length_cons] at this ⊢
      first
        | (rw [this]; assumption)
        | omega

/-- Witness of `completed_driver_stays_put`: the session over the one command
`Init` has counted two replies; a result, an acknowledgement and a log message
handled after that leave `current_command` at 1 and send nothing. -/
theorem completed_driver_stays_put_witness :
    2 ≤ completedSession.messages_received ∧
    (handleAll sampleEnv completedSession
      [resultMessage, ackMessage, plainLogMessage]).current_command
      = completedSession.current_command ∧
    (handleAll sampleEnv completedSession
      [resultMessage, ackMessage, plainLogMessage]).command_runner_websocket.sent
      = completedSession.command_runner_websocket.sent :=
  ⟨by decide,
    (completed_driver_stays_put sampleEnv completedSession
      [resultMessage, ackMessage, plainLogMessage] (by decide)).2.1,
    (completed_driver_stays_put sampleEnv completedSession
      [resultMessage, ackMessage, plainLogMessage] (by decide)).2.2.2.2.1⟩

/-! ### C29: a tool command without a token -/

/-- C29.  When the command of a tool is the one-element list holding a string
in which the regular expression finds no match, `convertCommandToListOfStrings`
throws a `TypeError` (`match` gives `null`) and returns no list; the empty
string and the string made of one double quote are such strings, and a field
value made of white space only is normalised to the empty string.  So for each
of the tools `a_d_b`, `test_permissions`, `test_privacy`, `t_l_s_intercept`
and a form whose one text input `command` is blank, `get_button_command_json`
throws and returns no request. -/
theorem blank_tool_command_builds_no_request :
    (∀ (sub_command : Json) (command_name s : String),
      jsPath (some sub_command)
          ["Exec", "command_type", "tool", "tool", command_name, "command"]
        = .ok (some (.arr [.str s])) →
      String_match s = none →
      convertCommandToListOfStrings sub_command command_name = .error .TypeError) ∧
    String_match "" = none ∧
    String_match "\"" = none ∧
    (∀ v : String, v.data.all isWhiteSpace = true → trimAndCollapse v = "") ∧
    (∀ (project_name : String) (dom : Dom) (tool selectedSnapshotOption v : String)
        (checked : Bool),
      tool ∈ commandTools →
      dom.execDynamicButtons
        = [{ type := some "text", id := some "command", value := v, checked := checked }] →
      v.data.all isWhiteSpace = true →
      get_button_command_json project_name dom "execButton" "tool" tool selectedSnapshotOption
        = .error .TypeError) ∧
    get_button_command_json "lab1" blankCommandDom "execButton" "tool" "a_d_b" ""
      = .error .TypeError := by
  refine ⟨convertCommandToListOfStrings_no_token, rfl, rfl, trimAndCollapse_white, ?_, rfl⟩
  intro project_name dom tool selectedSnapshotOption v checked ht hd hv
  unfold get_button_command_json
  simp [execButtonSubCommand_blank dom tool v checked ht hd hv, bind, Except.bind, throw,
    throwThe, MonadExceptOf.throw]

/-! ### C30: the empty list of commands -/

/-- C30.  With the empty list of commands the `open` handler throws a
`TypeError` while the request line of the missing command 0 is built, before
anything is printed or sent, and leaves `current_command` at 0.  Whatever
messages follow, `current_command` stays 0 and no frame is sent; as long as no
message is the acknowledgement "Receiving instruction OK", no reply is counted
and the end of the commands is not displayed.  (The driver displays it only
if the server sends that acknowledgement twice.) -/
theorem empty_list_sends_nothing (env : Env) (url : String) (page : Page) :
    on_open env
        { run_orchestration [] url page with
          command_runner_websocket :=
            { (run_orchestration [] url page).command_runner_websocket with
              readyState := .OPEN } }
      = .threw .TypeError
        { run_orchestration [] url page with
          command_runner_websocket :=
            { (run_orchestration [] url page).command_runner_websocket with
              readyState := .OPEN } } ∧
    (∀ messages : List MessageData,
      (session env [] url page messages).current_command = 0 ∧
      (session env [] url page messages).command_runner_websocket.sent = []) ∧
    (∀ messages : List MessageData, (∀ m ∈ messages, m ≠ ackMessage) →
      (session env [] url page messages).messages_received = 0 ∧
      (session env [] url page messages).done = false) ∧
    (session sampleEnv [] "ws://testbed" samplePage [ackMessage, ackMessage]).done = true := by
  refine ⟨rfl, ?_, ?_, by decide⟩
  · intro messages
    have hcore := (session_core env [] url page messages).2
    obtain ⟨h1, h2, _⟩ := Core.session_empty messages
    rw [Core.session, ← hcore] at h1 h2
    exact ⟨h1, h2⟩
  · intro messages hall
    have hcore := (session_core env [] url page messages).2
    have h3 := (Core.session_empty messages).2.2 hall
    have h3r : (session env [] url page messages).messages_received = 0 := by
      rw [Core.session, ← hcore] at h3
      exact h3
    refine ⟨h3r, ?_⟩
    cases hd : (session env [] url page messages).done with
    | false => rfl
    | true =>
      have := (session_done env [] url page messages hd).2.1
      rw [h3] at this
      cases this

end RunCommand
